import Mathlib

/-!
# Failure detector of the leader coordinator

A shallow embedding of `src/logservice/leader_coordinator/ob_failure_detector.cpp`.

Conventions of the embedding.

* `ObArray<T>` is a `List T`: `push_back` appends at the end, `remove(idx)` is
  `List.eraseIdx`, `reset` gives the empty list, `count` is the length.  The
  library calls that can only fail by running out of memory (`push_back`, the
  `assign` of an event or of a callable, `set_info`, `remove` of an index in
  range) always succeed here, since lists are unbounded.
* `ObFunction<bool()>` is an optional handle: `none` is the empty callable
  (`is_valid()` is false), `some k` is the callable named `k`.  What a callable
  returns when it is invoked is not part of the detector; it is given by the
  caller of `detect_recover` as a function from handles to booleans.
* The rows handed to `SERVER_EVENT_ADD` are kept, oldest first, in the ghost
  field `server_event_history_`.
* The spin lock serialises the public operations; every operation is therefore
  one atomic function on the detector.  Logging is dropped.
-/

namespace coordinator

/-! ## Return codes -/

/-- Return codes used by the detector.  The codes the source names are
constructors of their own; any other failure code that an outside call hands
back is `OB_OTHER_ERROR code`. -/
inductive ObRet where
  | OB_SUCCESS
  | OB_INVALID_ARGUMENT
  | OB_NOT_INIT
  | OB_NOT_RUNNING
  | OB_ENTRY_EXIST
  | OB_ENTRY_NOT_EXIST
  | OB_ERR_UNEXPECTED
  | OB_EAGAIN
  | OB_OTHER_ERROR (code : Int)
  deriving DecidableEq, Repr

open ObRet

/-- The test `OB_SUCC(ret)`. -/
def OB_SUCC (ret : ObRet) : Bool := decide (ret = OB_SUCCESS)

/-- The test `OB_FAIL(ret)`. -/
def OB_FAIL (ret : ObRet) : Bool := !OB_SUCC ret

/-! ## Failure events -/

/-- Modelled from the spec: the enumeration `FailureType` is declared in
`failure_event.h`, which is not among the sources; these are the types the
specification lists and the detector constructs. -/
inductive FailureType where
  | PROCESS_HANG
  | RESOURCE_NOT_ENOUGH
  | SCHEMA_NOT_REFRESHED
  | ENTER_ELECTION_SILENT
  deriving DecidableEq, Repr

/-- Modelled from the spec: the enumeration `FailureModule` of
`failure_event.h`. -/
inductive FailureModule where
  | LOG
  | STORAGE
  | SCHEMA
  deriving DecidableEq, Repr

/-- Modelled from the spec: the enumeration `FailureLevel` of
`failure_event.h`. -/
inductive FailureLevel where
  | SERIOUS
  | FATAL
  deriving DecidableEq, Repr

/-- Modelled from the spec: the class `FailureEvent` of `failure_event.h`,
with the members the detector reads (`type_`, `module_`, `level_`, `info_`). -/
structure FailureEvent where
  type_ : FailureType
  module_ : FailureModule
  level_ : FailureLevel
  info_ : String
  deriving DecidableEq, Repr

/-- Modelled from the spec: `FailureEvent::operator==` is declared in
`failure_event.h`, which is not among the sources.  Two events are equal iff
their type and module match; level and info are descriptive only. -/
def FailureEvent.equal (a b : FailureEvent) : Bool :=
  decide (a.type_ = b.type_) && decide (a.module_ = b.module_)

/-- The accessor `FailureEvent::get_failure_level`. -/
def FailureEvent.get_failure_level (e : FailureEvent) : FailureLevel := e.level_

/-- An `ObFunction<bool()>`: `none` is the empty callable, `some k` the
callable with handle `k`. -/
abbrev ObFunction := Option Nat

/-- The test `ObFunction::is_valid`. -/
def ObFunction.is_valid (f : ObFunction) : Bool := f.isSome

/-- The class `FailureEventWithRecoverOp`: an event and its recovery
callable. -/
structure FailureEventWithRecoverOp where
  event_ : FailureEvent
  recover_detect_operation_ : ObFunction
  deriving DecidableEq, Repr

/-- The initialiser `FailureEventWithRecoverOp::init`: both members are
assigned from the arguments. -/
def FailureEventWithRecoverOp.init (event : FailureEvent)
    (recover_detect_operation : ObFunction) : FailureEventWithRecoverOp :=
  { event_ := event, recover_detect_operation_ := recover_detect_operation }

/-! ## The audit stream -/

/-- One call of `SERVER_EVENT_ADD("FAILURE_DETECTOR", info, "FAILURE_MODULE",
module, "FAILURE_TYPE", type, "AUTO_RECOVER", is_valid)`.  `row` is a call
whose event and callable were read from a live object.  `row_out_of_range` is
the call made when they were read through `events_with_ops_[idx]` with `idx`
equal to the count of the array: only the tag is known then. -/
inductive ServerEvent where
  | row (info : String) (failure_module : FailureModule) (failure_type : FailureType)
      (auto_recover : Bool)
  | row_out_of_range (info : String)
  deriving DecidableEq, Repr

/-! ## The detector -/

/-- The members of `ObFailureDetector` that the registry operations and the
detection loop use, and the ghost history of audit rows.  A task handle is
`true` while its periodic task is scheduled and has not been stopped. -/
structure ObFailureDetector where
  is_running_ : Bool
  coordinator_ : Bool
  has_add_clog_hang_event_ : Bool
  has_add_data_disk_hang_event_ : Bool
  has_add_clog_full_event_ : Bool
  has_schema_error_ : Bool
  has_election_silent_event_ : Bool
  events_with_ops_ : List FailureEventWithRecoverOp
  failure_task_handle_ : Bool
  recovery_task_handle_ : Bool
  server_event_history_ : List ServerEvent
  deriving DecidableEq, Repr

/-- The constructor `ObFailureDetector::ObFailureDetector`, run in a process
whose event history is `history`. -/
def ObFailureDetector.construct (history : List ServerEvent) : ObFailureDetector :=
  { is_running_ := false
    coordinator_ := false
    has_add_clog_hang_event_ := false
    has_add_data_disk_hang_event_ := false
    has_add_clog_full_event_ := false
    has_schema_error_ := false
    has_election_silent_event_ := false
    events_with_ops_ := []
    failure_task_handle_ := false
    recovery_task_handle_ := false
    server_event_history_ := history }

/-- Modelled from the spec: `check_is_running_` is defined in
`ob_failure_detector.h`, which is not among the sources; it reads the member
`is_running_`, the flag that `mtl_start` sets. -/
def check_is_running_ (d : ObFailureDetector) : Bool := d.is_running_

/-- The helper `insert_event_to_table_`: one row is handed to
`SERVER_EVENT_ADD`; its tag is `info`, its module and type are those of
`event`, and `AUTO_RECOVER` is `recover_operation.is_valid()`.  Every caller
discards the return code, so the history records the call whether or not the
sink stores the row. -/
def insert_event_to_table_ (d : ObFailureDetector) (event : FailureEvent)
    (recover_operation : ObFunction) (info : String) : ObFailureDetector :=
  { d with server_event_history_ := d.server_event_history_ ++
      [ServerEvent.row info event.module_ event.type_ recover_operation.is_valid] }

/-- The search loop shared by `add_failure_event` and `remove_failure_event`:
`for (; idx < count; ++idx) if (events_with_ops_[idx].event_ == event) break;`
The value is the final `idx`: the position of the first entry equal to `event`,
or the count when there is none. -/
def find_idx (event : FailureEvent) : List FailureEventWithRecoverOp → Nat
  | [] => 0
  | x :: xs => if x.event_.equal event then 0 else find_idx event xs + 1

/-- The operation `add_failure_event(event)`.  The branches taken when
`event_with_op.init` or `events_with_ops_.push_back` fails are left out: both
fail only for lack of memory. -/
def add_failure_event (d : ObFailureDetector) (event : FailureEvent) :
    ObRet × ObFailureDetector :=
  if !check_is_running_ d then (OB_NOT_RUNNING, d)
  else
    let idx := find_idx event d.events_with_ops_
    if idx ≠ d.events_with_ops_.length then (OB_ENTRY_EXIST, d)
    else
      let event_with_op := FailureEventWithRecoverOp.init event none
      let d1 := { d with events_with_ops_ := d.events_with_ops_ ++ [event_with_op] }
      (OB_SUCCESS, insert_event_to_table_ d1 event none event.info_)

/-- The operation `add_failure_event(event, recover_detect_operation)`, with
the same two branches left out. -/
def add_failure_event_with_op (d : ObFailureDetector) (event : FailureEvent)
    (recover_detect_operation : ObFunction) : ObRet × ObFailureDetector :=
  if !check_is_running_ d then (OB_NOT_RUNNING, d)
  else
    let idx := find_idx event d.events_with_ops_
    if idx ≠ d.events_with_ops_.length then (OB_ENTRY_EXIST, d)
    else
      let event_with_op := FailureEventWithRecoverOp.init event recover_detect_operation
      let d1 := { d with events_with_ops_ := d.events_with_ops_ ++ [event_with_op] }
      (OB_SUCCESS, insert_event_to_table_ d1 event recover_detect_operation event.info_)

/-- The operation `remove_failure_event(event)`.  The audit row is built from
the stored entry at `idx` before that entry is removed; `remove(idx)` is called
with an index in range and succeeds. -/
def remove_failure_event (d : ObFailureDetector) (event : FailureEvent) :
    ObRet × ObFailureDetector :=
  if !check_is_running_ d then (OB_NOT_RUNNING, d)
  else
    let idx := find_idx event d.events_with_ops_
    if h : idx < d.events_with_ops_.length then
      let stored := d.events_with_ops_.get ⟨idx, h⟩
      let d1 := insert_event_to_table_ d stored.event_ stored.recover_detect_operation_
        "REMOVE FAILURE"
      (OB_SUCCESS, { d1 with events_with_ops_ := d1.events_with_ops_.eraseIdx idx })
    else (OB_ENTRY_NOT_EXIST, d)

/-- The operation `get_specified_level_event(level, results)`.  The value is
the return code, the detector afterwards and the array of the caller
afterwards: `results.reset()` and then one `push_back` per entry of the
requested level. -/
def get_specified_level_event (d : ObFailureDetector) (level : FailureLevel)
    (results : List FailureEvent) : ObRet × ObFailureDetector × List FailureEvent :=
  if !check_is_running_ d then (OB_NOT_RUNNING, d, results)
  else
    (OB_SUCCESS, d,
      d.events_with_ops_.foldl
        (fun acc x => if x.event_.get_failure_level = level then acc ++ [x.event_] else acc) [])

/-! ## Life cycle -/

/-- The function `mtl_init`; `coordinator` tells whether `MTL(ObLeaderCoordinator *)`
is non-null. -/
def mtl_init (d : ObFailureDetector) (coordinator : Bool) : ObRet × ObFailureDetector :=
  if !coordinator then (OB_INVALID_ARGUMENT, d)
  else (OB_SUCCESS, { d with coordinator_ := coordinator })

/-- The function `mtl_start`.  `failure_schedule_ret` and `recovery_schedule_ret`
are the codes returned by the two `schedule_task_repeat` calls; the second call
is made only when the first succeeded. -/
def mtl_start (d : ObFailureDetector) (failure_schedule_ret recovery_schedule_ret : ObRet) :
    ObRet × ObFailureDetector :=
  let d0 := { d with events_with_ops_ := [] }
  if !d0.coordinator_ then (OB_NOT_INIT, d0)
  else if OB_FAIL failure_schedule_ret then (failure_schedule_ret, d0)
  else
    let d1 := { d0 with failure_task_handle_ := true }
    if OB_FAIL recovery_schedule_ret then (recovery_schedule_ret, d1)
    else (OB_SUCCESS, { d1 with recovery_task_handle_ := true, is_running_ := true })

/-- The function `mtl_stop`, called on a pointer that may be null: both task
handles are stopped, no other member is written. -/
def mtl_stop (p_failure_detector : Option ObFailureDetector) : Option ObFailureDetector :=
  match p_failure_detector with
  | none => none
  | some d => some { d with failure_task_handle_ := false, recovery_task_handle_ := false }

/-- The function `destroy`: the five latches are reset. -/
def destroy (d : ObFailureDetector) : ObFailureDetector :=
  { d with
    has_add_clog_hang_event_ := false
    has_add_data_disk_hang_event_ := false
    has_add_clog_full_event_ := false
    has_schema_error_ := false
    has_election_silent_event_ := false }

/-! ## The recovery loop -/

/-- The audit call of `detect_recover`, made after `events_with_ops_.remove(idx)`
has succeeded: its event and callable are read through `events_with_ops_[idx]`
in the array as it is after the removal. -/
def insert_recovered_to_table_ (d : ObFailureDetector) (idx : Nat) : ObFailureDetector :=
  match d.events_with_ops_.get? idx with
  | some e => insert_event_to_table_ d e.event_ e.recover_detect_operation_ "DETECT REVOCER"
  | none => { d with server_event_history_ := d.server_event_history_ ++
      [ServerEvent.row_out_of_range "DETECT REVOCER"] }

/-- The loop of `detect_recover`, started at index `idx` and run for at most
`fuel` iterations.  `recover_flag k` is what the callable `k` returns when it
is invoked.  After a removal the source decrements `idx` and the loop header
increments it again, so the next iteration looks at the same index.
`remove(idx)` is called with an index in range and succeeds, so `ret` stays
`OB_SUCCESS` and the loop ends only when `idx` reaches the count. -/
def detect_recover_loop (recover_flag : Nat → Bool) :
    Nat → Nat → ObFailureDetector → ObFailureDetector
  | 0, _, d => d
  | fuel + 1, idx, d =>
    if h : idx < d.events_with_ops_.length then
      match (d.events_with_ops_.get ⟨idx, h⟩).recover_detect_operation_ with
      | some k =>
        if recover_flag k then
          let d1 := { d with events_with_ops_ := d.events_with_ops_.eraseIdx idx }
          detect_recover_loop recover_flag fuel idx (insert_recovered_to_table_ d1 idx)
        else detect_recover_loop recover_flag fuel (idx + 1) d
      | none => detect_recover_loop recover_flag fuel (idx + 1) d
    else d

/-- The task `detect_recover`.  Every iteration either removes an entry or
advances the index, so the count of the array bounds the number of
iterations. -/
def detect_recover (d : ObFailureDetector) (recover_flag : Nat → Bool) : ObFailureDetector :=
  detect_recover_loop recover_flag d.events_with_ops_.length 0 d

/-! ## The detection loop -/

/-- Modelled from the spec: the enumeration `ObDeviceHealthStatus` of the I/O
manager, which is not among the sources; `DEVICE_HEALTH_NORMAL` is the healthy
value, every other value is a degraded one. -/
inductive ObDeviceHealthStatus where
  | DEVICE_HEALTH_NORMAL
  | DEVICE_HEALTH_WARNING
  | DEVICE_HEALTH_ERROR
  deriving DecidableEq, Repr

/-- What the outside subsystems answer during one run of `detect_failure`. -/
structure Probes where
  /-- the value of `palf_disk_hang_detector_.is_clog_disk_hang(sensitivity)` -/
  is_clog_disk_hang : Bool
  /-- the out-parameter of the same call -/
  sensitivity : Int
  /-- the code returned by `get_device_health_status` -/
  get_device_health_status_ret : ObRet
  /-- its out-parameter -/
  data_disk_status : ObDeviceHealthStatus
  /-- the code returned by `check_disk_space_enough` -/
  check_disk_space_enough_ret : ObRet
  /-- its out-parameter -/
  is_disk_enough : Bool
  /-- the value of `GSCHEMASERVICE.is_tenant_not_refreshed(MTL_ID())` -/
  schema_not_refreshed : Bool
  /-- whether `MTL(ObLogService*)` is null in `detect_election_silent_` -/
  log_service_is_null : Bool
  /-- whether `get_palf_env()` is null -/
  palf_env_is_null : Bool
  /-- the code returned by `palf_env->for_each(functor)` -/
  for_each_ret : ObRet
  /-- the flag the functor has left in `is_election_silent` -/
  is_election_silent : Bool

/-- The buffer length `BUF_LEN` of `detect_palf_hang_failure_`. -/
def BUF_LEN : Nat := 30

/-- The text that `databuff_printf(infos, BUF_LEN, "clog disk hang, sen: %ld", sensitivity)`
leaves in the buffer: at most `BUF_LEN - 1` characters. -/
def clog_disk_hang_info (sensitivity : Int) : String :=
  String.mk (("clog disk hang, sen: " ++ toString sensitivity).data.take (BUF_LEN - 1))

/-- The event built by `detect_palf_hang_failure_`. -/
def clog_disk_hang_event (sensitivity : Int) : FailureEvent :=
  { type_ := FailureType.PROCESS_HANG, module_ := FailureModule.LOG,
    level_ := FailureLevel.FATAL, info_ := clog_disk_hang_info sensitivity }

/-- The event built by `detect_data_disk_io_failure_`. -/
def data_disk_io_hang_event : FailureEvent :=
  { type_ := FailureType.PROCESS_HANG, module_ := FailureModule.STORAGE,
    level_ := FailureLevel.FATAL, info_ := "data disk io hang event" }

/-- The event built by `detect_palf_disk_full_`. -/
def clog_disk_full_event : FailureEvent :=
  { type_ := FailureType.RESOURCE_NOT_ENOUGH, module_ := FailureModule.LOG,
    level_ := FailureLevel.FATAL, info_ := "clog disk full event" }

/-- The event built by `detect_schema_not_refreshed_`. -/
def schema_not_refreshed_event : FailureEvent :=
  { type_ := FailureType.SCHEMA_NOT_REFRESHED, module_ := FailureModule.SCHEMA,
    level_ := FailureLevel.SERIOUS, info_ := "schema not refreshed" }

/-- The event built by `detect_election_silent_`; its info is left empty. -/
def election_silent_event : FailureEvent :=
  { type_ := FailureType.ENTER_ELECTION_SILENT, module_ := FailureModule.LOG,
    level_ := FailureLevel.FATAL, info_ := "" }

/-- The step `detect_palf_hang_failure_`. -/
def detect_palf_hang_failure_ (d : ObFailureDetector) (p : Probes) : ObFailureDetector :=
  let has_failure := d.has_add_clog_hang_event_
  let is_clog_disk_hang := p.is_clog_disk_hang
  if has_failure = false then
    if !is_clog_disk_hang then d
    else
      let r := add_failure_event d (clog_disk_hang_event p.sensitivity)
      if OB_FAIL r.1 then r.2 else { r.2 with has_add_clog_hang_event_ := true }
  else
    if is_clog_disk_hang then d
    else
      let r := remove_failure_event d (clog_disk_hang_event p.sensitivity)
      if OB_FAIL r.1 then r.2 else { r.2 with has_add_clog_hang_event_ := false }

/-- The step `detect_data_disk_io_failure_`. -/
def detect_data_disk_io_failure_ (d : ObFailureDetector) (p : Probes) : ObFailureDetector :=
  if OB_FAIL p.get_device_health_status_ret then d
  else if d.has_add_data_disk_hang_event_ = false then
    if p.data_disk_status = ObDeviceHealthStatus.DEVICE_HEALTH_NORMAL then d
    else
      let r := add_failure_event d data_disk_io_hang_event
      if OB_FAIL r.1 then r.2 else { r.2 with has_add_data_disk_hang_event_ := true }
  else
    if p.data_disk_status ≠ ObDeviceHealthStatus.DEVICE_HEALTH_NORMAL then d
    else
      let r := remove_failure_event d data_disk_io_hang_event
      if OB_FAIL r.1 then r.2 else { r.2 with has_add_data_disk_hang_event_ := false }

/-- The step `detect_palf_disk_full_`. -/
def detect_palf_disk_full_ (d : ObFailureDetector) (p : Probes) : ObFailureDetector :=
  if OB_FAIL p.check_disk_space_enough_ret then d
  else if d.has_add_clog_full_event_ = false then
    if p.is_disk_enough then d
    else
      let r := add_failure_event d clog_disk_full_event
      if OB_FAIL r.1 then r.2 else { r.2 with has_add_clog_full_event_ := true }
  else
    if !p.is_disk_enough then d
    else
      let r := remove_failure_event d clog_disk_full_event
      if OB_FAIL r.1 then r.2 else { r.2 with has_add_clog_full_event_ := false }

/-- The step `detect_schema_not_refreshed_`. -/
def detect_schema_not_refreshed_ (d : ObFailureDetector) (p : Probes) : ObFailureDetector :=
  if d.has_schema_error_ = false then
    if !p.schema_not_refreshed then d
    else
      let r := add_failure_event d schema_not_refreshed_event
      if OB_FAIL r.1 then r.2 else { r.2 with has_schema_error_ := true }
  else
    if p.schema_not_refreshed then d
    else
      let r := remove_failure_event d schema_not_refreshed_event
      if OB_FAIL r.1 then r.2 else { r.2 with has_schema_error_ := false }

/-- The step `detect_election_silent_`, compiled only under
`OB_BUILD_ARBITRATION`. -/
def detect_election_silent_ (d : ObFailureDetector) (p : Probes) : ObFailureDetector :=
  if p.log_service_is_null then d
  else if p.palf_env_is_null then d
  else if OB_FAIL p.for_each_ret then d
  else if d.has_election_silent_event_ = false then
    if p.is_election_silent = false then d
    else
      let r := add_failure_event d election_silent_event
      if OB_FAIL r.1 then r.2 else { r.2 with has_election_silent_event_ := true }
  else
    if p.is_election_silent = true then d
    else
      let r := remove_failure_event d election_silent_event
      if OB_FAIL r.1 then r.2 else { r.2 with has_election_silent_event_ := false }

/-- The task `detect_failure`; `OB_BUILD_ARBITRATION` tells whether the build
defines the macro of that name. -/
def detect_failure (OB_BUILD_ARBITRATION : Bool) (d : ObFailureDetector) (p : Probes) :
    ObFailureDetector :=
  let d1 := detect_palf_hang_failure_ d p
  let d2 := detect_data_disk_io_failure_ d1 p
  let d3 := detect_palf_disk_full_ d2 p
  let d4 := detect_schema_not_refreshed_ d3 p
  if OB_BUILD_ARBITRATION then detect_election_silent_ d4 p else d4

/-! ## Sequences of calls -/

/-- One call made on the detector from outside or by one of its two periodic
tasks. -/
inductive Call where
  | add (event : FailureEvent)
  | add_with_op (event : FailureEvent) (recover_detect_operation : ObFunction)
  | remove (event : FailureEvent)
  | detect_recover (recover_flag : Nat → Bool)
  | detect_failure (p : Probes)

/-- The detector after one call. -/
def Call.apply (OB_BUILD_ARBITRATION : Bool) (d : ObFailureDetector) : Call → ObFailureDetector
  | Call.add event => (add_failure_event d event).2
  | Call.add_with_op event op => (add_failure_event_with_op d event op).2
  | Call.remove event => (remove_failure_event d event).2
  | Call.detect_recover recover_flag => coordinator.detect_recover d recover_flag
  | Call.detect_failure p => coordinator.detect_failure OB_BUILD_ARBITRATION d p

/-- The detector after a sequence of calls, made one after the other. -/
def run (OB_BUILD_ARBITRATION : Bool) (d : ObFailureDetector) (calls : List Call) :
    ObFailureDetector :=
  calls.foldl (Call.apply OB_BUILD_ARBITRATION) d

/-! ## Notions used to state the properties -/

/-- The pair that `operator==` compares. -/
def FailureEvent.key (e : FailureEvent) : FailureType × FailureModule := (e.type_, e.module_)

/-- The keys of the entries of an active list, in order. -/
def keys (l : List FailureEventWithRecoverOp) : List (FailureType × FailureModule) :=
  l.map (fun x => x.event_.key)

/-- An entry survives one run of `detect_recover`: it has no callable, or its
callable returns false. -/
def survives (recover_flag : Nat → Bool) (x : FailureEventWithRecoverOp) : Bool :=
  match x.recover_detect_operation_ with
  | none => true
  | some k => !recover_flag k

/-! ## Fault families and their latches -/

/-- The fault families of the detection loop. -/
inductive Family where
  | clog_hang
  | data_disk_hang
  | clog_full
  | schema_error
  | election_silent
  deriving DecidableEq, Repr

/-- The latch of a family: the member that the step of that family loads. -/
def Family.latch (d : ObFailureDetector) : Family → Bool
  | Family.clog_hang => d.has_add_clog_hang_event_
  | Family.data_disk_hang => d.has_add_data_disk_hang_event_
  | Family.clog_full => d.has_add_clog_full_event_
  | Family.schema_error => d.has_schema_error_
  | Family.election_silent => d.has_election_silent_event_

/-- The store `ATOMIC_SET(&latch, b)` on the latch of a family. -/
def Family.set_latch (F : Family) (b : Bool) (d : ObFailureDetector) : ObFailureDetector :=
  match F with
  | Family.clog_hang => { d with has_add_clog_hang_event_ := b }
  | Family.data_disk_hang => { d with has_add_data_disk_hang_event_ := b }
  | Family.clog_full => { d with has_add_clog_full_event_ := b }
  | Family.schema_error => { d with has_schema_error_ := b }
  | Family.election_silent => { d with has_election_silent_event_ := b }

/-- The event that the step of a family builds.  The info of the clog hang
event varies with the sensitivity; it plays no part in `operator==`. -/
def Family.canonical_event : Family → FailureEvent
  | Family.clog_hang => clog_disk_hang_event 0
  | Family.data_disk_hang => data_disk_io_hang_event
  | Family.clog_full => clog_disk_full_event
  | Family.schema_error => schema_not_refreshed_event
  | Family.election_silent => election_silent_event

/-- The key of the event of a family. -/
def Family.key (F : Family) : FailureType × FailureModule := F.canonical_event.key

/-- The event is equal to the event of no family. -/
def outside_families (e : FailureEvent) : Bool :=
  !e.equal (Family.canonical_event Family.clog_hang) &&
  !e.equal (Family.canonical_event Family.data_disk_hang) &&
  !e.equal (Family.canonical_event Family.clog_full) &&
  !e.equal (Family.canonical_event Family.schema_error) &&
  !e.equal (Family.canonical_event Family.election_silent)

/-- The call is one of the two periodic tasks, or an outside call of
`add_failure_event` or `remove_failure_event` whose event is equal to the
event of no family. -/
def Call.outside_families : Call → Bool
  | Call.add event => coordinator.outside_families event
  | Call.add_with_op event _ => coordinator.outside_families event
  | Call.remove event => coordinator.outside_families event
  | Call.detect_recover _ => true
  | Call.detect_failure _ => true

/-- The shape shared by the five steps of the detection loop once their probe
has answered: on a rising edge the event is added and the latch set, on a
falling edge the event is removed and the latch cleared, and the latch is left
alone when the registry call fails. -/
def edge_step (F : Family) (fault : Bool) (ev : FailureEvent) (d : ObFailureDetector) :
    ObFailureDetector :=
  if F.latch d = false then
    if !fault then d
    else
      let r := add_failure_event d ev
      if OB_FAIL r.1 then r.2 else F.set_latch true r.2
  else
    if fault then d
    else
      let r := remove_failure_event d ev
      if OB_FAIL r.1 then r.2 else F.set_latch false r.2

/-- The invariant behind the agreement of latches and registry: no two entries
share a key, an entry with the key of a family has no callable, and the latch
of every family is set exactly when its key is in the list. -/
def Consistent (d : ObFailureDetector) : Prop :=
  (keys d.events_with_ops_).Nodup ∧
  (∀ x ∈ d.events_with_ops_, ∀ F : Family, x.event_.key = F.key →
    x.recover_detect_operation_ = none) ∧
  (∀ F : Family, F.latch d = true ↔ F.key ∈ keys d.events_with_ops_)

/-- A detector that has been constructed in a process with the given history,
initialised and started. -/
def started (history : List ServerEvent) : ObFailureDetector :=
  (mtl_start (mtl_init (ObFailureDetector.construct history) true).2 OB_SUCCESS OB_SUCCESS).2

/-- Probes that report no fault. -/
def healthy_probes : Probes :=
  { is_clog_disk_hang := false
    sensitivity := 0
    get_device_health_status_ret := OB_SUCCESS
    data_disk_status := ObDeviceHealthStatus.DEVICE_HEALTH_NORMAL
    check_disk_space_enough_ret := OB_SUCCESS
    is_disk_enough := true
    schema_not_refreshed := false
    log_service_is_null := false
    palf_env_is_null := false
    for_each_ret := OB_SUCCESS
    is_election_silent := false }

/-- Probes that report a full clog disk and nothing else. -/
def full_disk_probes : Probes := { healthy_probes with is_disk_enough := false }

/-! ## Concrete detectors used as examples -/

/-- A detector that has been constructed, initialised and started. -/
def started_detector : ObFailureDetector :=
  (mtl_start (mtl_init (ObFailureDetector.construct []) true).2 OB_SUCCESS OB_SUCCESS).2

/-- An event of the storage module that is not built by the detection loop
itself: same type and module as the data disk event, other level and info. -/
def storage_hang_serious : FailureEvent :=
  { type_ := FailureType.PROCESS_HANG, module_ := FailureModule.STORAGE,
    level_ := FailureLevel.SERIOUS, info_ := "storage hang" }

/-- An event that no step of the detection loop builds. -/
def schema_resource_event : FailureEvent :=
  { type_ := FailureType.RESOURCE_NOT_ENOUGH, module_ := FailureModule.SCHEMA,
    level_ := FailureLevel.SERIOUS, info_ := "schema memory" }

/-- A running detector with three entries: the clog full event, the schema
resource event with callable 7, and the data disk event. -/
def three_entries : ObFailureDetector :=
  { started_detector with
    events_with_ops_ :=
      [ { event_ := clog_disk_full_event, recover_detect_operation_ := none },
        { event_ := schema_resource_event, recover_detect_operation_ := some 7 },
        { event_ := data_disk_io_hang_event, recover_detect_operation_ := none } ] }

/-- The started detector after `mtl_stop`. -/
def stopped_detector : ObFailureDetector :=
  { started_detector with failure_task_handle_ := false, recovery_task_handle_ := false }

/-- A detector on which `mtl_start` failed because the recovery task could not
be scheduled. -/
def half_started_detector : ObFailureDetector :=
  (mtl_start (mtl_init (ObFailureDetector.construct []) true).2 OB_SUCCESS
    (OB_OTHER_ERROR (-1))).2

/-! ## The disk hang detector

`double` values are rational numbers and the operations on them are exact,
with one exception: the three operations of the update
`(sample + 9 * old) / 10` of the learned table round to binary64, as
`round_to_double` tells, because what that update leaves in the table depends
on the rounding.  `int64_t` values are integers and do not overflow.  The arrays
`learn_avg_bw_`, `learn_avg_rt_` and `detect_error_flags_` are maps from the
index to the element.  Only what the log statements print is dropped. -/

/-- The constants that `PalfDiskHangDetector` uses.  They are declared in
`ob_failure_detector.h` and `ob_define.h`, which are not among the sources, so
they are parameters.  `PALF_DISK_LEARN_SLOT` and `MIN_RECOVERY_INTERVAL` are
the declared sizes of the arrays and are therefore positive. -/
structure PalfConstants where
  OB_INVALID_TIMESTAMP : Int
  PALF_DISK_DETECT_INTERVAL_US : Int
  PALF_DISK_FAILURE_TIME_UPPER_BOUND : Int
  MIN_WRITE_SIZE : Int
  MIN_RECOVERY_INTERVAL : Nat
  PALF_DISK_LEARN_SLOT : Int
  learn_slot_pos : 0 < PALF_DISK_LEARN_SLOT
  recovery_interval_pos : 0 < MIN_RECOVERY_INTERVAL

/-- The members of `PalfDiskHangDetector`.  `curr_detect_round_` is only ever
set to zero and incremented. -/
structure PalfDiskHangDetector where
  last_detect_time_ : Int
  last_detect_failure_time_ : Int
  curr_detect_round_ : Nat
  prev_accum_write_size_ : Int
  prev_accum_write_count_ : Int
  prev_accum_write_rt_ : Int
  learn_avg_bw_ : Int → ℚ
  learn_avg_rt_ : Int → ℚ
  detect_error_flags_ : Nat → Bool

/-- The constructor `PalfDiskHangDetector::PalfDiskHangDetector`. -/
def PalfDiskHangDetector.construct (c : PalfConstants) : PalfDiskHangDetector :=
  { last_detect_time_ := c.OB_INVALID_TIMESTAMP
    last_detect_failure_time_ := c.OB_INVALID_TIMESTAMP
    curr_detect_round_ := 0
    prev_accum_write_size_ := 0
    prev_accum_write_count_ := 0
    prev_accum_write_rt_ := 0
    learn_avg_bw_ := fun _ => -1
    learn_avg_rt_ := fun _ => -1
    detect_error_flags_ := fun _ => false }

/-- What one call of `is_clog_disk_hang` reads from outside the detector: the
clock, the two configuration items, and the answer of
`get_io_statistic_info`. -/
structure TickInput where
  /-- whether `MTL(ObLogService*)` is null -/
  log_service_is_null : Bool
  /-- the value of `ObTimeUtility::current_time()` -/
  now : Int
  /-- the value of `GCONF.log_storage_warning_tolerance_time` -/
  tolerance_time : Int
  /-- the value of `GCONF.log_storage_warning_trigger_percentage` -/
  sensitivity : Int
  /-- the code returned by `get_io_statistic_info` -/
  get_io_statistic_info_ret : ObRet
  last_working_time : Int
  pending_write_size : Int
  pending_write_count : Int
  pending_write_rt : Int
  accum_write_size : Int
  accum_write_count : Int
  accum_write_rt : Int

/-- The function `min_recovery_interval_`. -/
def min_recovery_interval_ (c : PalfConstants) : Int := c.MIN_RECOVERY_INTERVAL

/-- The conversion of a `double` to an integer type: the fraction is
discarded. -/
def double_to_int (x : ℚ) : Int := if 0 ≤ x then ⌊x⌋ else ⌈x⌉

/-- The number of decimal digits of `n` after the first, found by dividing by
ten at most `fuel` times. -/
def ilog10 : Nat → Nat → Nat
  | 0, _ => 0
  | fuel + 1, n => if n < 10 then 0 else ilog10 fuel (n / 10) + 1

/-- The value of `static_cast<int>(std::log10(x))`: the logarithm to base ten
with its fraction discarded.  For `x ≤ 0` the logarithm is not a number and
the conversion is undefined; `0` stands for it. -/
def log10_to_int (x : ℚ) : Int :=
  if 1 ≤ x then (ilog10 ⌊x⌋₊ ⌊x⌋₊ : Nat)
  else if 0 < x then -((ilog10 ⌊1 / x⌋₊ ⌊1 / x⌋₊ : Nat) : Int)
  else 0

/-- The value of `slot_idx` in the `else` branch of `size_to_learn_idx_`,
before it is compared with `PALF_DISK_LEARN_SLOT`. -/
def unclamped_slot_idx (log_size : ℚ) : Int :=
  let exp : Int := log10_to_int log_size
  let base : ℚ := log_size / (10 : ℚ) ^ exp
  if base > 4 then double_to_int ((base - 4) / (1 / 10) + ((90 * (exp - 3) : Int) : ℚ))
  else double_to_int (((90 * (exp - 3) : Int) : ℚ) - (4 - base) / (1 / 10))

/-- The function `size_to_learn_idx_`. -/
def size_to_learn_idx_ (c : PalfConstants) (log_size : ℚ) : Int :=
  if log_size ≤ c.MIN_WRITE_SIZE then 0
  else
    let slot_idx : Int := unclamped_slot_idx log_size
    if slot_idx ≥ c.PALF_DISK_LEARN_SLOT then c.PALF_DISK_LEARN_SLOT - 1 else slot_idx

/-- The loop `while (base > 9) { base -= 9; exp++; }` of `learn_idx_to_size_`,
run for at most `fuel` iterations. -/
def reduce_base : Nat → ℚ → Int → ℚ × Int
  | 0, base, exp => (base, exp)
  | fuel + 1, base, exp =>
    if base > 9 then reduce_base fuel (base - 9) (exp + 1) else (base, exp)

/-- The function `learn_idx_to_size_`.  The loop starts from
`4 + learn_idx * 0.1` and takes nine off in each iteration, so `learn_idx`
iterations are more than it can make. -/
def learn_idx_to_size_ (c : PalfConstants) (learn_idx : Int) : ℚ :=
  if learn_idx ≥ 0 ∧ learn_idx < c.PALF_DISK_LEARN_SLOT then
    let r := reduce_base learn_idx.toNat (4 + (learn_idx : ℚ) * (1 / 10)) 3
    r.1 * (10 : ℚ) ^ r.2
  else 0

/-- The loop of `has_continuous_error_`, entered with `i = n - 1`: it adds up
the flags at `i % MIN_RECOVERY_INTERVAL` while `i >= 0` and
`i > curr_detect_round_ - continuous_error_gap`. -/
def error_count_loop (c : PalfConstants) (d : PalfDiskHangDetector)
    (continuous_error_gap : Int) : Nat → Int
  | 0 => 0
  | n + 1 =>
    if (n : Int) > (d.curr_detect_round_ : Int) - continuous_error_gap then
      (if d.detect_error_flags_ (n % c.MIN_RECOVERY_INTERVAL) then 1 else 0) +
        error_count_loop c d continuous_error_gap n
    else 0

/-- The function `has_continuous_error_`. -/
def has_continuous_error_ (c : PalfConstants) (d : PalfDiskHangDetector) (has_failure : Bool)
    (continuous_error_gap : Int) : Bool :=
  let error_count := error_count_loop c d continuous_error_gap (d.curr_detect_round_ + 1)
  if has_failure then decide (error_count ≠ 0)
  else decide (error_count > Int.tdiv continuous_error_gap 2)

/-- The local `has_failure` of `is_clog_disk_hang`. -/
def has_failure (c : PalfConstants) (d : PalfDiskHangDetector) : Bool :=
  decide (c.OB_INVALID_TIMESTAMP ≠ d.last_detect_failure_time_)

/-- The second test of the `if` chain of `is_clog_disk_hang`: the call comes
too early after the last sample. -/
def rate_limited (c : PalfConstants) (d : PalfDiskHangDetector) (inp : TickInput) : Bool :=
  decide (c.OB_INVALID_TIMESTAMP ≠ d.last_detect_time_ ∧
    inp.now - d.last_detect_time_ < c.PALF_DISK_DETECT_INTERVAL_US)

/-- The call reaches the last branch of the `if` chain of `is_clog_disk_hang`:
the log service is there, the call is not rate limited, and the statistics
were read. -/
def samples (c : PalfConstants) (d : PalfDiskHangDetector) (inp : TickInput) : Bool :=
  !inp.log_service_is_null && !rate_limited c d inp && !OB_FAIL inp.get_io_statistic_info_ret

/-- The local `this_write_size`. -/
def this_write_size (d : PalfDiskHangDetector) (inp : TickInput) : Int :=
  inp.accum_write_size - d.prev_accum_write_size_

/-- The local `this_write_count`. -/
def this_write_count (d : PalfDiskHangDetector) (inp : TickInput) : Int :=
  inp.accum_write_count - d.prev_accum_write_count_

/-- The local `this_write_rt`. -/
def this_write_rt (d : PalfDiskHangDetector) (inp : TickInput) : Int :=
  inp.accum_write_rt - d.prev_accum_write_rt_

/-- The local `this_avg_bw`. -/
def this_avg_bw (d : PalfDiskHangDetector) (inp : TickInput) : ℚ :=
  if this_write_rt d inp ≤ 0 then 0
  else (this_write_size d inp : ℚ) * 1000 * 1000 / (this_write_rt d inp : ℚ)

/-- The local `this_avg_size`. -/
def this_avg_size (d : PalfDiskHangDetector) (inp : TickInput) : ℚ :=
  if this_write_count d inp ≤ 0 then 0
  else (this_write_size d inp : ℚ) / (this_write_count d inp : ℚ)

/-- The local `this_avg_rt`. -/
def this_avg_rt (d : PalfDiskHangDetector) (inp : TickInput) : ℚ :=
  if this_write_count d inp ≤ 0 then 0
  else (this_write_rt d inp : ℚ) / (this_write_count d inp : ℚ)

/-- The local `pending_avg_bw`. -/
def pending_avg_bw (inp : TickInput) : ℚ :=
  if inp.pending_write_rt ≤ 0 then 0
  else (inp.pending_write_size : ℚ) * 1000 * 1000 / (inp.pending_write_rt : ℚ)

/-- The local `pending_avg_size`. -/
def pending_avg_size (inp : TickInput) : ℚ :=
  if inp.pending_write_count ≤ 0 then 0
  else (inp.pending_write_size : ℚ) / (inp.pending_write_count : ℚ)

/-- The local `pending_avg_rt`. -/
def pending_avg_rt (inp : TickInput) : ℚ :=
  if inp.pending_write_count ≤ 0 then 0
  else (inp.pending_write_rt : ℚ) / (inp.pending_write_count : ℚ)

/-- The local `bw_warn_ratio`. -/
def bw_warn_ratio : ℚ := 1 / 2

/-- The local `bw_error_ratio`: `MIN(0.5, 0.01 * sensitivity)`. -/
def bw_error_ratio (inp : TickInput) : ℚ := min (1 / 2) ((1 / 100) * (inp.sensitivity : ℚ))

/-- The first scan of `is_clog_disk_hang`, entered with `i = n - 1` and the
flags `(is_perf_decrease_warn, is_perf_decrease_error)`; it goes down to
`i = 0` and leaves as soon as the error flag is set. -/
def perf_decrease_scan (d : PalfDiskHangDetector) (warn_ratio error_ratio avg_rt avg_bw : ℚ) :
    Nat → Bool × Bool → Bool × Bool
  | 0, flags => flags
  | n + 1, flags =>
    let warn : Bool :=
      if flags.1 = false ∧ d.learn_avg_rt_ n > 0 ∧ d.learn_avg_rt_ n < avg_rt ∧
          d.learn_avg_bw_ n > 0 ∧ d.learn_avg_bw_ n * warn_ratio > avg_bw then true
      else flags.1
    let error : Bool :=
      if flags.2 = false ∧ d.learn_avg_rt_ n > 0 ∧ d.learn_avg_rt_ n < avg_rt ∧
          d.learn_avg_bw_ n > 0 ∧ d.learn_avg_bw_ n * error_ratio > avg_bw then true
      else flags.2
    if error = true then (warn, error)
    else perf_decrease_scan d warn_ratio error_ratio avg_rt avg_bw n (warn, error)

/-- The pair `(is_perf_decrease_warn, is_perf_decrease_error)` after the first
scan, which starts at `size_to_learn_idx_(this_avg_size) - 1` and runs only
when `this_write_count > 0`. -/
def perf_decrease (c : PalfConstants) (d : PalfDiskHangDetector) (inp : TickInput) :
    Bool × Bool :=
  if this_write_count d inp > 0 then
    perf_decrease_scan d bw_warn_ratio (bw_error_ratio inp) (this_avg_rt d inp)
      (this_avg_bw d inp) (size_to_learn_idx_ c (this_avg_size d inp)).toNat (false, false)
  else (false, false)

/-- The local `is_perf_decrease_warn` after the first scan. -/
def is_perf_decrease_warn (c : PalfConstants) (d : PalfDiskHangDetector) (inp : TickInput) :
    Bool := (perf_decrease c d inp).1

/-- The local `is_perf_decrease_error` after the first scan. -/
def is_perf_decrease_error (c : PalfConstants) (d : PalfDiskHangDetector) (inp : TickInput) :
    Bool := (perf_decrease c d inp).2

/-- The local `has_long_pending_io`. -/
def has_long_pending_io (c : PalfConstants) (inp : TickInput) : Bool :=
  decide (c.OB_INVALID_TIMESTAMP ≠ inp.last_working_time ∧
    inp.now - inp.last_working_time > inp.tolerance_time)

/-- The local `check_small_pending_io`. -/
def check_small_pending_io (c : PalfConstants) (d : PalfDiskHangDetector) (inp : TickInput) :
    Bool :=
  decide (pending_avg_rt inp > (c.PALF_DISK_DETECT_INTERVAL_US : ℚ)) &&
    (has_long_pending_io c inp == false) && (is_perf_decrease_error c d inp == false)

/-- The second scan of `is_clog_disk_hang`, entered with `i = n - 1`: it stops
at the first slot whose learned bandwidth, scaled by the error ratio, is above
`total_bw`. -/
def small_pending_scan (d : PalfDiskHangDetector) (error_ratio total_bw : ℚ) : Nat → Bool
  | 0 => false
  | n + 1 =>
    if d.learn_avg_bw_ n > 0 ∧ d.learn_avg_bw_ n * error_ratio > total_bw then true
    else small_pending_scan d error_ratio total_bw n

/-- The local `has_small_pending_io` after the second scan. -/
def has_small_pending_io (c : PalfConstants) (d : PalfDiskHangDetector) (inp : TickInput) :
    Bool :=
  if check_small_pending_io c d inp = true then
    small_pending_scan d (bw_error_ratio inp) (this_avg_bw d inp + pending_avg_bw inp)
      (size_to_learn_idx_ c (pending_avg_size inp)).toNat
  else false

/-- The local `continuous_error_gap`. -/
def continuous_error_gap (c : PalfConstants) (d : PalfDiskHangDetector) (inp : TickInput) :
    Int :=
  if has_failure c d then min_recovery_interval_ c
  else Int.tdiv inp.tolerance_time c.PALF_DISK_DETECT_INTERVAL_US

/-- The flag written to `detect_error_flags_[curr_detect_round_ % MIN_RECOVERY_INTERVAL]`. -/
def tick_error_flag (c : PalfConstants) (d : PalfDiskHangDetector) (inp : TickInput) : Bool :=
  is_perf_decrease_error c d inp || has_small_pending_io c d inp || has_long_pending_io c inp

/-- The array `detect_error_flags_` after that write. -/
def recorded_error_flags (c : PalfConstants) (d : PalfDiskHangDetector) (inp : TickInput) :
    Nat → Bool :=
  Function.update d.detect_error_flags_ (d.curr_detect_round_ % c.MIN_RECOVERY_INTERVAL)
    (tick_error_flag c d inp)

/-- The local `has_continuous_error`: `has_continuous_error_` is called after
the flag of this round has been written and before the round is incremented. -/
def has_continuous_error (c : PalfConstants) (d : PalfDiskHangDetector) (inp : TickInput) :
    Bool :=
  has_continuous_error_ c { d with detect_error_flags_ := recorded_error_flags c d inp }
    (has_failure c d) (continuous_error_gap c d inp)

/-- The condition under which the tick learns: the four anomaly flags and
`has_failure` are false. -/
def learns (c : PalfConstants) (d : PalfDiskHangDetector) (inp : TickInput) : Bool :=
  (is_perf_decrease_warn c d inp == false) && (is_perf_decrease_error c d inp == false) &&
    (has_small_pending_io c d inp == false) && (has_long_pending_io c inp == false) &&
    (has_failure c d == false)

/-- The number of binary digits of `n` after the first, found by halving at
most `fuel` times: `2 ^ ilog2 n n <= n < 2 ^ (ilog2 n n + 1)` for `n > 0`. -/
def ilog2 : Nat → Nat → Nat
  | 0, _ => 0
  | fuel + 1, n => if n < 2 then 0 else ilog2 fuel (n / 2) + 1

/-- The integer nearest to `x`; when `x` is halfway between two integers, the
even one. -/
def round_half_even (x : ℚ) : Int :=
  if x - ⌊x⌋ < 1 / 2 then ⌊x⌋
  else if 1 / 2 < x - ⌊x⌋ then ⌊x⌋ + 1
  else if ⌊x⌋ % 2 = 0 then ⌊x⌋ else ⌊x⌋ + 1

/-- The binary exponent of `x`, for `x` other than zero: the `e` with
`2 ^ e <= |x| < 2 ^ (e + 1)`.  The difference of the digit counts of numerator
and denominator is `e` or `e + 1`. -/
def binary_exponent (x : ℚ) : Int :=
  if (2 : ℚ) ^ ((ilog2 x.num.natAbs x.num.natAbs : Int) - (ilog2 x.den x.den : Int)) ≤ |x| then
    (ilog2 x.num.natAbs x.num.natAbs : Int) - (ilog2 x.den x.den : Int)
  else (ilog2 x.num.natAbs x.num.natAbs : Int) - (ilog2 x.den x.den : Int) - 1

/-- The `double` that an arithmetic operation gives when its exact result is
`x`: `x` rounded to the nearest number with a significand of 53 binary digits,
ties to even, as IEEE 754 binary64 does in its default mode.  The range of the
exponent is not bounded: the values that the detector computes from `int64_t`
counters are far from overflow and underflow. -/
def round_to_double (x : ℚ) : ℚ :=
  if x = 0 then 0
  else (round_half_even (x / (2 : ℚ) ^ (binary_exponent x - 52)) : ℚ) *
    (2 : ℚ) ^ (binary_exponent x - 52)

/-- The expression `(sample + 9 * old) / 10` of the learning block as `double`
arithmetic evaluates it: the product, the sum and the quotient are each
rounded. -/
def learn_update (sample old : ℚ) : ℚ :=
  round_to_double (round_to_double (sample + round_to_double (9 * old)) / 10)

/-- The array `learn_avg_bw_` after the learning block. -/
def learned_bw (c : PalfConstants) (d : PalfDiskHangDetector) (inp : TickInput) : Int → ℚ :=
  let this_idx := size_to_learn_idx_ c (this_avg_size d inp)
  if learns c d inp = true then
    if d.learn_avg_bw_ this_idx ≤ 0 ∨ d.learn_avg_rt_ this_idx ≤ 0 then
      Function.update d.learn_avg_bw_ this_idx (this_avg_bw d inp)
    else
      Function.update d.learn_avg_bw_ this_idx
        (learn_update (this_avg_bw d inp) (d.learn_avg_bw_ this_idx))
  else d.learn_avg_bw_

/-- The array `learn_avg_rt_` after the learning block. -/
def learned_rt (c : PalfConstants) (d : PalfDiskHangDetector) (inp : TickInput) : Int → ℚ :=
  let this_idx := size_to_learn_idx_ c (this_avg_size d inp)
  if learns c d inp = true then
    if d.learn_avg_bw_ this_idx ≤ 0 ∨ d.learn_avg_rt_ this_idx ≤ 0 then
      Function.update d.learn_avg_rt_ this_idx (this_avg_rt d inp)
    else
      Function.update d.learn_avg_rt_ this_idx
        (learn_update (this_avg_rt d inp) (d.learn_avg_rt_ this_idx))
  else d.learn_avg_rt_

/-- The value of `bool_ret` at the end of the last branch of
`is_clog_disk_hang`. -/
def tick_result (c : PalfConstants) (d : PalfDiskHangDetector) (inp : TickInput) : Bool :=
  if has_failure c d = false then
    if ((has_small_pending_io c d inp || is_perf_decrease_error c d inp) &&
        has_continuous_error c d inp) || has_long_pending_io c inp then true
    else false
  else
    if has_small_pending_io c d inp = false ∧ has_long_pending_io c inp = false ∧
        (0 = inp.sensitivity ∨
          (is_perf_decrease_error c d inp = false ∧ has_continuous_error c d inp = false) ∨
          inp.now - d.last_detect_failure_time_ > c.PALF_DISK_FAILURE_TIME_UPPER_BOUND) then false
    else true

/-- The last branch of `is_clog_disk_hang` together with the final block of the
function: the detector after a call that samples, and the value returned. -/
def sampled_tick (c : PalfConstants) (d : PalfDiskHangDetector) (inp : TickInput) :
    Bool × PalfDiskHangDetector :=
  let bool_ret := tick_result c d inp
  let raised_time :=
    if has_failure c d = false ∧ bool_ret = true then inp.now else d.last_detect_failure_time_
  (bool_ret,
    { last_detect_time_ := inp.now
      last_detect_failure_time_ :=
        if bool_ret = false then c.OB_INVALID_TIMESTAMP else raised_time
      curr_detect_round_ := d.curr_detect_round_ + 1
      prev_accum_write_size_ := inp.accum_write_size
      prev_accum_write_count_ := inp.accum_write_count
      prev_accum_write_rt_ := inp.accum_write_rt
      learn_avg_bw_ := learned_bw c d inp
      learn_avg_rt_ := learned_rt c d inp
      detect_error_flags_ := recorded_error_flags c d inp })

/-- The function `is_clog_disk_hang`: the value returned, the out-parameter
`sensitivity`, and the detector afterwards. -/
def is_clog_disk_hang (c : PalfConstants) (d : PalfDiskHangDetector) (inp : TickInput) :
    Bool × Int × PalfDiskHangDetector :=
  if inp.log_service_is_null then (has_failure c d, inp.sensitivity, d)
  else if rate_limited c d inp then (has_failure c d, inp.sensitivity, d)
  else if OB_FAIL inp.get_io_statistic_info_ret then (has_failure c d, inp.sensitivity, d)
  else ((sampled_tick c d inp).1, inp.sensitivity, (sampled_tick c d inp).2)

/-- The number that `size_to_learn_idx_` turns into a slot, written with the
decade `e` of the size and its mantissa `size / 10 ^ e`: ten slots per unit of
mantissa, counted from mantissa four of decade three. -/
def raw_slot (log_size : ℚ) : ℚ :=
  10 * (log_size / (10 : ℚ) ^ Nat.log 10 ⌊log_size⌋₊) - 40 +
    90 * ((Nat.log 10 ⌊log_size⌋₊ : ℚ) - 3)

/-- Constants used in the examples: one second between samples, a floor of
4096 bytes, a window of ten rounds and four hundred slots. -/
def sample_constants : PalfConstants :=
  { OB_INVALID_TIMESTAMP := -1
    PALF_DISK_DETECT_INTERVAL_US := 1000000
    PALF_DISK_FAILURE_TIME_UPPER_BOUND := 3600000000
    MIN_WRITE_SIZE := 4096
    MIN_RECOVERY_INTERVAL := 10
    PALF_DISK_LEARN_SLOT := 400
    learn_slot_pos := by decide
    recovery_interval_pos := by decide }

/-- A call at time 5000000 with a tolerance of five seconds and sensitivity 20:
nothing is pending, the writer made progress just now, and no write has been
counted. -/
def idle_input : TickInput :=
  { log_service_is_null := false
    now := 5000000
    tolerance_time := 5000000
    sensitivity := 20
    get_io_statistic_info_ret := OB_SUCCESS
    last_working_time := 5000000
    pending_write_size := 0
    pending_write_count := 0
    pending_write_rt := 0
    accum_write_size := 0
    accum_write_count := 0
    accum_write_rt := 0 }

/-- The same call when the writer made its last progress at time 0, more than
the tolerance ago. -/
def long_pending_input : TickInput := { idle_input with last_working_time := -1000001 }

/-- The idle call made half a millisecond after time 5000000. -/
def early_input : TickInput := { idle_input with now := 5000500 }

/-- The fresh detector of the examples after one idle call. -/
def sampled_once : PalfDiskHangDetector :=
  (sampled_tick sample_constants (PalfDiskHangDetector.construct sample_constants) idle_input).2

/-- An idle call one second after time 5000000, with the writer making
progress at that very time. -/
def later_idle_input : TickInput :=
  { idle_input with now := 6000000, last_working_time := 6000000 }

/-- A call whose cumulative size counter is one byte below the previous
sample, with one write of one second counted. -/
def shrinking_input : TickInput :=
  { idle_input with accum_write_size := -1, accum_write_count := 1, accum_write_rt := 1000000 }

/-- The fresh detector of the examples after a call that found the writer
stuck for longer than the tolerance. -/
def raised_by_long_pending : PalfDiskHangDetector :=
  (is_clog_disk_hang sample_constants (PalfDiskHangDetector.construct sample_constants)
    long_pending_input).2.2

/-- A call that has counted one hundred writes, one hundred thousand bytes
and one second of latency, with nothing pending. -/
def healthy_input : TickInput :=
  { idle_input with
    accum_write_size := 100000
    accum_write_count := 100
    accum_write_rt := 1000000 }

/-! ## One step of the detection loop, by family -/

/-- The event that the step of a family builds in this run of the loop. -/
def Family.event (p : Probes) : Family → FailureEvent
  | Family.clog_hang => clog_disk_hang_event p.sensitivity
  | Family.data_disk_hang => data_disk_io_hang_event
  | Family.clog_full => clog_disk_full_event
  | Family.schema_error => schema_not_refreshed_event
  | Family.election_silent => election_silent_event

/-- What the probe of a family says: the fault is there. -/
def Family.fault (p : Probes) : Family → Bool
  | Family.clog_hang => p.is_clog_disk_hang
  | Family.data_disk_hang =>
    decide (p.data_disk_status ≠ ObDeviceHealthStatus.DEVICE_HEALTH_NORMAL)
  | Family.clog_full => !p.is_disk_enough
  | Family.schema_error => p.schema_not_refreshed
  | Family.election_silent => p.is_election_silent

/-- The probe of a family could not answer. -/
def Family.probe_failed (p : Probes) : Family → Bool
  | Family.clog_hang => false
  | Family.data_disk_hang => OB_FAIL p.get_device_health_status_ret
  | Family.clog_full => OB_FAIL p.check_disk_space_enough_ret
  | Family.schema_error => false
  | Family.election_silent =>
    p.log_service_is_null || p.palf_env_is_null || OB_FAIL p.for_each_ret

/-- The step of a family. -/
def detect_step (F : Family) (d : ObFailureDetector) (p : Probes) : ObFailureDetector :=
  match F with
  | Family.clog_hang => detect_palf_hang_failure_ d p
  | Family.data_disk_hang => detect_data_disk_io_failure_ d p
  | Family.clog_full => detect_palf_disk_full_ d p
  | Family.schema_error => detect_schema_not_refreshed_ d p
  | Family.election_silent => detect_election_silent_ d p

/-- Probes whose two fallible calls fail, with out-parameters that would
otherwise report faults. -/
def failing_probes : Probes :=
  { healthy_probes with
    get_device_health_status_ret := OB_OTHER_ERROR (-1)
    data_disk_status := ObDeviceHealthStatus.DEVICE_HEALTH_ERROR
    check_disk_space_enough_ret := OB_OTHER_ERROR (-1)
    is_disk_enough := false }

/-- The started detector after the loop has found the clog disk full. -/
def clog_full_raised : ObFailureDetector :=
  detect_palf_disk_full_ started_detector full_disk_probes

/-- The long pending call made at sensitivity zero. -/
def long_pending_insensitive_input : TickInput := { long_pending_input with sensitivity := 0 }

/-- A fresh detector that has learned a bandwidth of one byte per second and
a latency of one microsecond in slot 0. -/
def learned_slot_zero : PalfDiskHangDetector :=
  { PalfDiskHangDetector.construct sample_constants with
    learn_avg_bw_ := Function.update (fun _ => -1) 0 1
    learn_avg_rt_ := Function.update (fun _ => -1) 0 1 }

/-- A call at sensitivity zero with a tolerance of one second: the cumulative
size counter is ten thousand bytes below the previous sample with one
microsecond of latency counted, and one write of five thousand bytes has been
pending for two seconds; the writer made progress just now. -/
def negative_size_input : TickInput :=
  { idle_input with
    tolerance_time := 1000000
    sensitivity := 0
    accum_write_size := -10000
    accum_write_rt := 1
    pending_write_size := 5000
    pending_write_count := 1
    pending_write_rt := 2000000 }

/-! ## Runs of calls of `is_clog_disk_hang` -/

/-- A run of calls of `is_clog_disk_hang`, each on the detector that the call
before it left: the values returned, in order, and the detector after the
last call. -/
def feed (c : PalfConstants) :
    PalfDiskHangDetector → List TickInput → List Bool × PalfDiskHangDetector
  | d, [] => ([], d)
  | d, inp :: rest =>
    ((is_clog_disk_hang c d inp).1 :: (feed c (is_clog_disk_hang c d inp).2.2 rest).1,
      (feed c (is_clog_disk_hang c d inp).2.2 rest).2)

/-- Every call of a run satisfies `P` on the detector that the calls before it
left. -/
def ticks_satisfy (P : PalfDiskHangDetector → TickInput → Bool) (c : PalfConstants) :
    PalfDiskHangDetector → List TickInput → Bool
  | _, [] => true
  | d, inp :: rest => P d inp && ticks_satisfy P c (is_clog_disk_hang c d inp).2.2 rest

/-- A call of the scenario "cold start, healthy": it samples, one hundred
writes of one hundred thousand bytes and one second in all were counted since
the sample before, nothing is pending, and the writer made progress just
now. -/
def healthy_tick (c : PalfConstants) (d : PalfDiskHangDetector) (inp : TickInput) : Bool :=
  samples c d inp && decide (this_write_count d inp = 100) &&
    decide (this_write_size d inp = 100000) && decide (this_write_rt d inp = 1000000) &&
    decide (inp.pending_write_size = 0) && decide (inp.pending_write_count = 0) &&
    decide (inp.pending_write_rt = 0) && decide (inp.last_working_time = inp.now)

/-- A call of the scenario "sudden bandwidth drop": it samples at sensitivity
20, ten writes of ten thousand bytes and five seconds in all were counted since
the sample before, nothing is pending, and no write has been stuck for longer
than the tolerance. -/
def drop_tick (c : PalfConstants) (d : PalfDiskHangDetector) (inp : TickInput) : Bool :=
  samples c d inp && decide (inp.sensitivity = 20) && decide (this_write_count d inp = 10) &&
    decide (this_write_size d inp = 10000) && decide (this_write_rt d inp = 5000000) &&
    decide (inp.pending_write_size = 0) && decide (inp.pending_write_count = 0) &&
    decide (inp.pending_write_rt = 0) && !has_long_pending_io c inp

/-- The call number `k` (from zero) of a healthy run of the examples: one call
per second from time 5000000, the counters growing by one hundred writes, one
hundred thousand bytes and one second per call. -/
def steady_input (k : Nat) : TickInput :=
  { idle_input with
    now := 5000000 + 1000000 * (k : Int)
    last_working_time := 5000000 + 1000000 * (k : Int)
    accum_write_size := 100000 * ((k : Int) + 1)
    accum_write_count := 100 * ((k : Int) + 1)
    accum_write_rt := 1000000 * ((k : Int) + 1) }

/-- Fifty healthy calls. -/
def steady_inputs : List TickInput := (List.range 50).map steady_input

/-- The call number `k` (from zero) of the run that follows the fifty healthy
calls: one call per second from time 55000000, the counters growing by ten
writes, ten thousand bytes and five seconds per call. -/
def drop_input (k : Nat) : TickInput :=
  { idle_input with
    now := 55000000 + 1000000 * (k : Int)
    last_working_time := 55000000 + 1000000 * (k : Int)
    accum_write_size := 5000000 + 10000 * ((k : Int) + 1)
    accum_write_count := 5000 + 10 * ((k : Int) + 1)
    accum_write_rt := 50000000 + 5000000 * ((k : Int) + 1) }

/-- Fifty calls of the degraded run. -/
def drop_inputs : List TickInput := (List.range 50).map drop_input

/-- A healthy call made with a negative tolerance. -/
def impatient_input : TickInput := { steady_input 0 with tolerance_time := -1 }

/-- Fifty healthy calls, each made with a negative tolerance. -/
def impatient_inputs : List TickInput :=
  impatient_input ::
    (List.range 49).map (fun k => { steady_input (k + 1) with tolerance_time := -1 })

/-- The anomaly bits of a run: for each call that samples, in order, the flag
that it writes to `detect_error_flags_`. -/
def anomaly_bits (c : PalfConstants) : PalfDiskHangDetector → List TickInput → List Bool
  | _, [] => []
  | d, inp :: rest =>
    if samples c d inp = true then
      tick_error_flag c d inp :: anomaly_bits c (is_clog_disk_hang c d inp).2.2 rest
    else anomaly_bits c (is_clog_disk_hang c d inp).2.2 rest

/-- The detector has made one round per bit of `bits`, and the flags of the
last `MIN_RECOVERY_INTERVAL` rounds are in `detect_error_flags_`, the flag of
round `j` at `j % MIN_RECOVERY_INTERVAL`. -/
def RingInv (c : PalfConstants) (d : PalfDiskHangDetector) (bits : List Bool) : Prop :=
  d.curr_detect_round_ = bits.length ∧
  ∀ j : Nat, j < bits.length → bits.length ≤ j + c.MIN_RECOVERY_INTERVAL →
    bits[j]? = some (d.detect_error_flags_ (j % c.MIN_RECOVERY_INTERVAL))

/-- A call that samples with a sensitivity that is not zero, on a failure that
is not older than `PALF_DISK_FAILURE_TIME_UPPER_BOUND`. -/
def aged_tick (c : PalfConstants) (d : PalfDiskHangDetector) (inp : TickInput) : Bool :=
  samples c d inp && decide (inp.sensitivity ≠ 0) &&
    decide (inp.now - d.last_detect_failure_time_ ≤ c.PALF_DISK_FAILURE_TIME_UPPER_BOUND)

/-- A call of the scenario "recovery": it samples with a sensitivity that is
not zero, on a failure that is not older than
`PALF_DISK_FAILURE_TIME_UPPER_BOUND`, and none of the three anomaly signals
(`is_perf_decrease_error`, `has_small_pending_io`, `has_long_pending_io`) is
set. -/
def clean_tick (c : PalfConstants) (d : PalfDiskHangDetector) (inp : TickInput) : Bool :=
  aged_tick c d inp && !tick_error_flag c d inp

/-- The call number `k` (from zero) of a quiet run that follows the raise of
the examples: one call per second from time 6000000, nothing written, nothing
pending, the writer making progress at the time of the call. -/
def clean_input (k : Nat) : TickInput :=
  { idle_input with
    now := 6000000 + 1000000 * (k : Int)
    last_working_time := 6000000 + 1000000 * (k : Int) }

/-- Ten quiet calls, as many as the window of the examples has rounds. -/
def clean_inputs : List TickInput := (List.range 10).map clean_input

/-- The detector on which the clog disk was found full, with the registry no
longer running. -/
def clog_full_not_running : ObFailureDetector := { clog_full_raised with is_running_ := false }

/-- An idle call one second after time 5000000, made at sensitivity zero. -/
def later_idle_insensitive_input : TickInput := { later_idle_input with sensitivity := 0 }

/-- A call that has counted one write of five thousand bytes which took a
hundred thousand seconds. -/
def slow_write_input : TickInput :=
  { idle_input with
    accum_write_size := 5000
    accum_write_count := 1
    accum_write_rt := 100000000000 }

/-- A call that has counted one write of one thousand bytes which took a
hundred thousand seconds, while one write of one thousand bytes has been
pending for two seconds. -/
def small_slow_input : TickInput :=
  { idle_input with
    accum_write_size := 1000
    accum_write_count := 1
    accum_write_rt := 100000000000
    pending_write_size := 1000
    pending_write_count := 1
    pending_write_rt := 2000000 }

/-- The fresh detector of the examples after the healthy call. -/
def healthy_once : PalfDiskHangDetector :=
  (is_clog_disk_hang sample_constants (PalfDiskHangDetector.construct sample_constants)
    healthy_input).2.2

/-- A call one second after the healthy call: one hundred more writes, two
hundred thousand more bytes and one more second of latency have been
counted. -/
def faster_input : TickInput :=
  { later_idle_input with
    accum_write_size := 300000
    accum_write_count := 200
    accum_write_rt := 2000000 }

/-- The detector on which the clog disk was found full, after an outside call
has removed the clog full event: the latch is set and the event is gone. -/
def clog_full_removed : ObFailureDetector :=
  (remove_failure_event clog_full_raised clog_disk_full_event).2

/-- The started detector after an outside call has added the clog full event:
the latch is not set and the event is there. -/
def clog_full_added : ObFailureDetector :=
  (add_failure_event started_detector clog_disk_full_event).2

/-- A running detector whose only entry is the schema resource event with
callable 7. -/
def single_recovering : ObFailureDetector :=
  { started_detector with
    events_with_ops_ :=
      [ { event_ := schema_resource_event, recover_detect_operation_ := some 7 } ] }

/-- The detector as `has_continuous_error_` finds it during a call that
samples: the flag of the round has been written and `curr_detect_round_` has
not been incremented yet. -/
def mid_tick (c : PalfConstants) (d : PalfDiskHangDetector) (inp : TickInput) :
    PalfDiskHangDetector :=
  { d with detect_error_flags_ := recorded_error_flags c d inp }

/-- The call number `k` (from zero) of the quiet start of the long-tolerance
run: one call per second from time 5000000 with a tolerance of forty seconds,
nothing written and nothing pending. -/
def wrap_idle_input (k : Nat) : TickInput :=
  { idle_input with
    now := 5000000 + 1000000 * (k : Int)
    last_working_time := 5000000 + 1000000 * (k : Int)
    tolerance_time := 40000000 }

/-- The healthy call of the long-tolerance run, at time 15000000: one hundred
writes, five hundred thousand bytes and one second of latency counted. -/
def wrap_baseline_input : TickInput :=
  { idle_input with
    now := 15000000
    last_working_time := 15000000
    tolerance_time := 40000000
    accum_write_size := 500000
    accum_write_count := 100
    accum_write_rt := 1000000 }

/-- The call number `k` (from zero) of the degraded part of the long-tolerance
run: one call per second from time 16000000, each with ten more writes, five
hundred thousand more bytes and ten more seconds of latency counted. -/
def wrap_collapsed_input (k : Nat) : TickInput :=
  { idle_input with
    now := 16000000 + 1000000 * (k : Int)
    last_working_time := 16000000 + 1000000 * (k : Int)
    tolerance_time := 40000000
    accum_write_size := 500000 + 500000 * ((k : Int) + 1)
    accum_write_count := 100 + 10 * ((k : Int) + 1)
    accum_write_rt := 1000000 + 10000000 * ((k : Int) + 1) }

/-- The long-tolerance run up to its last call: ten quiet calls, the healthy
call, and nine degraded calls. -/
def wrap_history : List TickInput :=
  (List.range 10).map wrap_idle_input ++ [wrap_baseline_input] ++
    (List.range 9).map wrap_collapsed_input

/-- The last call of the long-tolerance run: the tenth degraded call. -/
def wrap_input : TickInput := wrap_collapsed_input 9

/-- An idle call with a tolerance of half a second, less than the interval
between two samples. -/
def short_tolerance_input : TickInput := { idle_input with tolerance_time := 500000 }

/-- A healthy call at time 5000000 that has counted 33554432 writes,
100000000003 bytes and 64 microseconds of latency. -/
def drift_first_input : TickInput :=
  { idle_input with
    accum_write_size := 100000000003
    accum_write_count := 33554432
    accum_write_rt := 64 }

/-- The fresh detector of the examples after that call. -/
def drift_once : PalfDiskHangDetector :=
  (is_clog_disk_hang sample_constants (PalfDiskHangDetector.construct sample_constants)
    drift_first_input).2.2

/-- The call one second later: the same numbers of writes, bytes and
microseconds have been counted once more. -/
def drift_second_input : TickInput :=
  { later_idle_input with
    accum_write_size := 200000000006
    accum_write_count := 67108864
    accum_write_rt := 128 }

/-! ## Facts about the search loop -/

/-- The list holds an entry whose event equals `event`. -/
def contains_event (l : List FailureEventWithRecoverOp) (event : FailureEvent) : Bool :=
  l.any (fun x => x.event_.equal event)

theorem equal_iff (a b : FailureEvent) :
    a.equal b = true ↔ a.type_ = b.type_ ∧ a.module_ = b.module_ := by
  simp [FailureEvent.equal]

theorem contains_event_iff (l : List FailureEventWithRecoverOp) (event : FailureEvent) :
    contains_event l event = true ↔ ∃ x ∈ l, x.event_.equal event = true := by
  simp [contains_event]

theorem find_idx_le (event : FailureEvent) (l : List FailureEventWithRecoverOp) :
    find_idx event l ≤ l.length := by
  induction l with
  | nil => simp [find_idx]
  | cons x xs ih =>
    simp only [find_idx]
    split
    · simp
    · simp only [List.length_cons]; omega

theorem find_idx_lt_iff (event : FailureEvent) (l : List FailureEventWithRecoverOp) :
    find_idx event l < l.length ↔ ∃ x ∈ l, x.event_.equal event = true := by
  induction l with
  | nil => simp [find_idx]
  | cons x xs ih =>
    simp only [find_idx]
    by_cases hx : x.event_.equal event = true
    · simp [hx]
    · simp only [hx, if_false, List.length_cons, Nat.add_lt_add_iff_right, ih, List.mem_cons,
        exists_eq_or_imp, false_or, Bool.false_eq_true]

theorem find_idx_eq_length_iff (event : FailureEvent) (l : List FailureEventWithRecoverOp) :
    find_idx event l = l.length ↔ ∀ x ∈ l, x.event_.equal event = false := by
  have h1 := find_idx_le event l
  have h2 := find_idx_lt_iff event l
  constructor
  · intro h x hx
    by_contra hne
    have : find_idx event l < l.length := h2.mpr ⟨x, hx, by simpa using hne⟩
    omega
  · intro h
    by_contra hne
    have hlt : find_idx event l < l.length := by omega
    obtain ⟨x, hx, hxe⟩ := h2.mp hlt
    rw [h x hx] at hxe
    exact Bool.noConfusion hxe

/-- The list splits at the index the search loop stops at: no entry before it
equals `event`, and the entry at it does. -/
theorem find_idx_split (event : FailureEvent) (l : List FailureEventWithRecoverOp)
    (h : find_idx event l < l.length) :
    ∃ pre stored post, l = pre ++ stored :: post ∧ pre.length = find_idx event l ∧
      (∀ x ∈ pre, x.event_.equal event = false) ∧ stored.event_.equal event = true := by
  induction l with
  | nil => simp [find_idx] at h
  | cons x xs ih =>
    by_cases hx : x.event_.equal event = true
    · exact ⟨[], x, xs, by simp, by simp [find_idx, hx], by simp, hx⟩
    · have hlt : find_idx event xs < xs.length := by
        simpa [find_idx, hx] using h
      obtain ⟨pre, stored, post, hl, hlen, hpre, hst⟩ := ih hlt
      refine ⟨x :: pre, stored, post, by simp [hl], by simp [find_idx, hx, hlen], ?_, hst⟩
      intro y hy
      rcases List.mem_cons.mp hy with rfl | hy
      · simpa using hx
      · exact hpre y hy

theorem eraseIdx_append_cons (pre post : List FailureEventWithRecoverOp)
    (stored : FailureEventWithRecoverOp) :
    (pre ++ stored :: post).eraseIdx pre.length = pre ++ post := by
  induction pre with
  | nil => simp
  | cons x xs ih => simp [ih]

theorem get_of_split (l pre post : List FailureEventWithRecoverOp)
    (stored : FailureEventWithRecoverOp) (i : Nat) (h : i < l.length)
    (hl : l = pre ++ stored :: post) (hi : pre.length = i) : l.get ⟨i, h⟩ = stored := by
  subst hl
  subst hi
  induction pre with
  | nil => rfl
  | cons x xs ih => simpa using ih (by simp)

/-! ## The registry operations -/

/-- C1: on a running detector whose active list holds an entry equal to `E`
(same type and module), `add_failure_event(E)` and `add_failure_event(E, pred)`
both return `OB_ENTRY_EXIST` and hand back the detector as it was, so the
active list and the audit history are unchanged. -/
theorem add_failure_event_duplicate (d : ObFailureDetector) (E : FailureEvent)
    (pred : ObFunction) (hrun : d.is_running_ = true)
    (hdup : ∃ x ∈ d.events_with_ops_, x.event_.equal E = true) :
    add_failure_event d E = (OB_ENTRY_EXIST, d) ∧
    add_failure_event_with_op d E pred = (OB_ENTRY_EXIST, d) := by
  have hlt := (find_idx_lt_iff E d.events_with_ops_).mpr hdup
  have hne : find_idx E d.events_with_ops_ ≠ d.events_with_ops_.length := by omega
  simp [add_failure_event, add_failure_event_with_op, check_is_running_, hrun, hne]

theorem add_failure_event_duplicate_witness :
    add_failure_event three_entries storage_hang_serious = (OB_ENTRY_EXIST, three_entries) ∧
    add_failure_event_with_op three_entries storage_hang_serious (some 3) =
      (OB_ENTRY_EXIST, three_entries) :=
  add_failure_event_duplicate three_entries storage_hang_serious (some 3) (by decide)
    (by decide)

/-- C2: on a running detector whose active list holds no entry equal to `E`,
`add_failure_event(E)` (resp. `add_failure_event(E, pred)`) returns
`OB_SUCCESS`; the new active list is the old one with the single entry
`(E, no callable)` (resp. `(E, pred)`) appended at the end; the audit history
grows by exactly one row, whose tag is the info string of `E`, whose module and
type are those of `E`, and whose auto-recover flag says whether a callable was
supplied; no other member changes. -/
theorem add_failure_event_fresh (d : ObFailureDetector) (E : FailureEvent)
    (pred : ObFunction) (hrun : d.is_running_ = true)
    (hnew : ∀ x ∈ d.events_with_ops_, x.event_.equal E = false) :
    add_failure_event d E =
      (OB_SUCCESS,
        { d with
          events_with_ops_ := d.events_with_ops_ ++
            [{ event_ := E, recover_detect_operation_ := none }]
          server_event_history_ := d.server_event_history_ ++
            [ServerEvent.row E.info_ E.module_ E.type_ false] }) ∧
    add_failure_event_with_op d E pred =
      (OB_SUCCESS,
        { d with
          events_with_ops_ := d.events_with_ops_ ++
            [{ event_ := E, recover_detect_operation_ := pred }]
          server_event_history_ := d.server_event_history_ ++
            [ServerEvent.row E.info_ E.module_ E.type_ pred.isSome] }) := by
  have heq := (find_idx_eq_length_iff E d.events_with_ops_).mpr hnew
  simp [add_failure_event, add_failure_event_with_op, check_is_running_, hrun, heq,
    insert_event_to_table_, FailureEventWithRecoverOp.init, ObFunction.is_valid]

theorem add_failure_event_fresh_witness :
    add_failure_event three_entries schema_not_refreshed_event =
      (OB_SUCCESS,
        { three_entries with
          events_with_ops_ := three_entries.events_with_ops_ ++
            [{ event_ := schema_not_refreshed_event, recover_detect_operation_ := none }]
          server_event_history_ := three_entries.server_event_history_ ++
            [ServerEvent.row "schema not refreshed" FailureModule.SCHEMA
              FailureType.SCHEMA_NOT_REFRESHED false] }) ∧
    add_failure_event_with_op three_entries schema_not_refreshed_event (some 3) =
      (OB_SUCCESS,
        { three_entries with
          events_with_ops_ := three_entries.events_with_ops_ ++
            [{ event_ := schema_not_refreshed_event, recover_detect_operation_ := some 3 }]
          server_event_history_ := three_entries.server_event_history_ ++
            [ServerEvent.row "schema not refreshed" FailureModule.SCHEMA
              FailureType.SCHEMA_NOT_REFRESHED true] }) :=
  add_failure_event_fresh three_entries schema_not_refreshed_event (some 3) (by decide)
    (by decide)

/-- C4: on a running detector whose active list holds an entry equal to `E`,
`remove_failure_event(E)` returns `OB_SUCCESS`; the list splits as
`pre ++ stored :: post` where no entry of `pre` equals `E` and `stored` does,
and the new list is `pre ++ post` (only the first equal entry is deleted, the
others keep their order); the audit history grows by exactly one row, with
tag "REMOVE FAILURE", the module and type of the stored entry, and an
auto-recover flag that says whether the stored entry has a callable; no other
member changes. -/
theorem remove_failure_event_hit (d : ObFailureDetector) (E : FailureEvent)
    (hrun : d.is_running_ = true)
    (hex : ∃ x ∈ d.events_with_ops_, x.event_.equal E = true) :
    ∃ pre stored post,
      d.events_with_ops_ = pre ++ stored :: post ∧
      (∀ x ∈ pre, x.event_.equal E = false) ∧
      stored.event_.equal E = true ∧
      remove_failure_event d E =
        (OB_SUCCESS,
          { d with
            events_with_ops_ := pre ++ post
            server_event_history_ := d.server_event_history_ ++
              [ServerEvent.row "REMOVE FAILURE" stored.event_.module_ stored.event_.type_
                stored.recover_detect_operation_.isSome] }) := by
  have hlt := (find_idx_lt_iff E d.events_with_ops_).mpr hex
  obtain ⟨pre, stored, post, hl, hlen, hpre, hst⟩ := find_idx_split E d.events_with_ops_ hlt
  refine ⟨pre, stored, post, hl, hpre, hst, ?_⟩
  have hget := get_of_split d.events_with_ops_ pre post stored _ hlt hl hlen
  have herase : d.events_with_ops_.eraseIdx (find_idx E d.events_with_ops_) = pre ++ post := by
    rw [← hlen, hl, eraseIdx_append_cons]
  simp only [remove_failure_event, check_is_running_, hrun, Bool.not_true, Bool.false_eq_true,
    if_false, hlt, dite_true, insert_event_to_table_, hget, herase, ObFunction.is_valid]

theorem remove_failure_event_hit_witness :
    ∃ pre stored post,
      three_entries.events_with_ops_ = pre ++ stored :: post ∧
      (∀ x ∈ pre, x.event_.equal storage_hang_serious = false) ∧
      stored.event_.equal storage_hang_serious = true ∧
      remove_failure_event three_entries storage_hang_serious =
        (OB_SUCCESS,
          { three_entries with
            events_with_ops_ := pre ++ post
            server_event_history_ := three_entries.server_event_history_ ++
              [ServerEvent.row "REMOVE FAILURE" stored.event_.module_ stored.event_.type_
                stored.recover_detect_operation_.isSome] }) :=
  remove_failure_event_hit three_entries storage_hang_serious (by decide) (by decide)

/-! ## The active list after each operation -/

theorem equal_iff_key (a b : FailureEvent) : a.equal b = true ↔ a.key = b.key := by
  simp [FailureEvent.equal, FailureEvent.key]

theorem equal_false_iff_key (a b : FailureEvent) : a.equal b = false ↔ a.key ≠ b.key := by
  rw [Ne, ← equal_iff_key]; simp

theorem not_mem_keys_iff (l : List FailureEventWithRecoverOp) (E : FailureEvent) :
    E.key ∉ keys l ↔ ∀ x ∈ l, x.event_.equal E = false := by
  simp only [keys, List.mem_map, not_exists, not_and, equal_false_iff_key]

theorem find_idx_eq_length_iff_keys (l : List FailureEventWithRecoverOp) (E : FailureEvent) :
    find_idx E l = l.length ↔ E.key ∉ keys l := by
  rw [find_idx_eq_length_iff, not_mem_keys_iff]

theorem add_failure_event_eq (d : ObFailureDetector) (E : FailureEvent) :
    add_failure_event d E = add_failure_event_with_op d E none := rfl

/-- The active list after either overload of `add_failure_event`. -/
theorem add_events (d : ObFailureDetector) (E : FailureEvent) (op : ObFunction) :
    (add_failure_event_with_op d E op).2.events_with_ops_ =
      if d.is_running_ = true ∧ E.key ∉ keys d.events_with_ops_ then
        d.events_with_ops_ ++ [{ event_ := E, recover_detect_operation_ := op }]
      else d.events_with_ops_ := by
  have hk := find_idx_eq_length_iff_keys d.events_with_ops_ E
  unfold add_failure_event_with_op check_is_running_
  by_cases hr : d.is_running_ = true
  · by_cases hi : find_idx E d.events_with_ops_ = d.events_with_ops_.length
    · simp [hr, hi, hk.mp hi, insert_event_to_table_, FailureEventWithRecoverOp.init]
    · have hn : ¬ (E.key ∉ keys d.events_with_ops_) := fun h => hi (hk.mpr h)
      simp [hr, hi, hn]
  · simp [hr]

/-- The return code of either overload of `add_failure_event`. -/
theorem add_ret (d : ObFailureDetector) (E : FailureEvent) (op : ObFunction) :
    (add_failure_event_with_op d E op).1 =
      if d.is_running_ = true then
        if E.key ∉ keys d.events_with_ops_ then OB_SUCCESS else OB_ENTRY_EXIST
      else OB_NOT_RUNNING := by
  have hk := find_idx_eq_length_iff_keys d.events_with_ops_ E
  unfold add_failure_event_with_op check_is_running_
  by_cases hr : d.is_running_ = true
  · by_cases hi : find_idx E d.events_with_ops_ = d.events_with_ops_.length
    · simp [hr, hi, hk.mp hi]
    · have hn : ¬ (E.key ∉ keys d.events_with_ops_) := fun h => hi (hk.mpr h)
      simp [hr, hi, hn]
  · simp [hr]

/-- The active list after `remove_failure_event`. -/
theorem remove_events (d : ObFailureDetector) (E : FailureEvent) :
    (remove_failure_event d E).2.events_with_ops_ =
      if d.is_running_ = true then
        d.events_with_ops_.eraseIdx (find_idx E d.events_with_ops_)
      else d.events_with_ops_ := by
  unfold remove_failure_event check_is_running_
  by_cases hr : d.is_running_ = true
  · by_cases hi : find_idx E d.events_with_ops_ < d.events_with_ops_.length
    · simp [hr, hi, insert_event_to_table_]
    · have hle : d.events_with_ops_.length ≤ find_idx E d.events_with_ops_ := by omega
      simp [hr, hi, List.eraseIdx_of_length_le hle]
  · simp [hr]

/-- The return code of `remove_failure_event`. -/
theorem remove_ret (d : ObFailureDetector) (E : FailureEvent) :
    (remove_failure_event d E).1 =
      if d.is_running_ = true then
        if E.key ∈ keys d.events_with_ops_ then OB_SUCCESS else OB_ENTRY_NOT_EXIST
      else OB_NOT_RUNNING := by
  have hk := find_idx_eq_length_iff_keys d.events_with_ops_ E
  have hle := find_idx_le E d.events_with_ops_
  unfold remove_failure_event check_is_running_
  by_cases hr : d.is_running_ = true
  · by_cases hi : find_idx E d.events_with_ops_ < d.events_with_ops_.length
    · have : E.key ∈ keys d.events_with_ops_ := by
        by_contra hn; have := hk.mpr hn; omega
      simp [hr, hi, this]
    · have : E.key ∉ keys d.events_with_ops_ := hk.mp (by omega)
      simp [hr, hi, this]
  · simp [hr]

/-- Erasing at the index found by the search loop erases the first
occurrence of the key. -/
theorem keys_eraseIdx_find_idx (l : List FailureEventWithRecoverOp) (E : FailureEvent) :
    keys (l.eraseIdx (find_idx E l)) = (keys l).erase E.key := by
  induction l with
  | nil => simp [keys, find_idx]
  | cons x xs ih =>
    by_cases hx : x.event_.equal E = true
    · have hk := (equal_iff_key _ _).mp hx
      simp [find_idx, hx, keys, hk]
    · have hk : x.event_.key ≠ E.key := fun h => hx ((equal_iff_key _ _).mpr h)
      have ih2 : List.map (fun x => x.event_.key) (xs.eraseIdx (find_idx E xs)) =
          (List.map (fun x => x.event_.key) xs).erase E.key := ih
      simp [find_idx, hx, keys, List.erase_cons_tail, hk, ih2]

/-! ## The recovery loop keeps exactly the surviving entries -/

theorem insert_recovered_events (d : ObFailureDetector) (idx : Nat) :
    (insert_recovered_to_table_ d idx).events_with_ops_ = d.events_with_ops_ := by
  unfold insert_recovered_to_table_
  split <;> simp [insert_event_to_table_]

theorem take_succ_eq (l : List FailureEventWithRecoverOp) (idx : Nat) (h : idx < l.length) :
    l.take (idx + 1) = l.take idx ++ [l[idx]] := by
  induction l generalizing idx with
  | nil => simp at h
  | cons x xs ih =>
    cases idx with
    | zero => simp
    | succ n => simp [ih n]

theorem drop_eq_cons (l : List FailureEventWithRecoverOp) (idx : Nat) (h : idx < l.length) :
    l.drop idx = l[idx] :: l.drop (idx + 1) := by
  induction l generalizing idx with
  | nil => simp at h
  | cons x xs ih =>
    cases idx with
    | zero => simp
    | succ n => simp [ih n]

theorem take_eraseIdx_self (l : List FailureEventWithRecoverOp) (idx : Nat) :
    (l.eraseIdx idx).take idx = l.take idx := by
  induction l generalizing idx with
  | nil => simp
  | cons x xs ih =>
    cases idx with
    | zero => simp
    | succ n => simp [ih n]

theorem drop_eraseIdx_self (l : List FailureEventWithRecoverOp) (idx : Nat) :
    (l.eraseIdx idx).drop idx = l.drop (idx + 1) := by
  induction l generalizing idx with
  | nil => simp
  | cons x xs ih =>
    cases idx with
    | zero => simp
    | succ n => simp [ih n]

/-- With fuel for every remaining entry, the loop started at `idx` leaves the
entries before `idx` alone and keeps, of the others, those that survive. -/
theorem detect_recover_loop_events (recover_flag : Nat → Bool) :
    ∀ (fuel idx : Nat) (d : ObFailureDetector),
      d.events_with_ops_.length - idx ≤ fuel →
      (detect_recover_loop recover_flag fuel idx d).events_with_ops_ =
        d.events_with_ops_.take idx ++
          (d.events_with_ops_.drop idx).filter (survives recover_flag) := by
  intro fuel
  induction fuel with
  | zero =>
    intro idx d h
    have hle : d.events_with_ops_.length ≤ idx := by omega
    simp [detect_recover_loop, List.take_of_length_le hle, List.drop_of_length_le hle]
  | succ n ih =>
    intro idx d h
    unfold detect_recover_loop
    by_cases hlt : idx < d.events_with_ops_.length
    · simp only [hlt, dite_true, List.get_eq_getElem]
      have hdrop := drop_eq_cons d.events_with_ops_ idx hlt
      have htake := take_succ_eq d.events_with_ops_ idx hlt
      cases hop : (d.events_with_ops_[idx]).recover_detect_operation_ with
      | none =>
        have hs : survives recover_flag d.events_with_ops_[idx] = true := by
          simp [survives, hop]
        simp only []
        rw [ih (idx + 1) d (by omega), hdrop, List.filter_cons_of_pos hs, htake]
        simp only [List.append_assoc, List.singleton_append]
      | some k =>
        by_cases hf : recover_flag k = true
        · have hs : ¬ survives recover_flag d.events_with_ops_[idx] = true := by
            simp [survives, hop, hf]
          simp only [hf, if_true]
          rw [ih idx _ (by simp [insert_recovered_events, List.length_eraseIdx, hlt]; omega)]
          rw [insert_recovered_events]
          simp only [take_eraseIdx_self, drop_eraseIdx_self]
          rw [hdrop, List.filter_cons_of_neg hs]
        · have hf2 : recover_flag k = false := by simpa using hf
          have hs : survives recover_flag d.events_with_ops_[idx] = true := by
            simp [survives, hop, hf2]
          simp only [hf2, Bool.false_eq_true, if_false]
          rw [ih (idx + 1) d (by omega), hdrop, List.filter_cons_of_pos hs, htake]
          simp only [List.append_assoc, List.singleton_append]
    · have hle : d.events_with_ops_.length ≤ idx := by omega
      simp [hlt, List.take_of_length_le hle, List.drop_of_length_le hle]

/-- The active list after `detect_recover`. -/
theorem detect_recover_events (d : ObFailureDetector) (recover_flag : Nat → Bool) :
    (detect_recover d recover_flag).events_with_ops_ =
      d.events_with_ops_.filter (survives recover_flag) := by
  unfold detect_recover
  rw [detect_recover_loop_events recover_flag _ 0 d (by omega)]
  simp

/-! ## No two entries with the same key -/

theorem keys_append_singleton (l : List FailureEventWithRecoverOp)
    (x : FailureEventWithRecoverOp) : keys (l ++ [x]) = keys l ++ [x.event_.key] := by
  simp [keys]

theorem nodup_add (d : ObFailureDetector) (E : FailureEvent) (op : ObFunction)
    (h : (keys d.events_with_ops_).Nodup) :
    (keys (add_failure_event_with_op d E op).2.events_with_ops_).Nodup := by
  rw [add_events]
  split
  · rename_i hc
    rw [keys_append_singleton]
    exact List.Nodup.append h (List.nodup_singleton _) (by simpa using hc.2)
  · exact h

theorem nodup_remove (d : ObFailureDetector) (E : FailureEvent)
    (h : (keys d.events_with_ops_).Nodup) :
    (keys (remove_failure_event d E).2.events_with_ops_).Nodup := by
  rw [remove_events]
  split
  · rw [keys_eraseIdx_find_idx]
    exact h.erase _
  · exact h

theorem nodup_detect_recover (d : ObFailureDetector) (recover_flag : Nat → Bool)
    (h : (keys d.events_with_ops_).Nodup) :
    (keys (detect_recover d recover_flag).events_with_ops_).Nodup := by
  rw [detect_recover_events]
  exact h.sublist (List.Sublist.map _ (List.filter_sublist _))

theorem nodup_detect_palf_hang_failure_ (d : ObFailureDetector) (p : Probes)
    (h : (keys d.events_with_ops_).Nodup) :
    (keys (detect_palf_hang_failure_ d p).events_with_ops_).Nodup := by
  unfold detect_palf_hang_failure_
  simp only []
  split_ifs
  all_goals first
    | exact h
    | exact nodup_add d _ none h
    | exact nodup_remove d _ h

theorem nodup_detect_data_disk_io_failure_ (d : ObFailureDetector) (p : Probes)
    (h : (keys d.events_with_ops_).Nodup) :
    (keys (detect_data_disk_io_failure_ d p).events_with_ops_).Nodup := by
  unfold detect_data_disk_io_failure_
  simp only []
  split_ifs
  all_goals first
    | exact h
    | exact nodup_add d _ none h
    | exact nodup_remove d _ h

theorem nodup_detect_palf_disk_full_ (d : ObFailureDetector) (p : Probes)
    (h : (keys d.events_with_ops_).Nodup) :
    (keys (detect_palf_disk_full_ d p).events_with_ops_).Nodup := by
  unfold detect_palf_disk_full_
  simp only []
  split_ifs
  all_goals first
    | exact h
    | exact nodup_add d _ none h
    | exact nodup_remove d _ h

theorem nodup_detect_schema_not_refreshed_ (d : ObFailureDetector) (p : Probes)
    (h : (keys d.events_with_ops_).Nodup) :
    (keys (detect_schema_not_refreshed_ d p).events_with_ops_).Nodup := by
  unfold detect_schema_not_refreshed_
  simp only []
  split_ifs
  all_goals first
    | exact h
    | exact nodup_add d _ none h
    | exact nodup_remove d _ h

theorem nodup_detect_election_silent_ (d : ObFailureDetector) (p : Probes)
    (h : (keys d.events_with_ops_).Nodup) :
    (keys (detect_election_silent_ d p).events_with_ops_).Nodup := by
  unfold detect_election_silent_
  simp only []
  split_ifs
  all_goals first
    | exact h
    | exact nodup_add d _ none h
    | exact nodup_remove d _ h

theorem nodup_detect_failure (arb : Bool) (d : ObFailureDetector) (p : Probes)
    (h : (keys d.events_with_ops_).Nodup) :
    (keys (detect_failure arb d p).events_with_ops_).Nodup := by
  have h4 := nodup_detect_schema_not_refreshed_ _ p
    (nodup_detect_palf_disk_full_ _ p
      (nodup_detect_data_disk_io_failure_ _ p (nodup_detect_palf_hang_failure_ d p h)))
  unfold detect_failure
  simp only []
  split
  · exact nodup_detect_election_silent_ _ p h4
  · exact h4

theorem nodup_apply (arb : Bool) (d : ObFailureDetector) (c : Call)
    (h : (keys d.events_with_ops_).Nodup) :
    (keys (Call.apply arb d c).events_with_ops_).Nodup := by
  cases c with
  | add event => exact nodup_add d event none h
  | add_with_op event op => exact nodup_add d event op h
  | remove event => exact nodup_remove d event h
  | detect_recover recover_flag => exact nodup_detect_recover d recover_flag h
  | detect_failure p => exact nodup_detect_failure arb d p h

theorem nodup_run (arb : Bool) (calls : List Call) :
    ∀ d : ObFailureDetector, (keys d.events_with_ops_).Nodup →
      (keys (run arb d calls).events_with_ops_).Nodup := by
  induction calls with
  | nil => intro d h; exact h
  | cons c cs ih => intro d h; exact ih _ (nodup_apply arb d c h)

theorem mtl_start_events (d : ObFailureDetector) (r1 r2 : ObRet) :
    (mtl_start d r1 r2).2.events_with_ops_ = [] := by
  unfold mtl_start
  simp only []
  split_ifs <;> rfl

theorem nodup_keys_iff (l : List FailureEventWithRecoverOp) :
    (keys l).Nodup ↔
      l.Pairwise (fun a b =>
        ¬ (a.event_.type_ = b.event_.type_ ∧ a.event_.module_ = b.event_.module_)) := by
  unfold keys List.Nodup
  rw [List.pairwise_map]
  simp [FailureEvent.key, Prod.ext_iff]

/-- C5: after `mtl_start` has installed the empty active list, and after any
finite sequence of calls of `add_failure_event` (either overload),
`remove_failure_event`, `detect_recover` and `detect_failure`, no two entries
of the active list have the same type and the same module. -/
theorem no_duplicate_entries (OB_BUILD_ARBITRATION : Bool) (d : ObFailureDetector)
    (failure_schedule_ret recovery_schedule_ret : ObRet) (calls : List Call) :
    (run OB_BUILD_ARBITRATION (mtl_start d failure_schedule_ret recovery_schedule_ret).2
        calls).events_with_ops_.Pairwise
      (fun a b => ¬ (a.event_.type_ = b.event_.type_ ∧ a.event_.module_ = b.event_.module_)) := by
  rw [← nodup_keys_iff]
  apply nodup_run
  rw [mtl_start_events]
  exact List.nodup_nil

/-! ## Misses, refusals and listing -/

theorem remove_running (d : ObFailureDetector) (E : FailureEvent) :
    (remove_failure_event d E).2.is_running_ = d.is_running_ := by
  unfold remove_failure_event
  dsimp only
  split_ifs <;> rfl

theorem remove_miss (d : ObFailureDetector) (E : FailureEvent) (hrun : d.is_running_ = true)
    (hmiss : E.key ∉ keys d.events_with_ops_) :
    remove_failure_event d E = (OB_ENTRY_NOT_EXIST, d) := by
  have heq := (find_idx_eq_length_iff_keys d.events_with_ops_ E).mpr hmiss
  have hnlt : ¬ find_idx E d.events_with_ops_ < d.events_with_ops_.length := by omega
  simp [remove_failure_event, check_is_running_, hrun, hnlt]

/-- C3: on a running detector whose active list holds no entry equal to `E`,
`remove_failure_event(E)` returns `OB_ENTRY_NOT_EXIST` and hands back the
detector as it was (no audit row, same active list).  In particular, in any
state reached from `mtl_start` by a sequence of calls, when
`remove_failure_event(E)` succeeds, a second `remove_failure_event(E)` made
directly afterwards returns `OB_ENTRY_NOT_EXIST` and changes nothing. -/
theorem remove_failure_event_miss (d : ObFailureDetector) (E : FailureEvent)
    (OB_BUILD_ARBITRATION : Bool) (d0 : ObFailureDetector)
    (failure_schedule_ret recovery_schedule_ret : ObRet) (calls : List Call)
    (hrun : d.is_running_ = true)
    (hmiss : ∀ x ∈ d.events_with_ops_, x.event_.equal E = false) :
    remove_failure_event d E = (OB_ENTRY_NOT_EXIST, d) ∧
    ((remove_failure_event
        (run OB_BUILD_ARBITRATION (mtl_start d0 failure_schedule_ret recovery_schedule_ret).2
          calls) E).1 = OB_SUCCESS →
      remove_failure_event
        (remove_failure_event
          (run OB_BUILD_ARBITRATION (mtl_start d0 failure_schedule_ret recovery_schedule_ret).2
            calls) E).2 E =
        (OB_ENTRY_NOT_EXIST,
          (remove_failure_event
            (run OB_BUILD_ARBITRATION
              (mtl_start d0 failure_schedule_ret recovery_schedule_ret).2 calls) E).2)) := by
  refine ⟨remove_miss d E hrun ((not_mem_keys_iff _ _).mpr hmiss), ?_⟩
  generalize hs : run OB_BUILD_ARBITRATION
    (mtl_start d0 failure_schedule_ret recovery_schedule_ret).2 calls = s
  have hnd : (keys s.events_with_ops_).Nodup := by
    rw [← hs]
    apply nodup_run
    rw [mtl_start_events]
    exact List.nodup_nil
  intro hok
  have hr : s.is_running_ = true := by
    by_contra hn
    rw [remove_ret] at hok
    simp [hn] at hok
  apply remove_miss
  · rw [remove_running]; exact hr
  · rw [remove_events, if_pos hr, keys_eraseIdx_find_idx]
    intro hmem
    exact ((List.Nodup.mem_erase_iff hnd).mp hmem).1 rfl

theorem remove_failure_event_miss_witness :
    remove_failure_event three_entries schema_not_refreshed_event =
      (OB_ENTRY_NOT_EXIST, three_entries) ∧
    remove_failure_event
        (remove_failure_event
          (run false (mtl_start (mtl_init (ObFailureDetector.construct []) true).2
            OB_SUCCESS OB_SUCCESS).2 [Call.add schema_not_refreshed_event])
          schema_not_refreshed_event).2 schema_not_refreshed_event =
      (OB_ENTRY_NOT_EXIST,
        (remove_failure_event
          (run false (mtl_start (mtl_init (ObFailureDetector.construct []) true).2
            OB_SUCCESS OB_SUCCESS).2 [Call.add schema_not_refreshed_event])
          schema_not_refreshed_event).2) :=
  have h := remove_failure_event_miss three_entries schema_not_refreshed_event false
    (mtl_init (ObFailureDetector.construct []) true).2 OB_SUCCESS OB_SUCCESS
    [Call.add schema_not_refreshed_event] (by decide) (by decide)
  ⟨h.1, h.2 (by decide)⟩

/-- C7: while `is_running_` is false, `add_failure_event` (either overload),
`remove_failure_event` and `get_specified_level_event` return
`OB_NOT_RUNNING` and hand back the detector and the result array of the caller
as they were.  The flag is false on a constructed detector, after `mtl_init`,
and after an `mtl_start` on such a detector that did not return `OB_SUCCESS`
(no coordinator, or either periodic task could not be scheduled). -/
theorem not_running_refuses (d : ObFailureDetector) (E : FailureEvent) (pred : ObFunction)
    (level : FailureLevel) (results : List FailureEvent) (history : List ServerEvent)
    (coordinator : Bool) (failure_schedule_ret recovery_schedule_ret : ObRet)
    (h : d.is_running_ = false) :
    (add_failure_event d E = (OB_NOT_RUNNING, d) ∧
      add_failure_event_with_op d E pred = (OB_NOT_RUNNING, d) ∧
      remove_failure_event d E = (OB_NOT_RUNNING, d) ∧
      get_specified_level_event d level results = (OB_NOT_RUNNING, d, results)) ∧
    (ObFailureDetector.construct history).is_running_ = false ∧
    (mtl_init (ObFailureDetector.construct history) coordinator).2.is_running_ = false ∧
    ((mtl_start (mtl_init (ObFailureDetector.construct history) coordinator).2
        failure_schedule_ret recovery_schedule_ret).1 ≠ OB_SUCCESS →
      (mtl_start (mtl_init (ObFailureDetector.construct history) coordinator).2
        failure_schedule_ret recovery_schedule_ret).2.is_running_ = false) := by
  refine ⟨?_, rfl, ?_, ?_⟩
  · simp [add_failure_event, add_failure_event_with_op, remove_failure_event,
      get_specified_level_event, check_is_running_, h]
  · unfold mtl_init
    split_ifs <;> rfl
  · have hi : (mtl_init (ObFailureDetector.construct history) coordinator).2.is_running_
        = false := by
      unfold mtl_init
      split_ifs <;> rfl
    intro hne
    unfold mtl_start at hne ⊢
    simp only [] at hne ⊢
    split_ifs at hne ⊢
    · exact hi
    · exact hi
    · exact hi
    · exact absurd rfl hne

theorem not_running_refuses_witness :
    (add_failure_event half_started_detector clog_disk_full_event =
        (OB_NOT_RUNNING, half_started_detector) ∧
      add_failure_event_with_op half_started_detector clog_disk_full_event (some 1) =
        (OB_NOT_RUNNING, half_started_detector) ∧
      remove_failure_event half_started_detector clog_disk_full_event =
        (OB_NOT_RUNNING, half_started_detector) ∧
      get_specified_level_event half_started_detector FailureLevel.FATAL
          [schema_resource_event] =
        (OB_NOT_RUNNING, half_started_detector, [schema_resource_event])) ∧
    (mtl_start (mtl_init (ObFailureDetector.construct []) true).2 OB_SUCCESS
      (OB_OTHER_ERROR (-1))).2.is_running_ = false :=
  have h := not_running_refuses half_started_detector clog_disk_full_event (some 1)
    FailureLevel.FATAL [schema_resource_event] [] true OB_SUCCESS (OB_OTHER_ERROR (-1))
    (by decide)
  ⟨h.1, h.2.2.2 (by decide)⟩

/-- Evaluation for C8 (the code does not do what the claim says): after
`mtl_start` has succeeded and `mtl_stop` has been called, `is_running_` is still
true; `add_failure_event` (either overload) returns `OB_SUCCESS` and appends
to the active list, and `remove_failure_event` returns `OB_SUCCESS` and
removes an entry. -/
theorem operations_after_mtl_stop :
    mtl_stop (some started_detector) = some stopped_detector ∧
    stopped_detector.is_running_ = true ∧
    (add_failure_event stopped_detector schema_resource_event).1 = OB_SUCCESS ∧
    (add_failure_event stopped_detector schema_resource_event).2.events_with_ops_ =
      [{ event_ := schema_resource_event, recover_detect_operation_ := none }] ∧
    (add_failure_event_with_op stopped_detector schema_resource_event (some 7)).1 =
      OB_SUCCESS ∧
    (add_failure_event_with_op stopped_detector schema_resource_event (some 7)).2.events_with_ops_ =
      [{ event_ := schema_resource_event, recover_detect_operation_ := some 7 }] ∧
    (remove_failure_event (add_failure_event stopped_detector schema_resource_event).2
      schema_resource_event).1 = OB_SUCCESS ∧
    (remove_failure_event (add_failure_event stopped_detector schema_resource_event).2
      schema_resource_event).2.events_with_ops_ = [] := by
  decide

theorem foldl_level (level : FailureLevel) (l : List FailureEventWithRecoverOp) :
    ∀ init : List FailureEvent,
      l.foldl (fun acc x => if x.event_.get_failure_level = level then acc ++ [x.event_] else acc)
          init =
        init ++ (l.map (fun x => x.event_)).filter (fun e => decide (e.level_ = level)) := by
  induction l with
  | nil => intro init; simp
  | cons x xs ih =>
    intro init
    simp only [List.foldl_cons, List.map_cons, ih]
    by_cases hx : x.event_.level_ = level
    · simp [FailureEvent.get_failure_level, hx]
    · simp [FailureEvent.get_failure_level, hx]

/-- C9: on a running detector, `get_specified_level_event(level, results)`
returns `OB_SUCCESS`; the result array becomes exactly the events of the active
list whose level is `level`, in the order of the active list, whatever it held
before; and the detector, its active list included, is unchanged. -/
theorem get_specified_level_event_running (d : ObFailureDetector) (level : FailureLevel)
    (results : List FailureEvent) (hrun : d.is_running_ = true) :
    get_specified_level_event d level results =
      (OB_SUCCESS, d,
        (d.events_with_ops_.map (fun x => x.event_)).filter
          (fun e => decide (e.level_ = level))) := by
  simp [get_specified_level_event, check_is_running_, hrun, foldl_level]

theorem get_specified_level_event_running_witness :
    get_specified_level_event three_entries FailureLevel.FATAL [schema_resource_event] =
      (OB_SUCCESS, three_entries,
        (three_entries.events_with_ops_.map (fun x => x.event_)).filter
          (fun e => decide (e.level_ = FailureLevel.FATAL))) :=
  get_specified_level_event_running three_entries FailureLevel.FATAL [schema_resource_event]
    (by decide)

/-! ## One run of the recovery loop -/

/-- Any two amounts of fuel that cover the remaining entries give the same
detector: the loop has stopped by itself before the fuel runs out. -/
theorem detect_recover_loop_fuel (recover_flag : Nat → Bool) :
    ∀ (fuel1 fuel2 idx : Nat) (d : ObFailureDetector),
      d.events_with_ops_.length - idx ≤ fuel1 → d.events_with_ops_.length - idx ≤ fuel2 →
      detect_recover_loop recover_flag fuel1 idx d =
        detect_recover_loop recover_flag fuel2 idx d := by
  intro fuel1
  induction fuel1 with
  | zero =>
    intro fuel2 idx d h1 _
    have hle : ¬ idx < d.events_with_ops_.length := by omega
    cases fuel2 with
    | zero => rfl
    | succ m => simp [detect_recover_loop, hle]
  | succ n ih =>
    intro fuel2 idx d h1 h2
    by_cases hlt : idx < d.events_with_ops_.length
    · cases fuel2 with
      | zero => omega
      | succ m =>
        unfold detect_recover_loop
        simp only [hlt, dite_true]
        split
        · split
          · apply ih
            · simp [insert_recovered_events, List.length_eraseIdx, hlt]; omega
            · simp [insert_recovered_events, List.length_eraseIdx, hlt]; omega
          · apply ih <;> omega
        · apply ih <;> omega
    · cases fuel2 with
      | zero => simp [detect_recover_loop, hlt]
      | succ m => simp [detect_recover_loop, hlt]

/-- C10: one run of `detect_recover` leaves the active list equal to the old
list restricted, in the same order, to the entries whose callable is absent or
returned false, and the loop reaches this result by itself (more fuel than the
count of the list changes nothing).  Hence an entry without a callable is
still in the list afterwards; and an entry whose callable returns false in
three successive runs and true in the fourth is in the list after each of the
first three runs and is not in it after the fourth. -/
theorem detect_recover_keeps_survivors (d : ObFailureDetector)
    (recover_flag f1 f2 f3 f4 : Nat → Bool) (fuel : Nat) (x : FailureEventWithRecoverOp)
    (k : Nat) :
    (detect_recover d recover_flag).events_with_ops_ =
      d.events_with_ops_.filter (survives recover_flag) ∧
    (d.events_with_ops_.length ≤ fuel →
      detect_recover_loop recover_flag fuel 0 d = detect_recover d recover_flag) ∧
    (x ∈ d.events_with_ops_ → x.recover_detect_operation_ = none →
      x ∈ (detect_recover d recover_flag).events_with_ops_) ∧
    (x ∈ d.events_with_ops_ → x.recover_detect_operation_ = some k →
      f1 k = false → f2 k = false → f3 k = false → f4 k = true →
      x ∈ (detect_recover d f1).events_with_ops_ ∧
      x ∈ (detect_recover (detect_recover d f1) f2).events_with_ops_ ∧
      x ∈ (detect_recover (detect_recover (detect_recover d f1) f2) f3).events_with_ops_ ∧
      x ∉ (detect_recover (detect_recover (detect_recover (detect_recover d f1) f2) f3)
        f4).events_with_ops_) := by
  refine ⟨detect_recover_events d recover_flag, ?_, ?_, ?_⟩
  · intro hf
    exact detect_recover_loop_fuel recover_flag fuel _ 0 d (by omega) (by omega)
  · intro hx hop
    rw [detect_recover_events, List.mem_filter]
    exact ⟨hx, by simp [survives, hop]⟩
  · intro hx hop h1 h2 h3 h4
    simp only [detect_recover_events, List.mem_filter, survives, hop, h1, h2, h3, h4, hx,
      Bool.not_false, Bool.not_true, and_self, and_true, Bool.false_eq_true, and_false,
      not_false_eq_true]

theorem detect_recover_keeps_survivors_witness :
    (detect_recover three_entries (fun k => decide (k = 7))).events_with_ops_ =
      [ { event_ := clog_disk_full_event, recover_detect_operation_ := none },
        { event_ := data_disk_io_hang_event, recover_detect_operation_ := none } ] ∧
    detect_recover_loop (fun k => decide (k = 7)) 5 0 three_entries =
      detect_recover three_entries (fun k => decide (k = 7)) ∧
    ({ event_ := clog_disk_full_event, recover_detect_operation_ := none } :
        FailureEventWithRecoverOp) ∈
      (detect_recover three_entries (fun k => decide (k = 7))).events_with_ops_ ∧
    (({ event_ := schema_resource_event, recover_detect_operation_ := some 7 } :
        FailureEventWithRecoverOp) ∈
      (detect_recover three_entries (fun _ => false)).events_with_ops_ ∧
    ({ event_ := schema_resource_event, recover_detect_operation_ := some 7 } :
        FailureEventWithRecoverOp) ∈
      (detect_recover (detect_recover three_entries (fun _ => false))
        (fun _ => false)).events_with_ops_ ∧
    ({ event_ := schema_resource_event, recover_detect_operation_ := some 7 } :
        FailureEventWithRecoverOp) ∈
      (detect_recover (detect_recover (detect_recover three_entries (fun _ => false))
        (fun _ => false)) (fun _ => false)).events_with_ops_ ∧
    ({ event_ := schema_resource_event, recover_detect_operation_ := some 7 } :
        FailureEventWithRecoverOp) ∉
      (detect_recover (detect_recover (detect_recover (detect_recover three_entries
        (fun _ => false)) (fun _ => false)) (fun _ => false))
        (fun _ => true)).events_with_ops_) :=
  have h := detect_recover_keeps_survivors three_entries (fun k => decide (k = 7))
    (fun _ => false) (fun _ => false) (fun _ => false) (fun _ => true) 5
    { event_ := schema_resource_event, recover_detect_operation_ := some 7 } 7
  have h0 := detect_recover_keeps_survivors three_entries (fun k => decide (k = 7))
    (fun _ => false) (fun _ => false) (fun _ => false) (fun _ => true) 5
    { event_ := clog_disk_full_event, recover_detect_operation_ := none } 7
  ⟨h.1.trans (by decide), h.2.1 (by decide), h0.2.2.1 (by decide) rfl,
    h.2.2.2 (by decide) rfl rfl rfl rfl rfl⟩

/-! ## Latches and registry -/

theorem Family.key_injective (F G : Family) (h : F.key = G.key) : F = G := by
  cases F <;> cases G <;> first | rfl | exact absurd h (by decide)

theorem set_latch_events (F : Family) (b : Bool) (d : ObFailureDetector) :
    (F.set_latch b d).events_with_ops_ = d.events_with_ops_ := by
  cases F <;> rfl

theorem set_latch_same (F : Family) (b : Bool) (d : ObFailureDetector) :
    F.latch (F.set_latch b d) = b := by
  cases F <;> rfl

theorem set_latch_other (F G : Family) (b : Bool) (d : ObFailureDetector) (h : G ≠ F) :
    G.latch (F.set_latch b d) = G.latch d := by
  cases F <;> cases G <;> first | rfl | exact absurd rfl h

theorem add_latch (d : ObFailureDetector) (E : FailureEvent) (op : ObFunction) (F : Family) :
    F.latch (add_failure_event_with_op d E op).2 = F.latch d := by
  unfold add_failure_event_with_op
  dsimp only
  split_ifs <;> cases F <;> rfl

theorem remove_latch (d : ObFailureDetector) (E : FailureEvent) (F : Family) :
    F.latch (remove_failure_event d E).2 = F.latch d := by
  unfold remove_failure_event
  dsimp only
  split_ifs <;> cases F <;> rfl

theorem insert_recovered_latch (d : ObFailureDetector) (idx : Nat) (F : Family) :
    F.latch (insert_recovered_to_table_ d idx) = F.latch d := by
  unfold insert_recovered_to_table_
  split <;> cases F <;> rfl

theorem detect_recover_loop_latch (recover_flag : Nat → Bool) (F : Family) :
    ∀ (fuel idx : Nat) (d : ObFailureDetector),
      F.latch (detect_recover_loop recover_flag fuel idx d) = F.latch d := by
  intro fuel
  induction fuel with
  | zero => intro idx d; rfl
  | succ n ih =>
    intro idx d
    unfold detect_recover_loop
    split
    · split
      · split
        · rw [ih, insert_recovered_latch]
          cases F <;> rfl
        · exact ih _ _
      · exact ih _ _
    · rfl

theorem detect_recover_latch (d : ObFailureDetector) (recover_flag : Nat → Bool) (F : Family) :
    F.latch (detect_recover d recover_flag) = F.latch d :=
  detect_recover_loop_latch recover_flag F _ 0 d

theorem outside_families_iff (e : FailureEvent) :
    outside_families e = true ↔ ∀ F : Family, e.key ≠ F.key := by
  constructor
  · intro h F hk
    have hk2 : e.equal F.canonical_event = true := (equal_iff_key _ _).mpr hk
    cases F <;> simp [outside_families, hk2] at h
  · intro h
    have hc := fun F => (equal_false_iff_key e (Family.canonical_event F)).mpr (h F)
    simp [outside_families, hc]

/-- The invariant only looks at the active list and at the latches. -/
theorem consistent_same (d d2 : ObFailureDetector) (hc : Consistent d)
    (he : d2.events_with_ops_ = d.events_with_ops_)
    (hl : ∀ G : Family, G.latch d2 = G.latch d) : Consistent d2 := by
  unfold Consistent at hc ⊢
  rw [he]
  refine ⟨hc.1, hc.2.1, ?_⟩
  intro G
  rw [hl G]
  exact hc.2.2 G

/-- An entry whose key is new and belongs to no family is appended. -/
theorem consistent_append_outside (d d2 : ObFailureDetector) (x : FailureEventWithRecoverOp)
    (hc : Consistent d) (hout : ∀ F : Family, x.event_.key ≠ F.key)
    (hnew : x.event_.key ∉ keys d.events_with_ops_)
    (he : d2.events_with_ops_ = d.events_with_ops_ ++ [x])
    (hl : ∀ G : Family, G.latch d2 = G.latch d) : Consistent d2 := by
  unfold Consistent at hc ⊢
  rw [he, keys_append_singleton]
  refine ⟨List.Nodup.append hc.1 (List.nodup_singleton _) (by simpa using hnew), ?_, ?_⟩
  · intro y hy F hk
    rcases List.mem_append.mp hy with hy | hy
    · exact hc.2.1 y hy F hk
    · rw [List.mem_singleton] at hy
      subst hy
      exact absurd hk (hout F)
  · intro G
    rw [hl G, hc.2.2 G]
    simp only [List.mem_append, List.mem_singleton]
    constructor
    · intro h; exact Or.inl h
    · intro h
      rcases h with h | h
      · exact h
      · exact absurd h.symm (hout G)

/-- The event of a family is appended without a callable and its latch is
set. -/
theorem consistent_append_family (d d2 : ObFailureDetector) (F : Family) (E : FailureEvent)
    (hc : Consistent d) (hk : E.key = F.key) (hnew : E.key ∉ keys d.events_with_ops_)
    (he : d2.events_with_ops_ =
      d.events_with_ops_ ++ [{ event_ := E, recover_detect_operation_ := none }])
    (hF : F.latch d2 = true) (hl : ∀ G : Family, G ≠ F → G.latch d2 = G.latch d) :
    Consistent d2 := by
  unfold Consistent at hc ⊢
  rw [he, keys_append_singleton]
  refine ⟨List.Nodup.append hc.1 (List.nodup_singleton _) (by simpa using hnew), ?_, ?_⟩
  · intro y hy G hkG
    rcases List.mem_append.mp hy with hy | hy
    · exact hc.2.1 y hy G hkG
    · rw [List.mem_singleton] at hy
      subst hy
      rfl
  · intro G
    simp only [List.mem_append, List.mem_singleton]
    by_cases hG : G = F
    · subst hG
      simp [hF, hk]
    · rw [hl G hG, hc.2.2 G]
      constructor
      · intro h; exact Or.inl h
      · intro h
        rcases h with h | h
        · exact h
        · exact absurd (Family.key_injective G F (h.trans hk)) hG

/-- The first entry with the key of `E` is erased; the latches are those that
`latch2` gives, which agree with the old ones except perhaps at a family whose
key is the key of `E`, where the new latch is false. -/
theorem consistent_erase (d d2 : ObFailureDetector) (E : FailureEvent)
    (hc : Consistent d)
    (he : d2.events_with_ops_ = d.events_with_ops_.eraseIdx (find_idx E d.events_with_ops_))
    (hl : ∀ G : Family, G.key ≠ E.key → G.latch d2 = G.latch d)
    (hF : ∀ G : Family, G.key = E.key → G.latch d2 = false) : Consistent d2 := by
  unfold Consistent at hc ⊢
  rw [he, keys_eraseIdx_find_idx]
  refine ⟨hc.1.erase _, ?_, ?_⟩
  · intro y hy G hkG
    exact hc.2.1 y (List.mem_of_mem_eraseIdx hy) G hkG
  · intro G
    rw [List.Nodup.mem_erase_iff hc.1]
    by_cases hG : G.key = E.key
    · simp [hF G hG, hG]
    · rw [hl G hG, hc.2.2 G]
      simp [hG]

theorem ob_fail_success : OB_FAIL OB_SUCCESS = false := rfl

theorem ob_fail_not_running : OB_FAIL OB_NOT_RUNNING = true := rfl

theorem consistent_add_outside (d : ObFailureDetector) (E : FailureEvent) (op : ObFunction)
    (hc : Consistent d) (hout : ∀ F : Family, E.key ≠ F.key) :
    Consistent (add_failure_event_with_op d E op).2 := by
  by_cases hcond : d.is_running_ = true ∧ E.key ∉ keys d.events_with_ops_
  · exact consistent_append_outside d _ { event_ := E, recover_detect_operation_ := op } hc hout
      hcond.2 (by rw [add_events, if_pos hcond]) (add_latch d E op)
  · exact consistent_same d _ hc (by rw [add_events, if_neg hcond]) (add_latch d E op)

theorem consistent_remove_outside (d : ObFailureDetector) (E : FailureEvent)
    (hc : Consistent d) (hout : ∀ F : Family, E.key ≠ F.key) :
    Consistent (remove_failure_event d E).2 := by
  by_cases hr : d.is_running_ = true
  · exact consistent_erase d _ E hc (by rw [remove_events, if_pos hr])
      (fun G _ => remove_latch d E G) (fun G hG => absurd hG.symm (hout G))
  · exact consistent_same d _ hc (by rw [remove_events, if_neg hr]) (remove_latch d E)

theorem consistent_detect_recover (d : ObFailureDetector) (recover_flag : Nat → Bool)
    (hc : Consistent d) : Consistent (detect_recover d recover_flag) := by
  unfold Consistent at hc ⊢
  refine ⟨nodup_detect_recover d recover_flag hc.1, ?_, ?_⟩
  · intro x hx F hk
    rw [detect_recover_events] at hx
    exact hc.2.1 x (List.mem_filter.mp hx).1 F hk
  · intro G
    rw [detect_recover_latch, hc.2.2 G, detect_recover_events]
    simp only [keys, List.mem_map]
    constructor
    · rintro ⟨x, hx, hk⟩
      have hop := hc.2.1 x hx G hk
      exact ⟨x, List.mem_filter.mpr ⟨hx, by simp [survives, hop]⟩, hk⟩
    · rintro ⟨x, hx, hk⟩
      exact ⟨x, (List.mem_filter.mp hx).1, hk⟩

theorem consistent_edge_step (F : Family) (fault : Bool) (ev : FailureEvent)
    (d : ObFailureDetector) (hc : Consistent d) (hk : ev.key = F.key) :
    Consistent (edge_step F fault ev d) := by
  unfold edge_step
  by_cases hL : F.latch d = false
  · rw [if_pos hL]
    cases fault with
    | false => exact hc
    | true =>
      have hnew : ev.key ∉ keys d.events_with_ops_ := by
        rw [hk]
        intro hmem
        rw [(hc.2.2 F).mpr hmem] at hL
        exact Bool.noConfusion hL
      simp only [Bool.not_true, Bool.false_eq_true, if_false, add_failure_event_eq]
      by_cases hr : d.is_running_ = true
      · have hret : (add_failure_event_with_op d ev none).1 = OB_SUCCESS := by
          rw [add_ret, if_pos hr, if_pos hnew]
        simp only [hret, ob_fail_success, Bool.false_eq_true, if_false]
        exact consistent_append_family d _ F ev hc hk hnew
          (by rw [set_latch_events, add_events, if_pos ⟨hr, hnew⟩])
          (set_latch_same F true _)
          (fun G hG => (set_latch_other F G true _ hG).trans (add_latch d ev none G))
      · have hret : (add_failure_event_with_op d ev none).1 = OB_NOT_RUNNING := by
          rw [add_ret, if_neg hr]
        simp only [hret, ob_fail_not_running, if_true]
        exact consistent_same d _ hc (by rw [add_events, if_neg (fun h => hr h.1)])
          (add_latch d ev none)
  · rw [if_neg hL]
    cases fault with
    | true => exact hc
    | false =>
      have hLt : F.latch d = true := by simpa using hL
      have hmem : ev.key ∈ keys d.events_with_ops_ := by
        rw [hk]
        exact (hc.2.2 F).mp hLt
      simp only [Bool.false_eq_true, if_false]
      by_cases hr : d.is_running_ = true
      · have hret : (remove_failure_event d ev).1 = OB_SUCCESS := by
          rw [remove_ret, if_pos hr, if_pos hmem]
        simp only [hret, ob_fail_success, Bool.false_eq_true, if_false]
        refine consistent_erase d _ ev hc
          (by rw [set_latch_events, remove_events, if_pos hr]) ?_ ?_
        · intro G hG
          have hne : G ≠ F := fun h => hG (by rw [h, hk])
          exact (set_latch_other F G false _ hne).trans (remove_latch d ev G)
        · intro G hG
          have hGF : G = F := Family.key_injective G F (hG.trans hk)
          rw [hGF]
          exact set_latch_same F false _
      · have hret : (remove_failure_event d ev).1 = OB_NOT_RUNNING := by
          rw [remove_ret, if_neg hr]
        simp only [hret, ob_fail_not_running, if_true]
        exact consistent_same d _ hc (by rw [remove_events, if_neg hr]) (remove_latch d ev)

/-! ## The five steps are edge steps -/

theorem detect_palf_hang_failure_eq (d : ObFailureDetector) (p : Probes) :
    detect_palf_hang_failure_ d p =
      edge_step Family.clog_hang p.is_clog_disk_hang (clog_disk_hang_event p.sensitivity) d :=
  rfl

theorem detect_data_disk_io_failure_eq (d : ObFailureDetector) (p : Probes) :
    detect_data_disk_io_failure_ d p =
      if OB_FAIL p.get_device_health_status_ret then d
      else edge_step Family.data_disk_hang
        (decide (p.data_disk_status ≠ ObDeviceHealthStatus.DEVICE_HEALTH_NORMAL))
        data_disk_io_hang_event d := by
  unfold detect_data_disk_io_failure_ edge_step
  by_cases hs : p.data_disk_status = ObDeviceHealthStatus.DEVICE_HEALTH_NORMAL <;>
    simp [hs, Family.latch, Family.set_latch]

theorem detect_palf_disk_full_eq (d : ObFailureDetector) (p : Probes) :
    detect_palf_disk_full_ d p =
      if OB_FAIL p.check_disk_space_enough_ret then d
      else edge_step Family.clog_full (!p.is_disk_enough) clog_disk_full_event d := by
  unfold detect_palf_disk_full_ edge_step
  cases p.is_disk_enough <;> simp [Family.latch, Family.set_latch]

theorem detect_schema_not_refreshed_eq (d : ObFailureDetector) (p : Probes) :
    detect_schema_not_refreshed_ d p =
      edge_step Family.schema_error p.schema_not_refreshed schema_not_refreshed_event d :=
  rfl

theorem detect_election_silent_eq (d : ObFailureDetector) (p : Probes) :
    detect_election_silent_ d p =
      if p.log_service_is_null then d
      else if p.palf_env_is_null then d
      else if OB_FAIL p.for_each_ret then d
      else edge_step Family.election_silent p.is_election_silent election_silent_event d := by
  unfold detect_election_silent_ edge_step
  cases p.is_election_silent <;> simp [Family.latch, Family.set_latch]

theorem consistent_detect_failure (arb : Bool) (d : ObFailureDetector) (p : Probes)
    (hc : Consistent d) : Consistent (detect_failure arb d p) := by
  have h1 : Consistent (detect_palf_hang_failure_ d p) := by
    rw [detect_palf_hang_failure_eq]
    exact consistent_edge_step _ _ _ d hc rfl
  have h2 : Consistent (detect_data_disk_io_failure_ (detect_palf_hang_failure_ d p) p) := by
    rw [detect_data_disk_io_failure_eq]
    split
    · exact h1
    · exact consistent_edge_step _ _ _ _ h1 rfl
  have h3 : Consistent (detect_palf_disk_full_
      (detect_data_disk_io_failure_ (detect_palf_hang_failure_ d p) p) p) := by
    rw [detect_palf_disk_full_eq]
    split
    · exact h2
    · exact consistent_edge_step _ _ _ _ h2 rfl
  have h4 : Consistent (detect_schema_not_refreshed_ (detect_palf_disk_full_
      (detect_data_disk_io_failure_ (detect_palf_hang_failure_ d p) p) p) p) := by
    rw [detect_schema_not_refreshed_eq]
    exact consistent_edge_step _ _ _ _ h3 rfl
  unfold detect_failure
  dsimp only
  split
  · rw [detect_election_silent_eq]
    split_ifs
    · exact h4
    · exact h4
    · exact h4
    · exact consistent_edge_step _ _ _ _ h4 rfl
  · exact h4

theorem consistent_apply (arb : Bool) (d : ObFailureDetector) (c : Call)
    (hc : Consistent d) (hout : c.outside_families = true) :
    Consistent (Call.apply arb d c) := by
  cases c with
  | add event =>
    exact consistent_add_outside d event none hc ((outside_families_iff event).mp hout)
  | add_with_op event op =>
    exact consistent_add_outside d event op hc ((outside_families_iff event).mp hout)
  | remove event =>
    exact consistent_remove_outside d event hc ((outside_families_iff event).mp hout)
  | detect_recover recover_flag => exact consistent_detect_recover d recover_flag hc
  | detect_failure p => exact consistent_detect_failure arb d p hc

theorem consistent_run (arb : Bool) (calls : List Call) :
    ∀ d : ObFailureDetector, Consistent d → (∀ c ∈ calls, c.outside_families = true) →
      Consistent (run arb d calls) := by
  induction calls with
  | nil => intro d hc _; exact hc
  | cons c cs ih =>
    intro d hc hout
    exact ih _ (consistent_apply arb d c hc (hout c (List.mem_cons_self c cs)))
      (fun c2 h2 => hout c2 (List.mem_cons_of_mem c h2))

theorem consistent_started (history : List ServerEvent) : Consistent (started history) := by
  refine ⟨List.nodup_nil, ?_, ?_⟩
  · intro x hx
    exact absurd hx (List.not_mem_nil x)
  · intro F
    have hl : F.latch (started history) = false := by cases F <;> rfl
    have he : (started history).events_with_ops_ = [] := rfl
    rw [hl, he]
    simp [keys]

theorem contains_event_iff_key (l : List FailureEventWithRecoverOp) (E : FailureEvent) :
    contains_event l E = true ↔ E.key ∈ keys l := by
  rw [contains_event_iff]
  simp only [keys, List.mem_map, equal_iff_key]

/-- Counterexample to C6 as stated: on a started detector, one run of
`detect_failure` with a full clog disk followed by an outside
`remove_failure_event` of the clog full event leaves the clog full latch set
while the active list holds no entry equal to that event. -/
theorem latch_registry_counterexample :
    Family.latch
        (run false (started [])
          [Call.detect_failure full_disk_probes, Call.remove clog_disk_full_event])
        Family.clog_full = true ∧
    contains_event
        (run false (started [])
          [Call.detect_failure full_disk_probes,
            Call.remove clog_disk_full_event]).events_with_ops_
        (Family.canonical_event Family.clog_full) = false := by
  decide

/-- C6, amended: in every state reached from a started detector by a sequence
of calls of `detect_failure`, `detect_recover`, and of `add_failure_event`
(either overload) and `remove_failure_event` on events that are equal to the
event of no family, the latch of each family is set exactly when the active
list holds an entry equal to the event of that family. -/
theorem latch_registry_agree (OB_BUILD_ARBITRATION : Bool) (history : List ServerEvent)
    (calls : List Call) (F : Family)
    (hcalls : ∀ c ∈ calls, c.outside_families = true) :
    (F.latch (run OB_BUILD_ARBITRATION (started history) calls) = true ↔
      contains_event (run OB_BUILD_ARBITRATION (started history) calls).events_with_ops_
        F.canonical_event = true) := by
  rw [contains_event_iff_key]
  exact (consistent_run OB_BUILD_ARBITRATION calls _ (consistent_started history) hcalls).2.2 F

theorem latch_registry_agree_witness :
    (Family.latch
        (run true (started [])
          [Call.detect_failure full_disk_probes, Call.add schema_resource_event,
            Call.detect_recover (fun _ => true), Call.remove schema_resource_event,
            Call.detect_failure healthy_probes])
        Family.clog_full = true ↔
      contains_event
          (run true (started [])
            [Call.detect_failure full_disk_probes, Call.add schema_resource_event,
              Call.detect_recover (fun _ => true), Call.remove schema_resource_event,
              Call.detect_failure healthy_probes]).events_with_ops_
          (Family.canonical_event Family.clog_full) = true) :=
  latch_registry_agree true []
    [Call.detect_failure full_disk_probes, Call.add schema_resource_event,
      Call.detect_recover (fun _ => true), Call.remove schema_resource_event,
      Call.detect_failure healthy_probes]
    Family.clog_full (by decide)

/-! ## Size classes of the disk hang detector -/

theorem ilog10_eq_log : ∀ fuel n : Nat, n ≤ fuel → ilog10 fuel n = Nat.log 10 n := by
  intro fuel
  induction fuel with
  | zero =>
    intro n hn
    have h0 : n = 0 := by omega
    subst h0
    simp [ilog10]
  | succ m ih =>
    intro n hn
    unfold ilog10
    by_cases h10 : n < 10
    · rw [if_pos h10, Nat.log_of_lt h10]
    · rw [if_neg h10, ih (n / 10) (by omega)]
      exact (Nat.log_of_one_lt_of_le (by decide) (by omega)).symm

/-- A size of at least one lies between two successive powers of ten, the
lower one given by the logarithm of its integer part. -/
theorem decade_bounds (s : ℚ) (h1 : 1 ≤ s) :
    (10 : ℚ) ^ Nat.log 10 ⌊s⌋₊ ≤ s ∧ s < (10 : ℚ) ^ (Nat.log 10 ⌊s⌋₊ + 1) := by
  have hpos : 0 < ⌊s⌋₊ := Nat.floor_pos.mpr h1
  have hs0 : (0 : ℚ) ≤ s := by linarith
  constructor
  · have h := Nat.pow_log_le_self 10 (Nat.pos_iff_ne_zero.mp hpos)
    have h2 : ((10 ^ Nat.log 10 ⌊s⌋₊ : Nat) : ℚ) ≤ (⌊s⌋₊ : ℚ) := by exact_mod_cast h
    have h3 : (⌊s⌋₊ : ℚ) ≤ s := Nat.floor_le hs0
    push_cast at h2
    linarith
  · have h := Nat.lt_pow_succ_log_self (by decide : 1 < 10) ⌊s⌋₊
    have h2 : ((⌊s⌋₊ + 1 : Nat) : ℚ) ≤ ((10 ^ (Nat.log 10 ⌊s⌋₊).succ : Nat) : ℚ) := by
      exact_mod_cast h
    have h3 : s < (⌊s⌋₊ : ℚ) + 1 := Nat.lt_floor_add_one s
    rw [Nat.succ_eq_add_one] at h2
    push_cast at h2
    linarith

theorem log10_to_int_eq (s : ℚ) (h1 : 1 ≤ s) :
    log10_to_int s = (Nat.log 10 ⌊s⌋₊ : Nat) := by
  unfold log10_to_int
  rw [if_pos h1, ilog10_eq_log _ _ (le_refl _)]

theorem three_le_log (s : ℚ) (h : 4000 < s) : 3 ≤ Nat.log 10 ⌊s⌋₊ := by
  apply Nat.le_log_of_pow_le (by decide)
  apply Nat.le_floor
  norm_num
  linarith

theorem raw_slot_nonneg (s : ℚ) (h : 4000 < s) : 0 ≤ raw_slot s := by
  have h1 : (1 : ℚ) ≤ s := by linarith
  obtain ⟨hlo, _⟩ := decade_bounds s h1
  have he := three_le_log s h
  have hpow : (0 : ℚ) < (10 : ℚ) ^ Nat.log 10 ⌊s⌋₊ := by positivity
  have hbase : 1 ≤ s / (10 : ℚ) ^ Nat.log 10 ⌊s⌋₊ := (one_le_div hpow).mpr hlo
  unfold raw_slot
  rcases Nat.eq_or_lt_of_le he with heq | hlt
  · rw [← heq]
    have : (4 : ℚ) < s / (10 : ℚ) ^ 3 := by
      rw [lt_div_iff₀ (by norm_num)]
      norm_num
      linarith
    push_cast
    linarith
  · have h4 : (4 : ℚ) ≤ (Nat.log 10 ⌊s⌋₊ : ℚ) := by exact_mod_cast hlt
    linarith

theorem unclamped_slot_idx_eq (s : ℚ) (h : 4000 < s) :
    unclamped_slot_idx s = ⌊raw_slot s⌋ := by
  have h1 : (1 : ℚ) ≤ s := by linarith
  have hnn := raw_slot_nonneg s h
  unfold unclamped_slot_idx
  simp only [log10_to_int_eq s h1, zpow_natCast]
  have e1 : (s / (10 : ℚ) ^ Nat.log 10 ⌊s⌋₊ - 4) / (1 / 10) +
      ((90 * (((Nat.log 10 ⌊s⌋₊ : Nat) : Int) - 3) : Int) : ℚ) = raw_slot s := by
    unfold raw_slot
    push_cast
    ring
  have e2 : ((90 * (((Nat.log 10 ⌊s⌋₊ : Nat) : Int) - 3) : Int) : ℚ) -
      (4 - s / (10 : ℚ) ^ Nat.log 10 ⌊s⌋₊) / (1 / 10) = raw_slot s := by
    unfold raw_slot
    push_cast
    ring
  rw [e1, e2]
  simp [double_to_int, hnn]

theorem raw_slot_mono (s1 s2 : ℚ) (h1 : 4000 < s1) (h : s1 ≤ s2) :
    raw_slot s1 ≤ raw_slot s2 := by
  have h11 : (1 : ℚ) ≤ s1 := by linarith
  have h12 : (1 : ℚ) ≤ s2 := by linarith
  obtain ⟨_, hhi1⟩ := decade_bounds s1 h11
  obtain ⟨hlo2, _⟩ := decade_bounds s2 h12
  have hle : Nat.log 10 ⌊s1⌋₊ ≤ Nat.log 10 ⌊s2⌋₊ := Nat.log_mono_right (Nat.floor_mono h)
  have hp1 : (0 : ℚ) < (10 : ℚ) ^ Nat.log 10 ⌊s1⌋₊ := by positivity
  have hp2 : (0 : ℚ) < (10 : ℚ) ^ Nat.log 10 ⌊s2⌋₊ := by positivity
  unfold raw_slot
  rcases Nat.eq_or_lt_of_le hle with heq | hlt
  · rw [← heq]
    have : s1 / (10 : ℚ) ^ Nat.log 10 ⌊s1⌋₊ ≤ s2 / (10 : ℚ) ^ Nat.log 10 ⌊s1⌋₊ :=
      div_le_div_of_nonneg_right h (le_of_lt hp1)
    linarith
  · have hb1 : s1 / (10 : ℚ) ^ Nat.log 10 ⌊s1⌋₊ < 10 := by
      rw [div_lt_iff₀ hp1]
      rw [pow_succ] at hhi1
      linarith
    have hb2 : 1 ≤ s2 / (10 : ℚ) ^ Nat.log 10 ⌊s2⌋₊ := (one_le_div hp2).mpr hlo2
    have he : (Nat.log 10 ⌊s1⌋₊ : ℚ) + 1 ≤ (Nat.log 10 ⌊s2⌋₊ : ℚ) := by exact_mod_cast hlt
    linarith

/-- Above a floor of at least four thousand, the slot is the integer part of
`raw_slot`, cut off at the last slot. -/
theorem size_to_learn_idx_above (c : PalfConstants) (hmin : 4000 ≤ c.MIN_WRITE_SIZE) (s : ℚ)
    (hs : (c.MIN_WRITE_SIZE : ℚ) < s) :
    size_to_learn_idx_ c s =
      if ⌊raw_slot s⌋ ≥ c.PALF_DISK_LEARN_SLOT then c.PALF_DISK_LEARN_SLOT - 1
      else ⌊raw_slot s⌋ := by
  have h4 : (4000 : ℚ) < s := by
    have : ((4000 : Int) : ℚ) ≤ (c.MIN_WRITE_SIZE : ℚ) := by exact_mod_cast hmin
    push_cast at this
    linarith
  unfold size_to_learn_idx_
  rw [if_neg (not_le.mpr hs)]
  simp only [unclamped_slot_idx_eq s h4]

theorem size_to_learn_idx_nonneg (c : PalfConstants) (hmin : 4000 ≤ c.MIN_WRITE_SIZE) (s : ℚ) :
    0 ≤ size_to_learn_idx_ c s := by
  by_cases hs : s ≤ (c.MIN_WRITE_SIZE : ℚ)
  · simp [size_to_learn_idx_, hs]
  · have hs2 : (c.MIN_WRITE_SIZE : ℚ) < s := not_le.mp hs
    have h4 : (4000 : ℚ) < s := by
      have : ((4000 : Int) : ℚ) ≤ (c.MIN_WRITE_SIZE : ℚ) := by exact_mod_cast hmin
      push_cast at this
      linarith
    rw [size_to_learn_idx_above c hmin s hs2]
    have hf : 0 ≤ ⌊raw_slot s⌋ := Int.floor_nonneg.mpr (raw_slot_nonneg s h4)
    have hp := c.learn_slot_pos
    split <;> omega

theorem size_to_learn_idx_lt (c : PalfConstants) (s : ℚ) :
    size_to_learn_idx_ c s < c.PALF_DISK_LEARN_SLOT := by
  have hp := c.learn_slot_pos
  unfold size_to_learn_idx_
  split
  · exact hp
  · simp only []
    split <;> omega

/-- Evaluation for C11 (the code does not do what the claim says): one run of
`detect_recover` on a list of three entries, the second of which
(`RESOURCE_NOT_ENOUGH`, `SCHEMA`, callable 7) recovers, removes that entry and
emits one row with tag "DETECT REVOCER"; the row carries the module and type
of the entry that followed the removed one (`STORAGE`, `PROCESS_HANG`) and
the auto-recover flag false of that entry.  When the entry removed is the last
one, the row is built from the slot past the end of the array. -/
theorem detect_recover_row_of_following_entry :
    (three_entries.events_with_ops_.map (fun x => x.event_.key)) =
      [(FailureType.RESOURCE_NOT_ENOUGH, FailureModule.LOG),
        (FailureType.RESOURCE_NOT_ENOUGH, FailureModule.SCHEMA),
        (FailureType.PROCESS_HANG, FailureModule.STORAGE)] ∧
    (detect_recover three_entries (fun _ => true)).events_with_ops_ =
      [ { event_ := clog_disk_full_event, recover_detect_operation_ := none },
        { event_ := data_disk_io_hang_event, recover_detect_operation_ := none } ] ∧
    (detect_recover three_entries (fun _ => true)).server_event_history_ =
      three_entries.server_event_history_ ++
        [ServerEvent.row "DETECT REVOCER" FailureModule.STORAGE FailureType.PROCESS_HANG false] ∧
    (detect_recover
        { three_entries with
          events_with_ops_ :=
            [{ event_ := schema_resource_event, recover_detect_operation_ := some 7 }] }
        (fun _ => true)).server_event_history_ =
      three_entries.server_event_history_ ++ [ServerEvent.row_out_of_range "DETECT REVOCER"] := by
  decide

theorem reduce_base_51 : reduce_base 51 (4 + ((51 : Int) : ℚ) * (1 / 10)) 3 = (1 / 10, 4) := by
  have h1 : (4 : ℚ) + ((51 : Int) : ℚ) * (1 / 10) > 9 := by norm_num
  have h2 : ¬ ((4 : ℚ) + ((51 : Int) : ℚ) * (1 / 10) - 9 > 9) := by norm_num
  rw [show (51 : Nat) = 49 + 1 + 1 from rfl]
  rw [reduce_base, if_pos h1, reduce_base, if_neg h2]
  norm_num

theorem log10_to_int_1000 : log10_to_int 1000 = 3 := by
  have hf : ⌊(1000 : ℚ)⌋₊ = 1000 := Nat.floor_ofNat 1000
  have h1 : (1 : ℚ) ≤ 1000 := by norm_num
  rw [log10_to_int, if_pos h1, hf]
  decide

/-- Evaluation for C12 (the code does not do what the claim says): whenever
slot 51 exists, `learn_idx_to_size_(51)` is 1000 (the loop takes nine off the
mantissa 9.1 and leaves 0.1 in the next decade), and `size_to_learn_idx_` maps
that size to slot 0 when 1000 is at or below `MIN_WRITE_SIZE` and to -30
otherwise, never back to 51. -/
theorem learn_idx_round_trip_51 (c : PalfConstants) (h : 51 < c.PALF_DISK_LEARN_SLOT) :
    learn_idx_to_size_ c 51 = 1000 ∧
    (size_to_learn_idx_ c (learn_idx_to_size_ c 51) = 0 ∨
      size_to_learn_idx_ c (learn_idx_to_size_ c 51) = -30) ∧
    size_to_learn_idx_ c (learn_idx_to_size_ c 51) ≠ 51 := by
  have hsize : learn_idx_to_size_ c 51 = 1000 := by
    unfold learn_idx_to_size_
    rw [if_pos ⟨by decide, h⟩]
    have h51 : (51 : Int).toNat = 51 := rfl
    simp only [h51, reduce_base_51]
    norm_num
  have hidx : size_to_learn_idx_ c 1000 = 0 ∨ size_to_learn_idx_ c 1000 = -30 := by
    unfold size_to_learn_idx_
    by_cases hm : (1000 : ℚ) ≤ (c.MIN_WRITE_SIZE : ℚ)
    · left
      rw [if_pos hm]
    · right
      rw [if_neg hm]
      have hu : unclamped_slot_idx 1000 = -30 := by
        unfold unclamped_slot_idx
        simp only [log10_to_int_1000]
        norm_num [double_to_int, Int.ceil_eq_iff]
      simp only [hu]
      rw [if_neg (by omega)]
  rw [hsize]
  refine ⟨rfl, hidx, ?_⟩
  rcases hidx with h0 | h0 <;> rw [h0] <;> decide

theorem learn_idx_round_trip_51_witness :
    learn_idx_to_size_ sample_constants 51 = 1000 ∧
    (size_to_learn_idx_ sample_constants (learn_idx_to_size_ sample_constants 51) = 0 ∨
      size_to_learn_idx_ sample_constants (learn_idx_to_size_ sample_constants 51) = -30) ∧
    size_to_learn_idx_ sample_constants (learn_idx_to_size_ sample_constants 51) ≠ 51 :=
  learn_idx_round_trip_51 sample_constants (by decide)

/-- C13: with `MIN_WRITE_SIZE` at least 4000, `size_to_learn_idx_` is monotonic:
a size that is not larger gets a slot that is not larger, wherever the two
sizes lie with respect to the floor, to the mantissa four, to the powers of
ten and to the last slot. -/
theorem size_to_learn_idx_monotone (c : PalfConstants) (hmin : 4000 ≤ c.MIN_WRITE_SIZE)
    (s1 s2 : ℚ) (h : s1 ≤ s2) : size_to_learn_idx_ c s1 ≤ size_to_learn_idx_ c s2 := by
  by_cases h1 : s1 ≤ (c.MIN_WRITE_SIZE : ℚ)
  · have h0 : size_to_learn_idx_ c s1 = 0 := by simp [size_to_learn_idx_, h1]
    rw [h0]
    exact size_to_learn_idx_nonneg c hmin s2
  · have hs1 : (c.MIN_WRITE_SIZE : ℚ) < s1 := not_le.mp h1
    have hs2 : (c.MIN_WRITE_SIZE : ℚ) < s2 := lt_of_lt_of_le hs1 h
    have h4 : (4000 : ℚ) < s1 := by
      have : ((4000 : Int) : ℚ) ≤ (c.MIN_WRITE_SIZE : ℚ) := by exact_mod_cast hmin
      push_cast at this
      linarith
    have hfl : ⌊raw_slot s1⌋ ≤ ⌊raw_slot s2⌋ := Int.floor_mono (raw_slot_mono s1 s2 h4 h)
    rw [size_to_learn_idx_above c hmin s1 hs1, size_to_learn_idx_above c hmin s2 hs2]
    split <;> split <;> omega

theorem size_to_learn_idx_monotone_witness :
    size_to_learn_idx_ sample_constants 9999 ≤ size_to_learn_idx_ sample_constants 10000 :=
  size_to_learn_idx_monotone sample_constants (by decide) 9999 10000 (by norm_num)

/-- C14: with `MIN_WRITE_SIZE` at least 4000, `size_to_learn_idx_(size)` lies in
`[0, PALF_DISK_LEARN_SLOT - 1]` for every size, and so does every index from
zero up to one below it, which are the indexes the two scans read; a size at or
below `MIN_WRITE_SIZE` gets slot 0; and a size above it whose index before the
comparison with `PALF_DISK_LEARN_SLOT` reaches that number gets the last
slot. -/
theorem size_to_learn_idx_in_bounds (c : PalfConstants) (hmin : 4000 ≤ c.MIN_WRITE_SIZE)
    (size : ℚ) :
    (0 ≤ size_to_learn_idx_ c size ∧ size_to_learn_idx_ c size ≤ c.PALF_DISK_LEARN_SLOT - 1) ∧
    (∀ i : Int, 0 ≤ i → i ≤ size_to_learn_idx_ c size - 1 →
      0 ≤ i ∧ i ≤ c.PALF_DISK_LEARN_SLOT - 1) ∧
    (size ≤ (c.MIN_WRITE_SIZE : ℚ) → size_to_learn_idx_ c size = 0) ∧
    ((c.MIN_WRITE_SIZE : ℚ) < size → unclamped_slot_idx size ≥ c.PALF_DISK_LEARN_SLOT →
      size_to_learn_idx_ c size = c.PALF_DISK_LEARN_SLOT - 1) := by
  have hnn := size_to_learn_idx_nonneg c hmin size
  have hlt := size_to_learn_idx_lt c size
  refine ⟨⟨hnn, by omega⟩, ?_, ?_, ?_⟩
  · intro i hi hle
    exact ⟨hi, by omega⟩
  · intro hs
    simp [size_to_learn_idx_, hs]
  · intro hs hraw
    unfold size_to_learn_idx_
    rw [if_neg (not_le.mpr hs)]
    simp only []
    rw [if_pos hraw]

theorem size_to_learn_idx_in_bounds_witness :
    (0 ≤ size_to_learn_idx_ sample_constants 123456789 ∧
      size_to_learn_idx_ sample_constants 123456789 ≤
        sample_constants.PALF_DISK_LEARN_SLOT - 1) ∧
    (∀ i : Int, 0 ≤ i → i ≤ size_to_learn_idx_ sample_constants 123456789 - 1 →
      0 ≤ i ∧ i ≤ sample_constants.PALF_DISK_LEARN_SLOT - 1) ∧
    ((123456789 : ℚ) ≤ (sample_constants.MIN_WRITE_SIZE : ℚ) →
      size_to_learn_idx_ sample_constants 123456789 = 0) ∧
    ((sample_constants.MIN_WRITE_SIZE : ℚ) < 123456789 →
      unclamped_slot_idx 123456789 ≥ sample_constants.PALF_DISK_LEARN_SLOT →
      size_to_learn_idx_ sample_constants 123456789 =
        sample_constants.PALF_DISK_LEARN_SLOT - 1) :=
  size_to_learn_idx_in_bounds sample_constants (by decide) 123456789

/-! ## Calls of `is_clog_disk_hang` that do not sample -/

theorem rate_limited_eq_true_iff (c : PalfConstants) (d : PalfDiskHangDetector)
    (inp : TickInput) :
    rate_limited c d inp = true ↔
      (d.last_detect_time_ ≠ c.OB_INVALID_TIMESTAMP ∧
        inp.now - d.last_detect_time_ < c.PALF_DISK_DETECT_INTERVAL_US) := by
  unfold rate_limited
  rw [decide_eq_true_iff]
  constructor
  · rintro ⟨a, b⟩
    exact ⟨Ne.symm a, b⟩
  · rintro ⟨a, b⟩
    exact ⟨Ne.symm a, b⟩

theorem ob_fail_eq_true_iff (r : ObRet) : OB_FAIL r = true ↔ r ≠ OB_SUCCESS := by
  simp [OB_FAIL, OB_SUCC]

theorem samples_false_iff (c : PalfConstants) (d : PalfDiskHangDetector) (inp : TickInput) :
    samples c d inp = false ↔
      (inp.log_service_is_null = true ∨
        (d.last_detect_time_ ≠ c.OB_INVALID_TIMESTAMP ∧
          inp.now - d.last_detect_time_ < c.PALF_DISK_DETECT_INTERVAL_US) ∨
        inp.get_io_statistic_info_ret ≠ OB_SUCCESS) := by
  rw [← rate_limited_eq_true_iff, ← ob_fail_eq_true_iff]
  unfold samples
  cases inp.log_service_is_null <;> cases rate_limited c d inp <;>
    cases OB_FAIL inp.get_io_statistic_info_ret <;> simp

theorem is_clog_disk_hang_of_not_samples (c : PalfConstants) (d : PalfDiskHangDetector)
    (inp : TickInput) (h : samples c d inp = false) :
    is_clog_disk_hang c d inp = (has_failure c d, inp.sensitivity, d) := by
  unfold is_clog_disk_hang
  unfold samples at h
  split_ifs with h1 h2 h3
  · rfl
  · rfl
  · rfl
  · simp [h1, h2, h3] at h

theorem is_clog_disk_hang_of_samples (c : PalfConstants) (d : PalfDiskHangDetector)
    (inp : TickInput) (h : samples c d inp = true) :
    is_clog_disk_hang c d inp =
      ((sampled_tick c d inp).1, inp.sensitivity, (sampled_tick c d inp).2) := by
  unfold is_clog_disk_hang
  unfold samples at h
  split_ifs with h1 h2 h3
  · simp [h1] at h
  · simp [h2] at h
  · simp [h3] at h
  · rfl

theorem rate_limited_construct (c : PalfConstants) (inp : TickInput) :
    rate_limited c (PalfDiskHangDetector.construct c) inp = false := by
  simp [rate_limited, PalfDiskHangDetector.construct]

/-- C15: a call of `is_clog_disk_hang` that does not sample (the log service is
missing, or `last_detect_time_` is set and less than
`PALF_DISK_DETECT_INTERVAL_US` has passed since, or the statistics could not be
read) returns the prior latch, which is true exactly when
`last_detect_failure_time_` is set, and hands back the detector with every
member as it was.  A call on a freshly constructed detector is not rate
limited: it samples as soon as the log service is there and the statistics are
read. -/
theorem not_sampled_call_is_frame (c : PalfConstants) (d : PalfDiskHangDetector)
    (inp : TickInput)
    (h : inp.log_service_is_null = true ∨
      (d.last_detect_time_ ≠ c.OB_INVALID_TIMESTAMP ∧
        inp.now - d.last_detect_time_ < c.PALF_DISK_DETECT_INTERVAL_US) ∨
      inp.get_io_statistic_info_ret ≠ OB_SUCCESS) :
    is_clog_disk_hang c d inp =
      (decide (d.last_detect_failure_time_ ≠ c.OB_INVALID_TIMESTAMP), inp.sensitivity, d) ∧
    rate_limited c (PalfDiskHangDetector.construct c) inp = false ∧
    (inp.log_service_is_null = false → inp.get_io_statistic_info_ret = OB_SUCCESS →
      samples c (PalfDiskHangDetector.construct c) inp = true) := by
  refine ⟨?_, rate_limited_construct c inp, ?_⟩
  · rw [is_clog_disk_hang_of_not_samples c d inp ((samples_false_iff c d inp).mpr h)]
    simp [has_failure, eq_comm]
  · intro hn hr
    simp [samples, rate_limited_construct, hn, hr, OB_FAIL, OB_SUCC]

theorem not_sampled_call_is_frame_witness :
    is_clog_disk_hang sample_constants sampled_once early_input =
      (decide (sampled_once.last_detect_failure_time_ ≠ sample_constants.OB_INVALID_TIMESTAMP),
        early_input.sensitivity, sampled_once) ∧
    rate_limited sample_constants (PalfDiskHangDetector.construct sample_constants)
      early_input = false ∧
    (early_input.log_service_is_null = false →
      early_input.get_io_statistic_info_ret = OB_SUCCESS →
      samples sample_constants (PalfDiskHangDetector.construct sample_constants)
        early_input = true) :=
  not_sampled_call_is_frame sample_constants sampled_once early_input
    (Or.inr (Or.inl (by decide)))

/-! ## Calls of `is_clog_disk_hang` that sample -/

theorem learns_eq_false_iff (c : PalfConstants) (d : PalfDiskHangDetector) (inp : TickInput) :
    learns c d inp = false ↔
      (is_perf_decrease_warn c d inp = true ∨ is_perf_decrease_error c d inp = true ∨
        has_small_pending_io c d inp = true ∨ has_long_pending_io c inp = true ∨
        has_failure c d = true) := by
  unfold learns
  cases is_perf_decrease_warn c d inp <;> cases is_perf_decrease_error c d inp <;>
    cases has_small_pending_io c d inp <;> cases has_long_pending_io c inp <;>
    cases has_failure c d <;> simp

theorem learned_bw_of_not_learns (c : PalfConstants) (d : PalfDiskHangDetector)
    (inp : TickInput) (h : learns c d inp = false) : learned_bw c d inp = d.learn_avg_bw_ := by
  simp [learned_bw, h]

theorem learned_rt_of_not_learns (c : PalfConstants) (d : PalfDiskHangDetector)
    (inp : TickInput) (h : learns c d inp = false) : learned_rt c d inp = d.learn_avg_rt_ := by
  simp [learned_rt, h]

theorem learned_bw_other (c : PalfConstants) (d : PalfDiskHangDetector) (inp : TickInput)
    (i : Int) (hi : i ≠ size_to_learn_idx_ c (this_avg_size d inp)) :
    learned_bw c d inp i = d.learn_avg_bw_ i := by
  unfold learned_bw
  split_ifs <;> simp [Function.update_noteq hi]

theorem learned_rt_other (c : PalfConstants) (d : PalfDiskHangDetector) (inp : TickInput)
    (i : Int) (hi : i ≠ size_to_learn_idx_ c (this_avg_size d inp)) :
    learned_rt c d inp i = d.learn_avg_rt_ i := by
  unfold learned_rt
  split_ifs <;> simp [Function.update_noteq hi]

/-- C16: a call of `is_clog_disk_hang` that samples increases
`curr_detect_round_` by exactly one, sets `last_detect_time_` to `now`, and sets
the three `prev_accum_write_` members to the cumulative counters just read,
whatever the state and the flags of the tick; the deltas of the next call are
therefore taken from the counters of this one. -/
theorem sampled_call_advances (c : PalfConstants) (d : PalfDiskHangDetector)
    (inp next : TickInput) (hs : samples c d inp = true) :
    (is_clog_disk_hang c d inp).2.2.curr_detect_round_ = d.curr_detect_round_ + 1 ∧
    (is_clog_disk_hang c d inp).2.2.last_detect_time_ = inp.now ∧
    (is_clog_disk_hang c d inp).2.2.prev_accum_write_size_ = inp.accum_write_size ∧
    (is_clog_disk_hang c d inp).2.2.prev_accum_write_count_ = inp.accum_write_count ∧
    (is_clog_disk_hang c d inp).2.2.prev_accum_write_rt_ = inp.accum_write_rt ∧
    this_write_size (is_clog_disk_hang c d inp).2.2 next =
      next.accum_write_size - inp.accum_write_size ∧
    this_write_count (is_clog_disk_hang c d inp).2.2 next =
      next.accum_write_count - inp.accum_write_count ∧
    this_write_rt (is_clog_disk_hang c d inp).2.2 next =
      next.accum_write_rt - inp.accum_write_rt := by
  rw [is_clog_disk_hang_of_samples c d inp hs]
  exact ⟨rfl, rfl, rfl, rfl, rfl, rfl, rfl, rfl⟩

theorem sampled_call_advances_witness :
    (is_clog_disk_hang sample_constants (PalfDiskHangDetector.construct sample_constants)
      idle_input).2.2.curr_detect_round_ =
      (PalfDiskHangDetector.construct sample_constants).curr_detect_round_ + 1 ∧
    (is_clog_disk_hang sample_constants (PalfDiskHangDetector.construct sample_constants)
      idle_input).2.2.last_detect_time_ = idle_input.now ∧
    (is_clog_disk_hang sample_constants (PalfDiskHangDetector.construct sample_constants)
      idle_input).2.2.prev_accum_write_size_ = idle_input.accum_write_size ∧
    (is_clog_disk_hang sample_constants (PalfDiskHangDetector.construct sample_constants)
      idle_input).2.2.prev_accum_write_count_ = idle_input.accum_write_count ∧
    (is_clog_disk_hang sample_constants (PalfDiskHangDetector.construct sample_constants)
      idle_input).2.2.prev_accum_write_rt_ = idle_input.accum_write_rt ∧
    this_write_size (is_clog_disk_hang sample_constants
      (PalfDiskHangDetector.construct sample_constants) idle_input).2.2 long_pending_input =
      long_pending_input.accum_write_size - idle_input.accum_write_size ∧
    this_write_count (is_clog_disk_hang sample_constants
      (PalfDiskHangDetector.construct sample_constants) idle_input).2.2 long_pending_input =
      long_pending_input.accum_write_count - idle_input.accum_write_count ∧
    this_write_rt (is_clog_disk_hang sample_constants
      (PalfDiskHangDetector.construct sample_constants) idle_input).2.2 long_pending_input =
      long_pending_input.accum_write_rt - idle_input.accum_write_rt :=
  sampled_call_advances sample_constants (PalfDiskHangDetector.construct sample_constants)
    idle_input long_pending_input (by decide)

/-- C17: on a call that samples, when one of `is_perf_decrease_warn`,
`is_perf_decrease_error`, `has_small_pending_io`, `has_long_pending_io` and
`has_failure` is true, the arrays `learn_avg_bw_` and `learn_avg_rt_` are
unchanged; and in every case no slot other than
`size_to_learn_idx_(this_avg_size)` changes. -/
theorem learning_guard (c : PalfConstants) (d : PalfDiskHangDetector) (inp : TickInput)
    (hs : samples c d inp = true) :
    ((is_perf_decrease_warn c d inp = true ∨ is_perf_decrease_error c d inp = true ∨
        has_small_pending_io c d inp = true ∨ has_long_pending_io c inp = true ∨
        has_failure c d = true) →
      (is_clog_disk_hang c d inp).2.2.learn_avg_bw_ = d.learn_avg_bw_ ∧
      (is_clog_disk_hang c d inp).2.2.learn_avg_rt_ = d.learn_avg_rt_) ∧
    (∀ i : Int, i ≠ size_to_learn_idx_ c (this_avg_size d inp) →
      (is_clog_disk_hang c d inp).2.2.learn_avg_bw_ i = d.learn_avg_bw_ i ∧
      (is_clog_disk_hang c d inp).2.2.learn_avg_rt_ i = d.learn_avg_rt_ i) := by
  rw [is_clog_disk_hang_of_samples c d inp hs]
  constructor
  · intro h
    have hl := (learns_eq_false_iff c d inp).mpr h
    exact ⟨learned_bw_of_not_learns c d inp hl, learned_rt_of_not_learns c d inp hl⟩
  · intro i hi
    exact ⟨learned_bw_other c d inp i hi, learned_rt_other c d inp i hi⟩

theorem learning_guard_witness :
    (is_clog_disk_hang sample_constants (PalfDiskHangDetector.construct sample_constants)
        long_pending_input).2.2.learn_avg_bw_ =
      (PalfDiskHangDetector.construct sample_constants).learn_avg_bw_ ∧
    (is_clog_disk_hang sample_constants (PalfDiskHangDetector.construct sample_constants)
        long_pending_input).2.2.learn_avg_rt_ =
      (PalfDiskHangDetector.construct sample_constants).learn_avg_rt_ :=
  (learning_guard sample_constants (PalfDiskHangDetector.construct sample_constants)
    long_pending_input (by decide)).1 (Or.inr (Or.inr (Or.inr (Or.inl (by decide)))))

/-! ## Ticks on a table without a learned bandwidth -/

theorem perf_decrease_scan_no_positive (d : PalfDiskHangDetector)
    (warn_ratio error_ratio avg_rt avg_bw : ℚ) (h : ∀ i : Int, d.learn_avg_bw_ i ≤ 0) :
    ∀ n : Nat,
      perf_decrease_scan d warn_ratio error_ratio avg_rt avg_bw n (false, false) =
        (false, false) := by
  intro n
  induction n with
  | zero => rfl
  | succ m ih =>
    have hm : ¬ d.learn_avg_bw_ (m : Int) > 0 := not_lt.mpr (h m)
    unfold perf_decrease_scan
    simp only [hm, false_and, and_false, if_false, Bool.false_eq_true]
    exact ih

theorem perf_decrease_no_positive (c : PalfConstants) (d : PalfDiskHangDetector)
    (inp : TickInput) (h : ∀ i : Int, d.learn_avg_bw_ i ≤ 0) :
    perf_decrease c d inp = (false, false) := by
  unfold perf_decrease
  split
  · exact perf_decrease_scan_no_positive d _ _ _ _ h _
  · rfl

theorem small_pending_scan_no_positive (d : PalfDiskHangDetector) (error_ratio total_bw : ℚ)
    (h : ∀ i : Int, d.learn_avg_bw_ i ≤ 0) :
    ∀ n : Nat, small_pending_scan d error_ratio total_bw n = false := by
  intro n
  induction n with
  | zero => rfl
  | succ m ih =>
    have hm : ¬ d.learn_avg_bw_ (m : Int) > 0 := not_lt.mpr (h m)
    unfold small_pending_scan
    simp only [hm, false_and, if_false]
    exact ih

theorem has_small_pending_io_no_positive (c : PalfConstants) (d : PalfDiskHangDetector)
    (inp : TickInput) (h : ∀ i : Int, d.learn_avg_bw_ i ≤ 0) :
    has_small_pending_io c d inp = false := by
  unfold has_small_pending_io
  split
  · exact small_pending_scan_no_positive d _ _ h _
  · rfl

theorem construct_no_positive (c : PalfConstants) :
    ∀ i : Int, (PalfDiskHangDetector.construct c).learn_avg_bw_ i ≤ 0 := by
  intro i
  simp [PalfDiskHangDetector.construct]

theorem has_failure_construct (c : PalfConstants) :
    has_failure c (PalfDiskHangDetector.construct c) = false := by
  simp [has_failure, PalfDiskHangDetector.construct]

theorem tick_result_of_long (c : PalfConstants) (d : PalfDiskHangDetector) (inp : TickInput)
    (h : has_long_pending_io c inp = true) : tick_result c d inp = true := by
  unfold tick_result
  split_ifs <;> simp_all

theorem tick_result_construct (c : PalfConstants) (inp : TickInput) :
    tick_result c (PalfDiskHangDetector.construct c) inp = has_long_pending_io c inp := by
  have he : is_perf_decrease_error c (PalfDiskHangDetector.construct c) inp = false := by
    simp [is_perf_decrease_error, perf_decrease_no_positive c _ inp (construct_no_positive c)]
  have hp := has_small_pending_io_no_positive c _ inp (construct_no_positive c)
  unfold tick_result
  rw [has_failure_construct, he, hp]
  cases has_long_pending_io c inp <;> simp

theorem has_long_pending_io_iff (c : PalfConstants) (inp : TickInput) :
    has_long_pending_io c inp = true ↔
      (inp.last_working_time ≠ c.OB_INVALID_TIMESTAMP ∧
        inp.now - inp.last_working_time > inp.tolerance_time) := by
  unfold has_long_pending_io
  rw [decide_eq_true_iff]
  constructor
  · rintro ⟨a, b⟩
    exact ⟨Ne.symm a, b⟩
  · rintro ⟨a, b⟩
    exact ⟨Ne.symm a, b⟩

/-- C19: on a freshly constructed detector, whatever the statistics, the clock,
the tolerance and the sensitivity, the first call of `is_clog_disk_hang` that
samples returns true exactly when `has_long_pending_io` holds, that is when
`last_working_time` is set and lies more than `tolerance_time` before `now`. -/
theorem first_sample_raises_iff_long_pending (c : PalfConstants) (inp : TickInput)
    (hs : samples c (PalfDiskHangDetector.construct c) inp = true) :
    (is_clog_disk_hang c (PalfDiskHangDetector.construct c) inp).1 =
      has_long_pending_io c inp ∧
    ((is_clog_disk_hang c (PalfDiskHangDetector.construct c) inp).1 = true ↔
      (inp.last_working_time ≠ c.OB_INVALID_TIMESTAMP ∧
        inp.now - inp.last_working_time > inp.tolerance_time)) := by
  have h : (is_clog_disk_hang c (PalfDiskHangDetector.construct c) inp).1 =
      has_long_pending_io c inp := by
    rw [is_clog_disk_hang_of_samples c _ inp hs]
    exact tick_result_construct c inp
  exact ⟨h, by rw [h]; exact has_long_pending_io_iff c inp⟩

theorem first_sample_raises_iff_long_pending_witness :
    (is_clog_disk_hang sample_constants (PalfDiskHangDetector.construct sample_constants)
        long_pending_input).1 = has_long_pending_io sample_constants long_pending_input ∧
    ((is_clog_disk_hang sample_constants (PalfDiskHangDetector.construct sample_constants)
        long_pending_input).1 = true ↔
      (long_pending_input.last_working_time ≠ sample_constants.OB_INVALID_TIMESTAMP ∧
        long_pending_input.now - long_pending_input.last_working_time >
          long_pending_input.tolerance_time)) :=
  first_sample_raises_iff_long_pending sample_constants long_pending_input (by decide)

/-- C20: in every state of the detector, failing or not, with any learned
table, any history of error flags and any sensitivity, a call that samples
while `last_working_time` is set and lies more than `tolerance_time` before
`now` returns true. -/
theorem long_pending_raises (c : PalfConstants) (d : PalfDiskHangDetector) (inp : TickInput)
    (hs : samples c d inp = true)
    (hset : inp.last_working_time ≠ c.OB_INVALID_TIMESTAMP)
    (hlong : inp.now - inp.last_working_time > inp.tolerance_time) :
    (is_clog_disk_hang c d inp).1 = true := by
  rw [is_clog_disk_hang_of_samples c d inp hs]
  exact tick_result_of_long c d inp ((has_long_pending_io_iff c inp).mpr ⟨hset, hlong⟩)

theorem long_pending_raises_witness :
    (is_clog_disk_hang sample_constants sampled_once
      { long_pending_input with now := 6000000 }).1 = true :=
  long_pending_raises sample_constants sampled_once { long_pending_input with now := 6000000 }
    (by decide) (by decide) (by decide)

/-! ## The slot learned by a healthy tick -/

theorem this_avg_bw_nonneg (d : PalfDiskHangDetector) (inp : TickInput)
    (h : 0 ≤ this_write_size d inp) : 0 ≤ this_avg_bw d inp := by
  unfold this_avg_bw
  split
  · exact le_refl 0
  · rename_i hrt
    have h1 : (0 : ℚ) ≤ (this_write_size d inp : ℚ) := by exact_mod_cast h
    have h2 : (0 : ℚ) < (this_write_rt d inp : ℚ) := by exact_mod_cast not_le.mp hrt
    positivity

theorem this_avg_rt_nonneg (d : PalfDiskHangDetector) (inp : TickInput)
    (h : 0 ≤ this_write_rt d inp) : 0 ≤ this_avg_rt d inp := by
  unfold this_avg_rt
  split
  · exact le_refl 0
  · rename_i hc
    have h1 : (0 : ℚ) ≤ (this_write_rt d inp : ℚ) := by exact_mod_cast h
    have h2 : (0 : ℚ) < (this_write_count d inp : ℚ) := by exact_mod_cast not_le.mp hc
    positivity

/-! ## Rounding of `double` operations -/

theorem ilog2_spec : ∀ (fuel n : Nat), n ≤ fuel → n ≠ 0 →
    2 ^ ilog2 fuel n ≤ n ∧ n < 2 ^ (ilog2 fuel n + 1) := by
  intro fuel
  induction fuel with
  | zero =>
    intro n h hn
    omega
  | succ f ih =>
    intro n h hn
    unfold ilog2
    by_cases h2 : n < 2
    · rw [if_pos h2]
      constructor
      · simp
        omega
      · simpa using h2
    · rw [if_neg h2]
      obtain ⟨a, b⟩ := ih (n / 2) (by omega) (by omega)
      constructor
      · rw [pow_succ]
        omega
      · rw [pow_succ]
        omega

theorem abs_eq_natAbs_div_den (x : ℚ) : |x| = (x.num.natAbs : ℚ) / (x.den : ℚ) := by
  have h : x = (x.num : ℚ) / (x.den : ℚ) := (Rat.num_div_den x).symm
  have hd : (0 : ℚ) < (x.den : ℚ) := by exact_mod_cast x.den_pos
  conv_lhs => rw [h]
  rw [abs_div, abs_of_pos hd]
  congr 1
  rw [Nat.cast_natAbs, Int.cast_abs]

theorem binary_exponent_spec (x : ℚ) (hx : x ≠ 0) :
    (2 : ℚ) ^ binary_exponent x ≤ |x| ∧ |x| < (2 : ℚ) ^ (binary_exponent x + 1) := by
  have hp0 : x.num.natAbs ≠ 0 := by
    simpa using hx
  have hq0 : x.den ≠ 0 := x.den_nz
  obtain ⟨hp1, hp2⟩ := ilog2_spec x.num.natAbs x.num.natAbs (le_refl _) hp0
  obtain ⟨hq1, hq2⟩ := ilog2_spec x.den x.den (le_refl _) hq0
  have habs := abs_eq_natAbs_div_den x
  have hqpos : (0 : ℚ) < (x.den : ℚ) := by exact_mod_cast x.den_pos
  have hp1q : ((2 : ℚ) ^ ilog2 x.num.natAbs x.num.natAbs) ≤ (x.num.natAbs : ℚ) := by
    exact_mod_cast hp1
  have hp2q : (x.num.natAbs : ℚ) < (2 : ℚ) ^ (ilog2 x.num.natAbs x.num.natAbs + 1) := by
    exact_mod_cast hp2
  have hq1q : ((2 : ℚ) ^ ilog2 x.den x.den) ≤ (x.den : ℚ) := by
    exact_mod_cast hq1
  have hq2q : (x.den : ℚ) < (2 : ℚ) ^ (ilog2 x.den x.den + 1) := by
    exact_mod_cast hq2
  have h2 : (0 : ℚ) < 2 := by norm_num
  have h2ne : (2 : ℚ) ≠ 0 := by norm_num
  unfold binary_exponent
  split
  · rename_i hle
    refine ⟨hle, ?_⟩
    rw [habs, div_lt_iff₀ hqpos]
    have e : (2 : ℚ) ^ ((ilog2 x.num.natAbs x.num.natAbs : Int) - (ilog2 x.den x.den : Int) + 1) =
        (2 : ℚ) ^ (ilog2 x.num.natAbs x.num.natAbs + 1) / (2 : ℚ) ^ ilog2 x.den x.den := by
      rw [eq_div_iff (by positivity), ← zpow_natCast, ← zpow_natCast, ← zpow_add₀ h2ne]
      congr 1
      push_cast
      ring
    rw [e, div_mul_eq_mul_div, lt_div_iff₀ (by positivity)]
    calc (x.num.natAbs : ℚ) * (2 : ℚ) ^ ilog2 x.den x.den
        ≤ (x.num.natAbs : ℚ) * (x.den : ℚ) := by
          apply mul_le_mul_of_nonneg_left hq1q
          positivity
      _ < (2 : ℚ) ^ (ilog2 x.num.natAbs x.num.natAbs + 1) * (x.den : ℚ) := by
          apply mul_lt_mul_of_pos_right hp2q hqpos
  · rename_i hnle
    have hlt := not_le.mp hnle
    refine ⟨?_, ?_⟩
    · rw [habs, le_div_iff₀ hqpos]
      have e : (2 : ℚ) ^ ((ilog2 x.num.natAbs x.num.natAbs : Int) - (ilog2 x.den x.den : Int) - 1) =
          (2 : ℚ) ^ ilog2 x.num.natAbs x.num.natAbs / (2 : ℚ) ^ (ilog2 x.den x.den + 1) := by
        rw [eq_div_iff (by positivity), ← zpow_natCast, ← zpow_natCast, ← zpow_add₀ h2ne]
        congr 1
        push_cast
        ring
      rw [e, div_mul_eq_mul_div, div_le_iff₀ (by positivity)]
      calc (2 : ℚ) ^ ilog2 x.num.natAbs x.num.natAbs * (x.den : ℚ)
          ≤ (x.num.natAbs : ℚ) * (x.den : ℚ) := by
            apply mul_le_mul_of_nonneg_right hp1q (le_of_lt hqpos)
        _ ≤ (x.num.natAbs : ℚ) * (2 : ℚ) ^ (ilog2 x.den x.den + 1) := by
            apply mul_le_mul_of_nonneg_left (le_of_lt hq2q)
            positivity
    · have : (ilog2 x.num.natAbs x.num.natAbs : Int) - (ilog2 x.den x.den : Int) - 1 + 1 =
          (ilog2 x.num.natAbs x.num.natAbs : Int) - (ilog2 x.den x.den : Int) := by ring
      rw [this]
      exact hlt

theorem round_half_even_error (x : ℚ) : |((round_half_even x : Int) : ℚ) - x| ≤ 1 / 2 := by
  have h1 := Int.floor_le x
  have h2 := Int.lt_floor_add_one x
  unfold round_half_even
  rw [abs_le]
  split_ifs with a b c
  · constructor <;> linarith
  · push_cast
    constructor <;> linarith
  · constructor <;> linarith
  · push_cast
    constructor <;> linarith

theorem round_half_even_nonneg (x : ℚ) (h : 0 ≤ x) : 0 ≤ round_half_even x := by
  have hf : 0 ≤ ⌊x⌋ := Int.floor_nonneg.mpr h
  unfold round_half_even
  split_ifs <;> omega

theorem round_to_double_nonneg (x : ℚ) (h : 0 ≤ x) : 0 ≤ round_to_double x := by
  unfold round_to_double
  split
  · exact le_refl 0
  · have hs : (0 : ℚ) < (2 : ℚ) ^ (binary_exponent x - 52) := by positivity
    have hr := round_half_even_nonneg (x / (2 : ℚ) ^ (binary_exponent x - 52)) (by positivity)
    have hrq : (0 : ℚ) ≤ ((round_half_even (x / (2 : ℚ) ^ (binary_exponent x - 52)) : Int) : ℚ) := by
      exact_mod_cast hr
    positivity

theorem round_to_double_error (x : ℚ) :
    |round_to_double x - x| ≤ |x| / 2 ^ 53 := by
  unfold round_to_double
  split
  · rename_i h0
    rw [h0]
    simp
  · rename_i hx
    have hs : (0 : ℚ) < (2 : ℚ) ^ (binary_exponent x - 52) := by positivity
    have he := round_half_even_error (x / (2 : ℚ) ^ (binary_exponent x - 52))
    have hb := (binary_exponent_spec x hx).1
    have e1 : ((round_half_even (x / (2 : ℚ) ^ (binary_exponent x - 52)) : Int) : ℚ) *
        (2 : ℚ) ^ (binary_exponent x - 52) - x =
        (((round_half_even (x / (2 : ℚ) ^ (binary_exponent x - 52)) : Int) : ℚ) -
          x / (2 : ℚ) ^ (binary_exponent x - 52)) * (2 : ℚ) ^ (binary_exponent x - 52) := by
      field_simp
    rw [e1, abs_mul, abs_of_pos hs]
    have e2 : (2 : ℚ) ^ (binary_exponent x - 52) = (2 : ℚ) ^ binary_exponent x / 2 ^ 52 := by
      rw [zpow_sub₀ (by norm_num : (2 : ℚ) ≠ 0)]
      norm_num
    calc |((round_half_even (x / (2 : ℚ) ^ (binary_exponent x - 52)) : Int) : ℚ) -
          x / (2 : ℚ) ^ (binary_exponent x - 52)| * (2 : ℚ) ^ (binary_exponent x - 52)
        ≤ 1 / 2 * (2 : ℚ) ^ (binary_exponent x - 52) :=
          mul_le_mul_of_nonneg_right he (le_of_lt hs)
      _ = (2 : ℚ) ^ binary_exponent x / 2 ^ 53 := by
          rw [e2]
          ring
      _ ≤ |x| / 2 ^ 53 := by
          apply div_le_div_of_nonneg_right hb
          positivity

theorem round_to_double_bounds (x : ℚ) (h : 0 ≤ x) :
    (1 - 1 / 2 ^ 53) * x ≤ round_to_double x ∧ round_to_double x ≤ (1 + 1 / 2 ^ 53) * x := by
  have he := round_to_double_error x
  rw [abs_of_nonneg h, abs_le] at he
  constructor <;> linarith [he.1, he.2]

theorem learn_update_nonneg (sample old : ℚ) (hs : 0 ≤ sample) (ho : 0 ≤ old) :
    0 ≤ learn_update sample old := by
  unfold learn_update
  have h1 : 0 ≤ round_to_double (9 * old) := round_to_double_nonneg _ (by positivity)
  have h2 : 0 ≤ round_to_double (sample + round_to_double (9 * old)) :=
    round_to_double_nonneg _ (by positivity)
  exact round_to_double_nonneg _ (by positivity)

/-- The rounded update is within three roundings of the exact weighted
mean. -/
theorem learn_update_bounds (sample old : ℚ) (hs : 0 ≤ sample) (ho : 0 ≤ old) :
    (1 - 1 / 2 ^ 53) ^ 3 * ((1 / 10) * sample + (9 / 10) * old) ≤ learn_update sample old ∧
    learn_update sample old ≤ (1 + 1 / 2 ^ 53) ^ 3 * ((1 / 10) * sample + (9 / 10) * old) := by
  have hu0 : (0 : ℚ) ≤ 1 - 1 / 2 ^ 53 := by norm_num
  have hu1 : (1 : ℚ) - 1 / 2 ^ 53 ≤ 1 := by norm_num
  have hv1 : (1 : ℚ) ≤ 1 + 1 / 2 ^ 53 := by norm_num
  have hv0 : (0 : ℚ) ≤ 1 + 1 / 2 ^ 53 := by norm_num
  have h9 : (0 : ℚ) ≤ 9 * old := by positivity
  obtain ⟨a1, a2⟩ := round_to_double_bounds (9 * old) h9
  have ha0 : 0 ≤ round_to_double (9 * old) := round_to_double_nonneg _ h9
  have hsum : 0 ≤ sample + round_to_double (9 * old) := by positivity
  obtain ⟨b1, b2⟩ := round_to_double_bounds _ hsum
  have hb0 : 0 ≤ round_to_double (sample + round_to_double (9 * old)) :=
    round_to_double_nonneg _ hsum
  obtain ⟨c1, c2⟩ := round_to_double_bounds
    (round_to_double (sample + round_to_double (9 * old)) / 10) (by positivity)
  have hlow : (1 - 1 / 2 ^ 53) * (sample + 9 * old) ≤ sample + round_to_double (9 * old) := by
    have : (1 - 1 / 2 ^ 53) * sample ≤ sample := by
      calc (1 - 1 / 2 ^ 53) * sample ≤ 1 * sample := mul_le_mul_of_nonneg_right hu1 hs
        _ = sample := one_mul _
    linarith
  have hhigh : sample + round_to_double (9 * old) ≤ (1 + 1 / 2 ^ 53) * (sample + 9 * old) := by
    have : sample ≤ (1 + 1 / 2 ^ 53) * sample := by
      calc sample = 1 * sample := (one_mul _).symm
        _ ≤ (1 + 1 / 2 ^ 53) * sample := mul_le_mul_of_nonneg_right hv1 hs
    linarith
  have hlow2 : (1 - 1 / 2 ^ 53) ^ 2 * (sample + 9 * old) ≤
      round_to_double (sample + round_to_double (9 * old)) := by
    calc (1 - 1 / 2 ^ 53) ^ 2 * (sample + 9 * old)
        = (1 - 1 / 2 ^ 53) * ((1 - 1 / 2 ^ 53) * (sample + 9 * old)) := by ring
      _ ≤ (1 - 1 / 2 ^ 53) * (sample + round_to_double (9 * old)) :=
          mul_le_mul_of_nonneg_left hlow hu0
      _ ≤ round_to_double (sample + round_to_double (9 * old)) := b1
  have hhigh2 : round_to_double (sample + round_to_double (9 * old)) ≤
      (1 + 1 / 2 ^ 53) ^ 2 * (sample + 9 * old) := by
    calc round_to_double (sample + round_to_double (9 * old))
        ≤ (1 + 1 / 2 ^ 53) * (sample + round_to_double (9 * old)) := b2
      _ ≤ (1 + 1 / 2 ^ 53) * ((1 + 1 / 2 ^ 53) * (sample + 9 * old)) :=
          mul_le_mul_of_nonneg_left hhigh hv0
      _ = (1 + 1 / 2 ^ 53) ^ 2 * (sample + 9 * old) := by ring
  unfold learn_update
  constructor
  · calc (1 - 1 / 2 ^ 53) ^ 3 * ((1 / 10) * sample + (9 / 10) * old)
        = (1 - 1 / 2 ^ 53) * ((1 - 1 / 2 ^ 53) ^ 2 * (sample + 9 * old) / 10) := by ring
      _ ≤ (1 - 1 / 2 ^ 53) *
          (round_to_double (sample + round_to_double (9 * old)) / 10) := by
          apply mul_le_mul_of_nonneg_left _ hu0
          linarith
      _ ≤ _ := c1
  · calc round_to_double (round_to_double (sample + round_to_double (9 * old)) / 10)
        ≤ (1 + 1 / 2 ^ 53) *
          (round_to_double (sample + round_to_double (9 * old)) / 10) := c2
      _ ≤ (1 + 1 / 2 ^ 53) * ((1 + 1 / 2 ^ 53) ^ 2 * (sample + 9 * old) / 10) := by
          apply mul_le_mul_of_nonneg_left _ hv0
          linarith
      _ = (1 + 1 / 2 ^ 53) ^ 3 * ((1 / 10) * sample + (9 / 10) * old) := by ring

theorem learn_update_100000 : learn_update 100000 100000 = 100000 := by
  decide!

theorem learn_update_10000 : learn_update 10000 10000 = 10000 := by
  decide!

theorem learned_bw_slot_nonneg (c : PalfConstants) (d : PalfDiskHangDetector) (inp : TickInput)
    (hl : learns c d inp = true) (h : 0 ≤ this_avg_bw d inp) :
    0 ≤ learned_bw c d inp (size_to_learn_idx_ c (this_avg_size d inp)) := by
  unfold learned_bw
  simp only [hl, if_true]
  split
  · rw [Function.update_same]
    exact h
  · rename_i hinit
    rw [Function.update_same]
    have hold : 0 < d.learn_avg_bw_ (size_to_learn_idx_ c (this_avg_size d inp)) := by
      by_contra hn
      exact hinit (Or.inl (not_lt.mp hn))
    exact learn_update_nonneg _ _ h (le_of_lt hold)

theorem learned_rt_slot_nonneg (c : PalfConstants) (d : PalfDiskHangDetector) (inp : TickInput)
    (hl : learns c d inp = true) (h : 0 ≤ this_avg_rt d inp) :
    0 ≤ learned_rt c d inp (size_to_learn_idx_ c (this_avg_size d inp)) := by
  unfold learned_rt
  simp only [hl, if_true]
  split
  · rw [Function.update_same]
    exact h
  · rename_i hinit
    rw [Function.update_same]
    have hold : 0 < d.learn_avg_rt_ (size_to_learn_idx_ c (this_avg_size d inp)) := by
      by_contra hn
      exact hinit (Or.inr (not_lt.mp hn))
    exact learn_update_nonneg _ _ h (le_of_lt hold)

theorem learns_of_flags (c : PalfConstants) (d : PalfDiskHangDetector) (inp : TickInput)
    (hw : is_perf_decrease_warn c d inp = false) (he : is_perf_decrease_error c d inp = false)
    (hp : has_small_pending_io c d inp = false) (hl : has_long_pending_io c inp = false)
    (hf : has_failure c d = false) : learns c d inp = true := by
  simp [learns, hw, he, hp, hl, hf]

theorem raised_by_long_pending_table :
    raised_by_long_pending.learn_avg_bw_ = (fun _ => -1) ∧
    raised_by_long_pending.learn_avg_rt_ = (fun _ => -1) := by
  have hl : learns sample_constants (PalfDiskHangDetector.construct sample_constants)
      long_pending_input = false :=
    (learns_eq_false_iff _ _ _).mpr (Or.inr (Or.inr (Or.inr (Or.inl (by decide)))))
  unfold raised_by_long_pending
  rw [is_clog_disk_hang_of_samples _ _ _ (by decide)]
  exact ⟨learned_bw_of_not_learns _ _ _ hl, learned_rt_of_not_learns _ _ _ hl⟩

theorem raised_by_long_pending_failing :
    has_failure sample_constants raised_by_long_pending = true := by
  have ht : tick_result sample_constants (PalfDiskHangDetector.construct sample_constants)
      long_pending_input = true := tick_result_of_long _ _ _ (by decide)
  have hf := has_failure_construct sample_constants
  have htime : raised_by_long_pending.last_detect_failure_time_ = 5000000 := by
    unfold raised_by_long_pending
    rw [is_clog_disk_hang_of_samples _ _ _ (by decide)]
    simp only [sampled_tick, ht, hf]
    decide
  unfold has_failure
  rw [htime]
  decide

/-- Counterexample to C18 as stated.  First, a failing detector: the fresh
detector raised by a long pending write is called again one second later with
nothing wrong; the call samples and all four anomaly signals are false, yet the
slot of `this_avg_size` still holds the sentinel in both arrays.  Second, a
cumulative size counter that went down by one byte: the call on a fresh
detector has all four signals false and writes the value minus one, which is
the sentinel, into `learn_avg_bw_` at the slot. -/
theorem learned_slot_counterexample :
    (samples sample_constants raised_by_long_pending later_idle_input = true ∧
      is_perf_decrease_warn sample_constants raised_by_long_pending later_idle_input = false ∧
      is_perf_decrease_error sample_constants raised_by_long_pending later_idle_input = false ∧
      has_small_pending_io sample_constants raised_by_long_pending later_idle_input = false ∧
      has_long_pending_io sample_constants later_idle_input = false ∧
      (is_clog_disk_hang sample_constants raised_by_long_pending
          later_idle_input).2.2.learn_avg_bw_
        (size_to_learn_idx_ sample_constants
          (this_avg_size raised_by_long_pending later_idle_input)) = -1 ∧
      (is_clog_disk_hang sample_constants raised_by_long_pending
          later_idle_input).2.2.learn_avg_rt_
        (size_to_learn_idx_ sample_constants
          (this_avg_size raised_by_long_pending later_idle_input)) = -1) ∧
    (samples sample_constants (PalfDiskHangDetector.construct sample_constants)
        shrinking_input = true ∧
      is_perf_decrease_warn sample_constants (PalfDiskHangDetector.construct sample_constants)
        shrinking_input = false ∧
      is_perf_decrease_error sample_constants (PalfDiskHangDetector.construct sample_constants)
        shrinking_input = false ∧
      has_small_pending_io sample_constants (PalfDiskHangDetector.construct sample_constants)
        shrinking_input = false ∧
      has_long_pending_io sample_constants shrinking_input = false ∧
      (is_clog_disk_hang sample_constants (PalfDiskHangDetector.construct sample_constants)
          shrinking_input).2.2.learn_avg_bw_
        (size_to_learn_idx_ sample_constants
          (this_avg_size (PalfDiskHangDetector.construct sample_constants)
            shrinking_input)) = -1) := by
  have hnp1 : ∀ i : Int, raised_by_long_pending.learn_avg_bw_ i ≤ 0 := by
    intro i
    rw [raised_by_long_pending_table.1]
    norm_num
  have hs1 : samples sample_constants raised_by_long_pending later_idle_input = true := by
    decide
  have hpd1 := perf_decrease_no_positive sample_constants _ later_idle_input hnp1
  have hl1 : learns sample_constants raised_by_long_pending later_idle_input = false :=
    (learns_eq_false_iff _ _ _).mpr
      (Or.inr (Or.inr (Or.inr (Or.inr raised_by_long_pending_failing))))
  have hnp2 := construct_no_positive sample_constants
  have hpd2 := perf_decrease_no_positive sample_constants _ shrinking_input hnp2
  have hsp2 := has_small_pending_io_no_positive sample_constants _ shrinking_input hnp2
  have hw2 : is_perf_decrease_warn sample_constants
      (PalfDiskHangDetector.construct sample_constants) shrinking_input = false := by
    simp [is_perf_decrease_warn, hpd2]
  have he2 : is_perf_decrease_error sample_constants
      (PalfDiskHangDetector.construct sample_constants) shrinking_input = false := by
    simp [is_perf_decrease_error, hpd2]
  have hl2 : learns sample_constants (PalfDiskHangDetector.construct sample_constants)
      shrinking_input = true :=
    learns_of_flags _ _ _ hw2 he2 hsp2 (by decide) (has_failure_construct _)
  refine ⟨⟨hs1, by simp [is_perf_decrease_warn, hpd1], by simp [is_perf_decrease_error, hpd1],
    has_small_pending_io_no_positive _ _ _ hnp1, by decide, ?_, ?_⟩,
    ⟨by decide, hw2, he2, hsp2, by decide, ?_⟩⟩
  · rw [is_clog_disk_hang_of_samples _ _ _ hs1]
    show learned_bw sample_constants raised_by_long_pending later_idle_input _ = -1
    rw [learned_bw_of_not_learns _ _ _ hl1, raised_by_long_pending_table.1]
  · rw [is_clog_disk_hang_of_samples _ _ _ hs1]
    show learned_rt sample_constants raised_by_long_pending later_idle_input _ = -1
    rw [learned_rt_of_not_learns _ _ _ hl1, raised_by_long_pending_table.2]
  · rw [is_clog_disk_hang_of_samples _ _ _ (by decide)]
    show learned_bw sample_constants (PalfDiskHangDetector.construct sample_constants)
      shrinking_input _ = -1
    unfold learned_bw
    simp only [hl2, if_true]
    rw [if_pos (Or.inl (hnp2 _)), Function.update_same]
    norm_num [this_avg_bw, this_write_rt, this_write_size, shrinking_input, idle_input,
      PalfDiskHangDetector.construct]

/-- C18, amended: after a call that samples on a detector that is not failing
(`has_failure` is false), on which all four anomaly signals are false and the
cumulative size and latency counters have not gone down since the previous
sample, the learned entry at slot `size_to_learn_idx_(this_avg_size)` is
initialized: neither `learn_avg_bw_` nor `learn_avg_rt_` holds the sentinel
minus one there (both hold a value that is not negative). -/
theorem learned_slot_initialized (c : PalfConstants) (d : PalfDiskHangDetector)
    (inp : TickInput) (hs : samples c d inp = true) (hf : has_failure c d = false)
    (hw : is_perf_decrease_warn c d inp = false) (he : is_perf_decrease_error c d inp = false)
    (hp : has_small_pending_io c d inp = false) (hl : has_long_pending_io c inp = false)
    (hsize : 0 ≤ this_write_size d inp) (hrt : 0 ≤ this_write_rt d inp) :
    (is_clog_disk_hang c d inp).2.2.learn_avg_bw_
        (size_to_learn_idx_ c (this_avg_size d inp)) ≠ -1 ∧
    (is_clog_disk_hang c d inp).2.2.learn_avg_rt_
        (size_to_learn_idx_ c (this_avg_size d inp)) ≠ -1 ∧
    0 ≤ (is_clog_disk_hang c d inp).2.2.learn_avg_bw_
        (size_to_learn_idx_ c (this_avg_size d inp)) ∧
    0 ≤ (is_clog_disk_hang c d inp).2.2.learn_avg_rt_
        (size_to_learn_idx_ c (this_avg_size d inp)) := by
  have hlearn := learns_of_flags c d inp hw he hp hl hf
  have hb := learned_bw_slot_nonneg c d inp hlearn (this_avg_bw_nonneg d inp hsize)
  have hr := learned_rt_slot_nonneg c d inp hlearn (this_avg_rt_nonneg d inp hrt)
  rw [is_clog_disk_hang_of_samples c d inp hs]
  refine ⟨?_, ?_, hb, hr⟩
  · intro h
    have h2 : learned_bw c d inp (size_to_learn_idx_ c (this_avg_size d inp)) = -1 := h
    rw [h2] at hb
    norm_num at hb
  · intro h
    have h2 : learned_rt c d inp (size_to_learn_idx_ c (this_avg_size d inp)) = -1 := h
    rw [h2] at hr
    norm_num at hr

theorem learned_slot_initialized_witness :
    (is_clog_disk_hang sample_constants (PalfDiskHangDetector.construct sample_constants)
        healthy_input).2.2.learn_avg_bw_
        (size_to_learn_idx_ sample_constants
          (this_avg_size (PalfDiskHangDetector.construct sample_constants) healthy_input))
      ≠ -1 ∧
    (is_clog_disk_hang sample_constants (PalfDiskHangDetector.construct sample_constants)
        healthy_input).2.2.learn_avg_rt_
        (size_to_learn_idx_ sample_constants
          (this_avg_size (PalfDiskHangDetector.construct sample_constants) healthy_input))
      ≠ -1 ∧
    0 ≤ (is_clog_disk_hang sample_constants (PalfDiskHangDetector.construct sample_constants)
        healthy_input).2.2.learn_avg_bw_
        (size_to_learn_idx_ sample_constants
          (this_avg_size (PalfDiskHangDetector.construct sample_constants) healthy_input)) ∧
    0 ≤ (is_clog_disk_hang sample_constants (PalfDiskHangDetector.construct sample_constants)
        healthy_input).2.2.learn_avg_rt_
        (size_to_learn_idx_ sample_constants
          (this_avg_size (PalfDiskHangDetector.construct sample_constants) healthy_input)) :=
  learned_slot_initialized sample_constants (PalfDiskHangDetector.construct sample_constants)
    healthy_input (by decide) (has_failure_construct sample_constants)
    (by simp [is_perf_decrease_warn,
      perf_decrease_no_positive sample_constants _ healthy_input
        (construct_no_positive sample_constants)])
    (by simp [is_perf_decrease_error,
      perf_decrease_no_positive sample_constants _ healthy_input
        (construct_no_positive sample_constants)])
    (has_small_pending_io_no_positive sample_constants _ healthy_input
      (construct_no_positive sample_constants))
    (by decide) (by decide) (by decide)

/-! ## The loop of `learn_idx_to_size_` ends within its fuel -/

theorem reduce_base_done :
    ∀ (fuel : Nat) (base : ℚ) (exp : Int), base ≤ 9 * ((fuel : ℚ) + 1) →
      (reduce_base fuel base exp).1 ≤ 9 := by
  intro fuel
  induction fuel with
  | zero =>
    intro base exp h
    simp only [reduce_base]
    norm_num at h
    exact h
  | succ m ih =>
    intro base exp h
    unfold reduce_base
    split
    · apply ih
      push_cast at h
      linarith
    · rename_i hle
      exact not_lt.mp hle

/-- For every index that is not negative, the loop of `learn_idx_to_size_` has
left by itself: the mantissa it returns is at most nine. -/
theorem learn_idx_loop_done (learn_idx : Int) (h : 0 ≤ learn_idx) :
    (reduce_base learn_idx.toNat (4 + (learn_idx : ℚ) * (1 / 10)) 3).1 ≤ 9 := by
  apply reduce_base_done
  have hcast : ((learn_idx.toNat : Int) : ℚ) = (learn_idx : ℚ) := by
    rw [Int.toNat_of_nonneg h]
  have h0 : (0 : ℚ) ≤ (learn_idx : ℚ) := by exact_mod_cast h
  have hn : ((learn_idx.toNat : Nat) : ℚ) = (learn_idx : ℚ) := by
    rw [← hcast]
    norm_cast
  rw [hn]
  linarith

/-! ## Raising and clearing -/

theorem tick_result_not_failing (c : PalfConstants) (d : PalfDiskHangDetector)
    (inp : TickInput) (hf : has_failure c d = false) :
    tick_result c d inp =
      (((has_small_pending_io c d inp || is_perf_decrease_error c d inp) &&
        has_continuous_error c d inp) || has_long_pending_io c inp) := by
  unfold tick_result
  rw [if_pos hf]
  split <;> simp_all

theorem tick_result_failing_false_iff (c : PalfConstants) (d : PalfDiskHangDetector)
    (inp : TickInput) (hf : has_failure c d = true) :
    tick_result c d inp = false ↔
      (has_small_pending_io c d inp = false ∧ has_long_pending_io c inp = false ∧
        (inp.sensitivity = 0 ∨
          (is_perf_decrease_error c d inp = false ∧ has_continuous_error c d inp = false) ∨
          inp.now - d.last_detect_failure_time_ > c.PALF_DISK_FAILURE_TIME_UPPER_BOUND)) := by
  unfold tick_result
  rw [if_neg (by simp [hf])]
  have key : (has_small_pending_io c d inp = false ∧ has_long_pending_io c inp = false ∧
      (0 = inp.sensitivity ∨
        (is_perf_decrease_error c d inp = false ∧ has_continuous_error c d inp = false) ∨
        inp.now - d.last_detect_failure_time_ > c.PALF_DISK_FAILURE_TIME_UPPER_BOUND)) ↔
      (has_small_pending_io c d inp = false ∧ has_long_pending_io c inp = false ∧
      (inp.sensitivity = 0 ∨
        (is_perf_decrease_error c d inp = false ∧ has_continuous_error c d inp = false) ∨
        inp.now - d.last_detect_failure_time_ > c.PALF_DISK_FAILURE_TIME_UPPER_BOUND)) := by
    constructor
    · rintro ⟨a, b, h⟩
      refine ⟨a, b, ?_⟩
      rcases h with h | h | h
      · exact Or.inl h.symm
      · exact Or.inr (Or.inl h)
      · exact Or.inr (Or.inr h)
    · rintro ⟨a, b, h⟩
      refine ⟨a, b, ?_⟩
      rcases h with h | h | h
      · exact Or.inl h.symm
      · exact Or.inr (Or.inl h)
      · exact Or.inr (Or.inr h)
  rw [← key]
  split
  · rename_i hc
    exact ⟨fun _ => hc, fun _ => rfl⟩
  · rename_i hc
    exact ⟨fun h => absurd h (by decide), fun h => absurd h hc⟩

theorem sampled_tick_result (c : PalfConstants) (d : PalfDiskHangDetector) (inp : TickInput) :
    (sampled_tick c d inp).1 = tick_result c d inp := rfl

theorem sampled_tick_failure_time (c : PalfConstants) (d : PalfDiskHangDetector)
    (inp : TickInput) :
    (sampled_tick c d inp).2.last_detect_failure_time_ =
      if tick_result c d inp = false then c.OB_INVALID_TIMESTAMP
      else if has_failure c d = false then inp.now else d.last_detect_failure_time_ := by
  unfold sampled_tick
  by_cases ht : tick_result c d inp = false
  · simp [ht]
  · have ht2 : tick_result c d inp = true := by simpa using ht
    by_cases hf : has_failure c d = false
    · simp [ht2, hf]
    · simp [ht2, hf]

/-- C21: on a call that samples from a state that is not failing,
`is_clog_disk_hang` returns true exactly when
`((has_small_pending_io || is_perf_decrease_error) && has_continuous_error) ||
has_long_pending_io`; when it returns true `last_detect_failure_time_` becomes
`now`, and when it returns false `last_detect_failure_time_` is
`OB_INVALID_TIMESTAMP` afterwards, as before. -/
theorem raise_condition (c : PalfConstants) (d : PalfDiskHangDetector) (inp : TickInput)
    (hs : samples c d inp = true) (hnf : has_failure c d = false) :
    ((is_clog_disk_hang c d inp).1 = true ↔
      ((has_small_pending_io c d inp = true ∨ is_perf_decrease_error c d inp = true) ∧
          has_continuous_error c d inp = true) ∨
        has_long_pending_io c inp = true) ∧
    ((is_clog_disk_hang c d inp).1 = true →
      (is_clog_disk_hang c d inp).2.2.last_detect_failure_time_ = inp.now) ∧
    ((is_clog_disk_hang c d inp).1 = false →
      (is_clog_disk_hang c d inp).2.2.last_detect_failure_time_ = c.OB_INVALID_TIMESTAMP ∧
      d.last_detect_failure_time_ = c.OB_INVALID_TIMESTAMP) := by
  rw [is_clog_disk_hang_of_samples c d inp hs]
  simp only [sampled_tick_result, sampled_tick_failure_time]
  refine ⟨?_, ?_, ?_⟩
  · rw [tick_result_not_failing c d inp hnf]
    simp only [Bool.or_eq_true, Bool.and_eq_true]
  · intro ht
    simp [ht, hnf]
  · intro ht
    refine ⟨by simp [ht], ?_⟩
    have h := hnf
    unfold has_failure at h
    exact (not_not.mp (of_decide_eq_false h)).symm

theorem raise_condition_witness :
    ((is_clog_disk_hang sample_constants (PalfDiskHangDetector.construct sample_constants)
        long_pending_input).1 = true ↔
      ((has_small_pending_io sample_constants
            (PalfDiskHangDetector.construct sample_constants) long_pending_input = true ∨
          is_perf_decrease_error sample_constants
            (PalfDiskHangDetector.construct sample_constants) long_pending_input = true) ∧
          has_continuous_error sample_constants
            (PalfDiskHangDetector.construct sample_constants) long_pending_input = true) ∨
        has_long_pending_io sample_constants long_pending_input = true) ∧
    ((is_clog_disk_hang sample_constants (PalfDiskHangDetector.construct sample_constants)
        long_pending_input).1 = true →
      (is_clog_disk_hang sample_constants (PalfDiskHangDetector.construct sample_constants)
        long_pending_input).2.2.last_detect_failure_time_ = long_pending_input.now) ∧
    ((is_clog_disk_hang sample_constants (PalfDiskHangDetector.construct sample_constants)
        long_pending_input).1 = false →
      (is_clog_disk_hang sample_constants (PalfDiskHangDetector.construct sample_constants)
        long_pending_input).2.2.last_detect_failure_time_ =
          sample_constants.OB_INVALID_TIMESTAMP ∧
      (PalfDiskHangDetector.construct sample_constants).last_detect_failure_time_ =
        sample_constants.OB_INVALID_TIMESTAMP) :=
  raise_condition sample_constants (PalfDiskHangDetector.construct sample_constants)
    long_pending_input (by decide) (has_failure_construct sample_constants)

/-- C22: on a call that samples from a failing state, `is_clog_disk_hang`
returns false exactly when `has_small_pending_io` and `has_long_pending_io` are
false and one of these holds: `sensitivity` is zero, or
`is_perf_decrease_error` and `has_continuous_error` are both false, or
`now - last_detect_failure_time_` is above
`PALF_DISK_FAILURE_TIME_UPPER_BOUND`.  When it returns false
`last_detect_failure_time_` is reset to `OB_INVALID_TIMESTAMP`; otherwise it
returns true and `last_detect_failure_time_` keeps its value, the time of the
raise. -/
theorem clear_condition (c : PalfConstants) (d : PalfDiskHangDetector) (inp : TickInput)
    (hs : samples c d inp = true) (hf : has_failure c d = true) :
    ((is_clog_disk_hang c d inp).1 = false ↔
      (has_small_pending_io c d inp = false ∧ has_long_pending_io c inp = false ∧
        (inp.sensitivity = 0 ∨
          (is_perf_decrease_error c d inp = false ∧ has_continuous_error c d inp = false) ∨
          inp.now - d.last_detect_failure_time_ > c.PALF_DISK_FAILURE_TIME_UPPER_BOUND))) ∧
    ((is_clog_disk_hang c d inp).1 = false →
      (is_clog_disk_hang c d inp).2.2.last_detect_failure_time_ = c.OB_INVALID_TIMESTAMP) ∧
    ((is_clog_disk_hang c d inp).1 = true →
      (is_clog_disk_hang c d inp).2.2.last_detect_failure_time_ =
        d.last_detect_failure_time_) := by
  rw [is_clog_disk_hang_of_samples c d inp hs]
  simp only [sampled_tick_result, sampled_tick_failure_time]
  refine ⟨tick_result_failing_false_iff c d inp hf, ?_, ?_⟩
  · intro ht
    simp [ht]
  · intro ht
    simp [ht, hf]

theorem clear_condition_witness :
    ((is_clog_disk_hang sample_constants raised_by_long_pending later_idle_input).1 = false ↔
      (has_small_pending_io sample_constants raised_by_long_pending later_idle_input = false ∧
        has_long_pending_io sample_constants later_idle_input = false ∧
        (later_idle_input.sensitivity = 0 ∨
          (is_perf_decrease_error sample_constants raised_by_long_pending
              later_idle_input = false ∧
            has_continuous_error sample_constants raised_by_long_pending
              later_idle_input = false) ∨
          later_idle_input.now - raised_by_long_pending.last_detect_failure_time_ >
            sample_constants.PALF_DISK_FAILURE_TIME_UPPER_BOUND))) ∧
    ((is_clog_disk_hang sample_constants raised_by_long_pending later_idle_input).1 = false →
      (is_clog_disk_hang sample_constants raised_by_long_pending
        later_idle_input).2.2.last_detect_failure_time_ =
          sample_constants.OB_INVALID_TIMESTAMP) ∧
    ((is_clog_disk_hang sample_constants raised_by_long_pending later_idle_input).1 = true →
      (is_clog_disk_hang sample_constants raised_by_long_pending
        later_idle_input).2.2.last_detect_failure_time_ =
          raised_by_long_pending.last_detect_failure_time_) :=
  clear_condition sample_constants raised_by_long_pending later_idle_input (by decide)
    raised_by_long_pending_failing

/-! ## Steps of the detection loop -/

theorem edge_step_no_edge (F : Family) (fault : Bool) (ev : FailureEvent)
    (d : ObFailureDetector) (h : F.latch d = fault) : edge_step F fault ev d = d := by
  unfold edge_step
  cases fault <;> simp [h]

theorem detect_step_eq (F : Family) (d : ObFailureDetector) (p : Probes) :
    detect_step F d p =
      if F.probe_failed p = true then d else edge_step F (F.fault p) (F.event p) d := by
  cases F
  · simp [detect_step, Family.probe_failed, Family.fault, Family.event,
      detect_palf_hang_failure_eq]
  · simp only [detect_step, Family.probe_failed, Family.fault, Family.event,
      detect_data_disk_io_failure_eq]
  · simp only [detect_step, Family.probe_failed, Family.fault, Family.event,
      detect_palf_disk_full_eq]
  · simp [detect_step, Family.probe_failed, Family.fault, Family.event,
      detect_schema_not_refreshed_eq]
  · simp only [detect_step, Family.probe_failed, Family.fault, Family.event,
      detect_election_silent_eq, Bool.or_eq_true]
    by_cases h1 : p.log_service_is_null = true
    · simp [h1]
    · by_cases h2 : p.palf_env_is_null = true
      · simp [h1, h2]
      · simp [h1, h2]

/-- C28: for each fault family, a detection step whose probe says what the latch
of the family already says (no fault and latch false, or fault and latch true)
hands back the detector exactly as it was: the active list, the audit history
and every latch are unchanged. -/
theorem detection_step_without_edge (d : ObFailureDetector) (p : Probes) :
    (d.has_add_clog_hang_event_ = p.is_clog_disk_hang → detect_palf_hang_failure_ d p = d) ∧
    (d.has_add_data_disk_hang_event_ =
        decide (p.data_disk_status ≠ ObDeviceHealthStatus.DEVICE_HEALTH_NORMAL) →
      detect_data_disk_io_failure_ d p = d) ∧
    (d.has_add_clog_full_event_ = (!p.is_disk_enough) → detect_palf_disk_full_ d p = d) ∧
    (d.has_schema_error_ = p.schema_not_refreshed → detect_schema_not_refreshed_ d p = d) ∧
    (d.has_election_silent_event_ = p.is_election_silent →
      detect_election_silent_ d p = d) := by
  refine ⟨?_, ?_, ?_, ?_, ?_⟩
  · intro h
    rw [detect_palf_hang_failure_eq]
    exact edge_step_no_edge _ _ _ d h
  · intro h
    rw [detect_data_disk_io_failure_eq]
    split
    · rfl
    · exact edge_step_no_edge _ _ _ d h
  · intro h
    rw [detect_palf_disk_full_eq]
    split
    · rfl
    · exact edge_step_no_edge _ _ _ d h
  · intro h
    rw [detect_schema_not_refreshed_eq]
    exact edge_step_no_edge _ _ _ d h
  · intro h
    rw [detect_election_silent_eq]
    split_ifs
    · rfl
    · rfl
    · rfl
    · exact edge_step_no_edge _ _ _ d h

theorem detection_step_without_edge_witness :
    detect_palf_hang_failure_ three_entries healthy_probes = three_entries ∧
    detect_data_disk_io_failure_ three_entries healthy_probes = three_entries ∧
    detect_palf_disk_full_ clog_full_raised full_disk_probes = clog_full_raised ∧
    detect_schema_not_refreshed_ three_entries healthy_probes = three_entries ∧
    detect_election_silent_ three_entries healthy_probes = three_entries :=
  have h := detection_step_without_edge three_entries healthy_probes
  have h2 := detection_step_without_edge clog_full_raised full_disk_probes
  ⟨h.1 (by decide), h.2.1 (by decide), h2.2.2.1 (by decide), h.2.2.2.1 (by decide),
    h.2.2.2.2 (by decide)⟩

/-- C30: when `get_device_health_status` fails, `detect_data_disk_io_failure_`
hands back the detector exactly as it was, and when `check_disk_space_enough`
fails, so does `detect_palf_disk_full_`: neither the active list, nor the audit
history, nor any latch changes, whatever the latch and the out-parameters
are. -/
theorem probe_errors_are_swallowed (d : ObFailureDetector) (p : Probes) :
    (p.get_device_health_status_ret ≠ OB_SUCCESS → detect_data_disk_io_failure_ d p = d) ∧
    (p.check_disk_space_enough_ret ≠ OB_SUCCESS → detect_palf_disk_full_ d p = d) := by
  constructor
  · intro h
    rw [detect_data_disk_io_failure_eq, if_pos ((ob_fail_eq_true_iff _).mpr h)]
  · intro h
    rw [detect_palf_disk_full_eq, if_pos ((ob_fail_eq_true_iff _).mpr h)]

theorem probe_errors_are_swallowed_witness :
    detect_data_disk_io_failure_ clog_full_raised failing_probes = clog_full_raised ∧
    detect_palf_disk_full_ clog_full_raised failing_probes = clog_full_raised :=
  have h := probe_errors_are_swallowed clog_full_raised failing_probes
  ⟨h.1 (by decide), h.2 (by decide)⟩

theorem equal_congr_key (a b b2 : FailureEvent) (h : b.key = b2.key) :
    a.equal b = a.equal b2 := by
  have h1 : b.type_ = b2.type_ := congrArg Prod.fst h
  have h2 : b.module_ = b2.module_ := congrArg Prod.snd h
  simp [FailureEvent.equal, h1, h2]

theorem Family.event_key (F : Family) (p : Probes) : (F.event p).key = F.key := by
  cases F <;> rfl

theorem add_fresh_eq (d : ObFailureDetector) (E : FailureEvent) (op : ObFunction)
    (hrun : d.is_running_ = true) (hnew : E.key ∉ keys d.events_with_ops_) :
    add_failure_event_with_op d E op =
      (OB_SUCCESS,
        { d with
          events_with_ops_ := d.events_with_ops_ ++
            [{ event_ := E, recover_detect_operation_ := op }]
          server_event_history_ := d.server_event_history_ ++
            [ServerEvent.row E.info_ E.module_ E.type_ op.isSome] }) := by
  have heq := (find_idx_eq_length_iff_keys d.events_with_ops_ E).mpr hnew
  simp [add_failure_event_with_op, check_is_running_, hrun, heq, insert_event_to_table_,
    FailureEventWithRecoverOp.init, ObFunction.is_valid]

theorem remove_hit_eq (d : ObFailureDetector) (E : FailureEvent)
    (hrun : d.is_running_ = true) (hex : ∃ x ∈ d.events_with_ops_, x.event_.equal E = true) :
    ∃ pre stored post,
      d.events_with_ops_ = pre ++ stored :: post ∧
      (∀ x ∈ pre, x.event_.equal E = false) ∧
      stored.event_.equal E = true ∧
      remove_failure_event d E =
        (OB_SUCCESS,
          { d with
            events_with_ops_ := pre ++ post
            server_event_history_ := d.server_event_history_ ++
              [ServerEvent.row "REMOVE FAILURE" stored.event_.module_ stored.event_.type_
                stored.recover_detect_operation_.isSome] }) := by
  have hlt := (find_idx_lt_iff E d.events_with_ops_).mpr hex
  obtain ⟨pre, stored, post, hl, hlen, hpre, hst⟩ := find_idx_split E d.events_with_ops_ hlt
  refine ⟨pre, stored, post, hl, hpre, hst, ?_⟩
  have hget := get_of_split d.events_with_ops_ pre post stored _ hlt hl hlen
  have herase : d.events_with_ops_.eraseIdx (find_idx E d.events_with_ops_) = pre ++ post := by
    rw [← hlen, hl, eraseIdx_append_cons]
  simp only [remove_failure_event, check_is_running_, hrun, Bool.not_true, Bool.false_eq_true,
    if_false, hlt, dite_true, insert_event_to_table_, hget, herase, ObFunction.is_valid]

/-- C29: for each fault family, on a running detector whose latch agrees with
the registry and whose probe has answered.  Rising edge (latch false, no entry
equal to the event of the family, fault reported): the step appends the event
of the family without a recovery callable, emits the row of that event, and
sets the latch of the family.  Falling edge (latch true, an entry equal to the
event of the family, no fault reported): the step removes the first such
entry, emits the row "REMOVE FAILURE" of it, and clears the latch.  In
both cases every other entry and every other member, the latches of the other
families included, is as before.  The event built has the type, module and
level of the event of the family: PROCESS_HANG/LOG/FATAL for the clog hang,
PROCESS_HANG/STORAGE/FATAL for the data disk (whose fault is a device health
status other than normal), RESOURCE_NOT_ENOUGH/LOG/FATAL for the full clog
disk, SCHEMA_NOT_REFRESHED/SCHEMA/SERIOUS for the schema. -/
theorem detection_step_edges (F : Family) (d : ObFailureDetector) (p : Probes) :
    (d.is_running_ = true → F.probe_failed p = false → F.latch d = false → F.fault p = true →
      (∀ x ∈ d.events_with_ops_, x.event_.equal F.canonical_event = false) →
      detect_step F d p =
        F.set_latch true
          { d with
            events_with_ops_ := d.events_with_ops_ ++
              [{ event_ := F.event p, recover_detect_operation_ := none }]
            server_event_history_ := d.server_event_history_ ++
              [ServerEvent.row (F.event p).info_ (F.event p).module_ (F.event p).type_
                false] }) ∧
    (d.is_running_ = true → F.probe_failed p = false → F.latch d = true → F.fault p = false →
      (∃ x ∈ d.events_with_ops_, x.event_.equal F.canonical_event = true) →
      ∃ pre stored post,
        d.events_with_ops_ = pre ++ stored :: post ∧
        (∀ x ∈ pre, x.event_.equal F.canonical_event = false) ∧
        stored.event_.equal F.canonical_event = true ∧
        detect_step F d p =
          F.set_latch false
            { d with
              events_with_ops_ := pre ++ post
              server_event_history_ := d.server_event_history_ ++
                [ServerEvent.row "REMOVE FAILURE" stored.event_.module_ stored.event_.type_
                  stored.recover_detect_operation_.isSome] }) ∧
    ((F.event p).type_ = F.canonical_event.type_ ∧
      (F.event p).module_ = F.canonical_event.module_ ∧
      (F.event p).level_ = F.canonical_event.level_) ∧
    (((Family.event p Family.clog_hang).type_, (Family.event p Family.clog_hang).module_,
        (Family.event p Family.clog_hang).level_) =
        (FailureType.PROCESS_HANG, FailureModule.LOG, FailureLevel.FATAL) ∧
      ((Family.event p Family.data_disk_hang).type_,
        (Family.event p Family.data_disk_hang).module_,
        (Family.event p Family.data_disk_hang).level_) =
        (FailureType.PROCESS_HANG, FailureModule.STORAGE, FailureLevel.FATAL) ∧
      Family.fault p Family.data_disk_hang =
        decide (p.data_disk_status ≠ ObDeviceHealthStatus.DEVICE_HEALTH_NORMAL) ∧
      ((Family.event p Family.clog_full).type_, (Family.event p Family.clog_full).module_,
        (Family.event p Family.clog_full).level_) =
        (FailureType.RESOURCE_NOT_ENOUGH, FailureModule.LOG, FailureLevel.FATAL) ∧
      ((Family.event p Family.schema_error).type_,
        (Family.event p Family.schema_error).module_,
        (Family.event p Family.schema_error).level_) =
        (FailureType.SCHEMA_NOT_REFRESHED, FailureModule.SCHEMA, FailureLevel.SERIOUS)) := by
  have hkey : (F.event p).key = F.canonical_event.key := Family.event_key F p
  have heq : ∀ x : FailureEventWithRecoverOp,
      x.event_.equal (F.event p) = x.event_.equal F.canonical_event :=
    fun x => equal_congr_key x.event_ _ _ hkey
  refine ⟨?_, ?_, ?_, ⟨rfl, rfl, rfl, rfl, rfl⟩⟩
  · intro hrun hprobe hlatch hfault hnone
    have hnew : (F.event p).key ∉ keys d.events_with_ops_ := by
      rw [not_mem_keys_iff]
      intro x hx
      rw [heq x]
      exact hnone x hx
    rw [detect_step_eq, if_neg (by simp [hprobe])]
    unfold edge_step
    rw [if_pos hlatch]
    simp only [hfault, Bool.not_true, Bool.false_eq_true, if_false, add_failure_event_eq,
      add_fresh_eq d (F.event p) none hrun hnew, ob_fail_success]
    rfl
  · intro hrun hprobe hlatch hfault hsome
    have hex : ∃ x ∈ d.events_with_ops_, x.event_.equal (F.event p) = true := by
      obtain ⟨x, hx, hxe⟩ := hsome
      exact ⟨x, hx, by rw [heq x]; exact hxe⟩
    obtain ⟨pre, stored, post, hl, hpre, hst, hrem⟩ := remove_hit_eq d (F.event p) hrun hex
    refine ⟨pre, stored, post, hl, ?_, ?_, ?_⟩
    · intro x hx
      rw [← heq x]
      exact hpre x hx
    · rw [← heq stored]
      exact hst
    · rw [detect_step_eq, if_neg (by simp [hprobe])]
      unfold edge_step
      rw [if_neg (by simp [hlatch])]
      simp only [hfault, Bool.false_eq_true, if_false, hrem, ob_fail_success]
  · cases F <;> exact ⟨rfl, rfl, rfl⟩

theorem detection_step_edges_witness :
    detect_step Family.clog_full started_detector full_disk_probes =
      Family.set_latch Family.clog_full true
        { started_detector with
          events_with_ops_ := started_detector.events_with_ops_ ++
            [{ event_ := Family.event full_disk_probes Family.clog_full,
               recover_detect_operation_ := none }]
          server_event_history_ := started_detector.server_event_history_ ++
            [ServerEvent.row (Family.event full_disk_probes Family.clog_full).info_
              (Family.event full_disk_probes Family.clog_full).module_
              (Family.event full_disk_probes Family.clog_full).type_ false] } ∧
    (∃ pre stored post,
      clog_full_raised.events_with_ops_ = pre ++ stored :: post ∧
      (∀ x ∈ pre, x.event_.equal (Family.canonical_event Family.clog_full) = false) ∧
      stored.event_.equal (Family.canonical_event Family.clog_full) = true ∧
      detect_step Family.clog_full clog_full_raised healthy_probes =
        Family.set_latch Family.clog_full false
          { clog_full_raised with
            events_with_ops_ := pre ++ post
            server_event_history_ := clog_full_raised.server_event_history_ ++
              [ServerEvent.row "REMOVE FAILURE" stored.event_.module_ stored.event_.type_
                stored.recover_detect_operation_.isSome] }) :=
  ⟨(detection_step_edges Family.clog_full started_detector full_disk_probes).1
      (by decide) (by decide) (by decide) (by decide) (by decide),
    (detection_step_edges Family.clog_full clog_full_raised healthy_probes).2.1
      (by decide) (by decide) (by decide) (by decide) (by decide)⟩

/-! ## Sensitivity zero -/

theorem bw_error_ratio_zero (inp : TickInput) (h : inp.sensitivity = 0) :
    bw_error_ratio inp = 0 := by
  unfold bw_error_ratio
  rw [h]
  norm_num

theorem perf_decrease_scan_ratio_zero (d : PalfDiskHangDetector) (warn_ratio avg_rt avg_bw : ℚ)
    (hbw : 0 ≤ avg_bw) :
    ∀ (n : Nat) (flags : Bool × Bool), flags.2 = false →
      (perf_decrease_scan d warn_ratio 0 avg_rt avg_bw n flags).2 = false := by
  intro n
  induction n with
  | zero =>
    intro flags h
    exact h
  | succ m ih =>
    intro flags h
    have hno : ¬ (d.learn_avg_bw_ (m : Int) * 0 > avg_bw) := by
      rw [mul_zero]
      exact not_lt.mpr hbw
    unfold perf_decrease_scan
    simp only [hno, and_false, if_false, h, Bool.false_eq_true]
    exact ih _ rfl

theorem small_pending_scan_ratio_zero (d : PalfDiskHangDetector) (total_bw : ℚ)
    (hbw : 0 ≤ total_bw) : ∀ n : Nat, small_pending_scan d 0 total_bw n = false := by
  intro n
  induction n with
  | zero => rfl
  | succ m ih =>
    have hno : ¬ (d.learn_avg_bw_ (m : Int) * 0 > total_bw) := by
      rw [mul_zero]
      exact not_lt.mpr hbw
    unfold small_pending_scan
    simp only [hno, and_false, if_false]
    exact ih

theorem pending_avg_bw_nonneg (inp : TickInput) (h : 0 ≤ inp.pending_write_size) :
    0 ≤ pending_avg_bw inp := by
  unfold pending_avg_bw
  split
  · exact le_refl 0
  · rename_i hrt
    have h1 : (0 : ℚ) ≤ (inp.pending_write_size : ℚ) := by exact_mod_cast h
    have h2 : (0 : ℚ) < (inp.pending_write_rt : ℚ) := by exact_mod_cast not_le.mp hrt
    positivity

theorem is_perf_decrease_error_sensitivity_zero (c : PalfConstants) (d : PalfDiskHangDetector)
    (inp : TickInput) (hsens : inp.sensitivity = 0) (hsize : 0 ≤ this_write_size d inp) :
    is_perf_decrease_error c d inp = false := by
  unfold is_perf_decrease_error perf_decrease
  split
  · rw [bw_error_ratio_zero inp hsens]
    exact perf_decrease_scan_ratio_zero d _ _ _ (this_avg_bw_nonneg d inp hsize) _ _ rfl
  · rfl

theorem has_small_pending_io_sensitivity_zero (c : PalfConstants) (d : PalfDiskHangDetector)
    (inp : TickInput) (hsens : inp.sensitivity = 0) (hsize : 0 ≤ this_write_size d inp)
    (hpend : 0 ≤ inp.pending_write_size) : has_small_pending_io c d inp = false := by
  unfold has_small_pending_io
  split
  · rw [bw_error_ratio_zero inp hsens]
    exact small_pending_scan_ratio_zero d _
      (add_nonneg (this_avg_bw_nonneg d inp hsize) (pending_avg_bw_nonneg inp hpend)) _
  · rfl

theorem small_pending_scan_of_slot_zero (d : PalfDiskHangDetector) (error_ratio total_bw : ℚ)
    (h : d.learn_avg_bw_ ((0 : Nat) : Int) > 0 ∧
      d.learn_avg_bw_ ((0 : Nat) : Int) * error_ratio > total_bw) :
    ∀ n : Nat, small_pending_scan d error_ratio total_bw (n + 1) = true := by
  intro n
  induction n with
  | zero =>
    unfold small_pending_scan
    rw [if_pos h]
  | succ m ih =>
    unfold small_pending_scan
    split
    · rfl
    · exact ih

/-- C23, amended: at sensitivity zero only a long pending write raises.  For
every state that is not failing and every input whose write size of the tick
and whose pending write size are not negative, a call with sensitivity zero
that samples returns `has_long_pending_io`; it returns false when
`has_long_pending_io` is false. -/
theorem sensitivity_zero_raise (c : PalfConstants) (d : PalfDiskHangDetector)
    (inp : TickInput) (hs : samples c d inp = true) (hnf : has_failure c d = false)
    (hsens : inp.sensitivity = 0) (hsize : 0 ≤ this_write_size d inp)
    (hpend : 0 ≤ inp.pending_write_size) :
    (is_clog_disk_hang c d inp).1 = has_long_pending_io c inp ∧
    (has_long_pending_io c inp = false → (is_clog_disk_hang c d inp).1 = false) := by
  have h : (is_clog_disk_hang c d inp).1 = has_long_pending_io c inp := by
    rw [is_clog_disk_hang_of_samples c d inp hs, sampled_tick_result,
      tick_result_not_failing c d inp hnf,
      is_perf_decrease_error_sensitivity_zero c d inp hsens hsize,
      has_small_pending_io_sensitivity_zero c d inp hsens hsize hpend]
    simp
  exact ⟨h, fun hl => by rw [h, hl]⟩

theorem sensitivity_zero_raise_witness :
    (is_clog_disk_hang sample_constants (PalfDiskHangDetector.construct sample_constants)
        { idle_input with sensitivity := 0 }).1 =
      has_long_pending_io sample_constants { idle_input with sensitivity := 0 } ∧
    (is_clog_disk_hang sample_constants (PalfDiskHangDetector.construct sample_constants)
        { idle_input with sensitivity := 0 }).1 = false :=
  have h := sensitivity_zero_raise sample_constants
    (PalfDiskHangDetector.construct sample_constants) { idle_input with sensitivity := 0 }
    (by decide) (has_failure_construct sample_constants) (by decide) (by decide) (by decide)
  ⟨h.1, h.2 (by decide)⟩

theorem log10_to_int_5000 : log10_to_int 5000 = 3 := by
  have hf : ⌊(5000 : ℚ)⌋₊ = 5000 := Nat.floor_ofNat 5000
  have h1 : (1 : ℚ) ≤ 5000 := by norm_num
  rw [log10_to_int, if_pos h1, hf]
  decide

theorem size_to_learn_idx_5000 : size_to_learn_idx_ sample_constants 5000 = 10 := by
  have hu : unclamped_slot_idx 5000 = 10 := by
    unfold unclamped_slot_idx
    simp only [log10_to_int_5000]
    norm_num [double_to_int, Int.floor_eq_iff]
  unfold size_to_learn_idx_
  rw [if_neg (by norm_num [sample_constants])]
  simp only [hu]
  rw [if_neg (by decide)]

theorem negative_size_flags :
    is_perf_decrease_error sample_constants learned_slot_zero negative_size_input = false ∧
    has_long_pending_io sample_constants negative_size_input = false ∧
    has_small_pending_io sample_constants learned_slot_zero negative_size_input = true := by
  have herr : is_perf_decrease_error sample_constants learned_slot_zero
      negative_size_input = false := by
    have hc : ¬ this_write_count learned_slot_zero negative_size_input > 0 := by decide
    unfold is_perf_decrease_error perf_decrease
    rw [if_neg hc]
  have hlong : has_long_pending_io sample_constants negative_size_input = false := by decide
  refine ⟨herr, hlong, ?_⟩
  have hrt : pending_avg_rt negative_size_input = 2000000 := by
    norm_num [pending_avg_rt, negative_size_input, idle_input]
  have hsz : pending_avg_size negative_size_input = 5000 := by
    norm_num [pending_avg_size, negative_size_input, idle_input]
  have hbw : pending_avg_bw negative_size_input = 2500 := by
    norm_num [pending_avg_bw, negative_size_input, idle_input]
  have htb : this_avg_bw learned_slot_zero negative_size_input = -10000000000 := by
    norm_num [this_avg_bw, this_write_rt, this_write_size, negative_size_input, idle_input,
      learned_slot_zero, PalfDiskHangDetector.construct]
  have hratio : bw_error_ratio negative_size_input = 0 := bw_error_ratio_zero _ rfl
  have hcheck : check_small_pending_io sample_constants learned_slot_zero
      negative_size_input = true := by
    unfold check_small_pending_io
    rw [hrt, herr, hlong]
    norm_num [sample_constants]
  unfold has_small_pending_io
  rw [if_pos hcheck, hsz, size_to_learn_idx_5000, hratio, htb, hbw]
  have h10 : (10 : Int).toNat = 9 + 1 := rfl
  rw [h10]
  apply small_pending_scan_of_slot_zero
  norm_num [learned_slot_zero]

theorem negative_size_continuous_error :
    has_continuous_error sample_constants learned_slot_zero negative_size_input = true := by
  have hflag : tick_error_flag sample_constants learned_slot_zero negative_size_input = true := by
    unfold tick_error_flag
    rw [negative_size_flags.2.2]
    simp
  have hf : has_failure sample_constants learned_slot_zero = false := by decide
  have hgap : continuous_error_gap sample_constants learned_slot_zero negative_size_input = 1 := by
    unfold continuous_error_gap
    rw [hf]
    decide
  have hrec : recorded_error_flags sample_constants learned_slot_zero negative_size_input 0
      = true := by
    unfold recorded_error_flags
    rw [hflag]
    have h0 : learned_slot_zero.curr_detect_round_ % sample_constants.MIN_RECOVERY_INTERVAL
        = 0 := by decide
    rw [h0, Function.update_same]
  have hround : learned_slot_zero.curr_detect_round_ = 0 := rfl
  unfold has_continuous_error has_continuous_error_
  simp only [hf, hgap, hround]
  have hz : (0 : Nat) % sample_constants.MIN_RECOVERY_INTERVAL = 0 := by decide
  simp only [error_count_loop]
  simp [hz, hrec]
  decide

/-- Counterexample to C23 as stated.  First, a fresh detector called at
sensitivity zero while the writer has been stuck for longer than the
tolerance: the state is not failing, the call samples, and it returns true.
Second, a detector that is not failing and has learned slot 0, called at
sensitivity zero with nothing long pending but with a cumulative size counter
that went down: the sum of the two bandwidths is negative, the second scan sets
`has_small_pending_io`, and the call returns true. -/
theorem sensitivity_zero_counterexample :
    (samples sample_constants (PalfDiskHangDetector.construct sample_constants)
        long_pending_insensitive_input = true ∧
      has_failure sample_constants (PalfDiskHangDetector.construct sample_constants) = false ∧
      long_pending_insensitive_input.sensitivity = 0 ∧
      (is_clog_disk_hang sample_constants (PalfDiskHangDetector.construct sample_constants)
        long_pending_insensitive_input).1 = true) ∧
    (samples sample_constants learned_slot_zero negative_size_input = true ∧
      has_failure sample_constants learned_slot_zero = false ∧
      negative_size_input.sensitivity = 0 ∧
      has_long_pending_io sample_constants negative_size_input = false ∧
      (is_clog_disk_hang sample_constants learned_slot_zero negative_size_input).1 = true) := by
  refine ⟨⟨by decide, has_failure_construct _, rfl, ?_⟩,
    ⟨by decide, by decide, rfl, negative_size_flags.2.1, ?_⟩⟩
  · rw [is_clog_disk_hang_of_samples _ _ _ (by decide)]
    exact tick_result_of_long sample_constants
      (PalfDiskHangDetector.construct sample_constants) long_pending_insensitive_input
      (by decide)
  · rw [is_clog_disk_hang_of_samples _ _ _ (by decide), sampled_tick_result,
      tick_result_not_failing _ _ _ (by decide), negative_size_flags.2.2,
      negative_size_continuous_error]
    rfl

/-! ## The scenarios "cold start, healthy" and "sudden bandwidth drop" -/

theorem feed_nil (c : PalfConstants) (d : PalfDiskHangDetector) : feed c d [] = ([], d) := rfl

theorem feed_cons (c : PalfConstants) (d : PalfDiskHangDetector) (inp : TickInput)
    (rest : List TickInput) :
    feed c d (inp :: rest) =
      ((is_clog_disk_hang c d inp).1 :: (feed c (is_clog_disk_hang c d inp).2.2 rest).1,
        (feed c (is_clog_disk_hang c d inp).2.2 rest).2) := rfl

theorem ticks_satisfy_cons (P : PalfDiskHangDetector → TickInput → Bool) (c : PalfConstants)
    (d : PalfDiskHangDetector) (inp : TickInput) (rest : List TickInput) :
    ticks_satisfy P c d (inp :: rest) = true ↔
      P d inp = true ∧ ticks_satisfy P c (is_clog_disk_hang c d inp).2.2 rest = true := by
  simp [ticks_satisfy]

theorem unclamped_slot_idx_zero : unclamped_slot_idx 0 = -310 := by
  have h : log10_to_int 0 = 0 := by norm_num [log10_to_int]
  unfold unclamped_slot_idx
  simp only [h]
  norm_num [double_to_int, Int.ceil_eq_iff]

theorem unclamped_slot_idx_1000 : unclamped_slot_idx 1000 = -30 := by
  unfold unclamped_slot_idx
  simp only [log10_to_int_1000]
  norm_num [double_to_int, Int.ceil_eq_iff]

theorem size_to_learn_idx_zero_toNat (c : PalfConstants) :
    (size_to_learn_idx_ c 0).toNat = 0 := by
  have hp := c.learn_slot_pos
  unfold size_to_learn_idx_
  split
  · rfl
  · simp only [unclamped_slot_idx_zero]
    rw [if_neg (by omega)]
    rfl

theorem size_to_learn_idx_1000_toNat (c : PalfConstants) :
    (size_to_learn_idx_ c 1000).toNat = 0 := by
  have hp := c.learn_slot_pos
  unfold size_to_learn_idx_
  split
  · rfl
  · simp only [unclamped_slot_idx_1000]
    rw [if_neg (by omega)]
    rfl

/-- A call from a state that is not failing, whose average write size maps to a
slot with nothing below it, with no pending write counted and no write stuck
for longer than the tolerance: no anomaly flag is set, the call returns false,
and it learns. -/
theorem quiet_tick_flags (c : PalfConstants) (d : PalfDiskHangDetector) (inp : TickInput)
    (hnf : has_failure c d = false)
    (hslot : (size_to_learn_idx_ c (this_avg_size d inp)).toNat = 0)
    (hpc : inp.pending_write_count = 0) (hlong : has_long_pending_io c inp = false) :
    perf_decrease c d inp = (false, false) ∧ has_small_pending_io c d inp = false ∧
      tick_result c d inp = false ∧ learns c d inp = true := by
  have hperf : perf_decrease c d inp = (false, false) := by
    unfold perf_decrease
    split
    · rw [hslot]
      rfl
    · rfl
  have hsmall : has_small_pending_io c d inp = false := by
    have hsz : pending_avg_size inp = 0 := by simp [pending_avg_size, hpc]
    unfold has_small_pending_io
    split
    · rw [hsz, size_to_learn_idx_zero_toNat]
      rfl
    · rfl
  have herr : is_perf_decrease_error c d inp = false := by
    unfold is_perf_decrease_error
    rw [hperf]
  have hwarn : is_perf_decrease_warn c d inp = false := by
    unfold is_perf_decrease_warn
    rw [hperf]
  refine ⟨hperf, hsmall, ?_, learns_of_flags c d inp hwarn herr hsmall hlong hnf⟩
  rw [tick_result_not_failing c d inp hnf, hsmall, herr, hlong]
  rfl

theorem has_failure_after_false (c : PalfConstants) (d : PalfDiskHangDetector)
    (inp : TickInput) (h : tick_result c d inp = false) :
    has_failure c (sampled_tick c d inp).2 = false := by
  unfold has_failure
  rw [sampled_tick_failure_time, if_pos h]
  simp

theorem is_clog_disk_hang_state (c : PalfConstants) (d : PalfDiskHangDetector)
    (inp : TickInput) (hs : samples c d inp = true) :
    (is_clog_disk_hang c d inp).2.2 = (sampled_tick c d inp).2 := by
  rw [is_clog_disk_hang_of_samples c d inp hs]

theorem is_clog_disk_hang_value (c : PalfConstants) (d : PalfDiskHangDetector)
    (inp : TickInput) (hs : samples c d inp = true) :
    (is_clog_disk_hang c d inp).1 = tick_result c d inp := by
  rw [is_clog_disk_hang_of_samples c d inp hs]
  rfl

theorem healthy_tick_iff (c : PalfConstants) (d : PalfDiskHangDetector) (inp : TickInput) :
    healthy_tick c d inp = true ↔
      samples c d inp = true ∧ this_write_count d inp = 100 ∧
        this_write_size d inp = 100000 ∧ this_write_rt d inp = 1000000 ∧
        inp.pending_write_size = 0 ∧ inp.pending_write_count = 0 ∧
        inp.pending_write_rt = 0 ∧ inp.last_working_time = inp.now := by
  simp [healthy_tick, and_assoc]

theorem drop_tick_iff (c : PalfConstants) (d : PalfDiskHangDetector) (inp : TickInput) :
    drop_tick c d inp = true ↔
      samples c d inp = true ∧ inp.sensitivity = 20 ∧ this_write_count d inp = 10 ∧
        this_write_size d inp = 10000 ∧ this_write_rt d inp = 5000000 ∧
        inp.pending_write_size = 0 ∧ inp.pending_write_count = 0 ∧
        inp.pending_write_rt = 0 ∧ has_long_pending_io c inp = false := by
  simp [drop_tick, and_assoc]

theorem healthy_tick_averages (c : PalfConstants) (d : PalfDiskHangDetector) (inp : TickInput)
    (h : healthy_tick c d inp = true) :
    this_avg_size d inp = 1000 ∧ this_avg_bw d inp = 100000 ∧ this_avg_rt d inp = 10000 := by
  obtain ⟨_, hc, hsz, hrt, _⟩ := (healthy_tick_iff c d inp).mp h
  refine ⟨?_, ?_, ?_⟩
  · unfold this_avg_size
    rw [hc, hsz]
    norm_num
  · unfold this_avg_bw
    rw [hrt, hsz]
    norm_num
  · unfold this_avg_rt
    rw [hc, hrt]
    norm_num

theorem drop_tick_averages (c : PalfConstants) (d : PalfDiskHangDetector) (inp : TickInput)
    (h : drop_tick c d inp = true) :
    this_avg_size d inp = 1000 ∧ this_avg_bw d inp = 2000 ∧ this_avg_rt d inp = 500000 := by
  obtain ⟨_, _, hc, hsz, hrt, _⟩ := (drop_tick_iff c d inp).mp h
  refine ⟨?_, ?_, ?_⟩
  · unfold this_avg_size
    rw [hc, hsz]
    norm_num
  · unfold this_avg_bw
    rw [hrt, hsz]
    norm_num
  · unfold this_avg_rt
    rw [hc, hrt]
    norm_num

theorem healthy_tick_long (c : PalfConstants) (d : PalfDiskHangDetector) (inp : TickInput)
    (h : healthy_tick c d inp = true) (htol : 0 ≤ inp.tolerance_time) :
    has_long_pending_io c inp = false := by
  obtain ⟨_, _, _, _, _, _, _, hl⟩ := (healthy_tick_iff c d inp).mp h
  unfold has_long_pending_io
  rw [hl]
  simp
  intro _
  exact htol

theorem healthy_step (c : PalfConstants) (d : PalfDiskHangDetector) (inp : TickInput)
    (hnf : has_failure c d = false) (h : healthy_tick c d inp = true)
    (htol : 0 ≤ inp.tolerance_time) :
    (is_clog_disk_hang c d inp).1 = false ∧
    has_failure c (is_clog_disk_hang c d inp).2.2 = false ∧
    (((d.learn_avg_bw_ (size_to_learn_idx_ c 1000) ≤ 0 ∨
        d.learn_avg_rt_ (size_to_learn_idx_ c 1000) ≤ 0) ∨
      (d.learn_avg_bw_ (size_to_learn_idx_ c 1000) = 100000 ∧
        d.learn_avg_rt_ (size_to_learn_idx_ c 1000) = 10000)) →
      (is_clog_disk_hang c d inp).2.2.learn_avg_bw_ (size_to_learn_idx_ c 1000) = 100000 ∧
      (is_clog_disk_hang c d inp).2.2.learn_avg_rt_ (size_to_learn_idx_ c 1000) = 10000) := by
  have hs : samples c d inp = true := ((healthy_tick_iff c d inp).mp h).1
  have hpc : inp.pending_write_count = 0 := ((healthy_tick_iff c d inp).mp h).2.2.2.2.2.1
  obtain ⟨hsize, hbw, hrt⟩ := healthy_tick_averages c d inp h
  have hslot : (size_to_learn_idx_ c (this_avg_size d inp)).toNat = 0 := by
    rw [hsize]
    exact size_to_learn_idx_1000_toNat c
  obtain ⟨_, _, hres, hlearn⟩ :=
    quiet_tick_flags c d inp hnf hslot hpc (healthy_tick_long c d inp h htol)
  rw [is_clog_disk_hang_value c d inp hs, is_clog_disk_hang_state c d inp hs]
  refine ⟨hres, has_failure_after_false c d inp hres, ?_⟩
  intro hold
  have hb : (sampled_tick c d inp).2.learn_avg_bw_ = learned_bw c d inp := rfl
  have hr : (sampled_tick c d inp).2.learn_avg_rt_ = learned_rt c d inp := rfl
  rw [hb, hr]
  unfold learned_bw learned_rt
  simp only [hlearn, if_true, hsize, hbw, hrt]
  rcases hold with hold | ⟨h1, h2⟩
  · rw [if_pos hold, if_pos hold, Function.update_same, Function.update_same]
    exact ⟨rfl, rfl⟩
  · have hneg : ¬ (d.learn_avg_bw_ (size_to_learn_idx_ c 1000) ≤ 0 ∨
        d.learn_avg_rt_ (size_to_learn_idx_ c 1000) ≤ 0) := by
      rw [h1, h2]
      norm_num
    rw [if_neg hneg, if_neg hneg, Function.update_same, Function.update_same, h1, h2]
    exact ⟨learn_update_100000, learn_update_10000⟩

/-- A run of healthy calls with a tolerance that is not negative, from a state
that is not failing and whose slot of size 1000 is empty or holds bandwidth
100000 and latency 10000: every call returns false, the state does not fail,
and after one call or more the slot holds exactly those two values. -/
theorem healthy_run (c : PalfConstants) :
    ∀ (inputs : List TickInput) (d : PalfDiskHangDetector),
      has_failure c d = false →
      ((d.learn_avg_bw_ (size_to_learn_idx_ c 1000) ≤ 0 ∨
          d.learn_avg_rt_ (size_to_learn_idx_ c 1000) ≤ 0) ∨
        (d.learn_avg_bw_ (size_to_learn_idx_ c 1000) = 100000 ∧
          d.learn_avg_rt_ (size_to_learn_idx_ c 1000) = 10000)) →
      ticks_satisfy (healthy_tick c) c d inputs = true →
      (∀ inp ∈ inputs, 0 ≤ inp.tolerance_time) →
      (feed c d inputs).1 = List.replicate inputs.length false ∧
      has_failure c (feed c d inputs).2 = false ∧
      (inputs ≠ [] →
        (feed c d inputs).2.learn_avg_bw_ (size_to_learn_idx_ c 1000) = 100000 ∧
        (feed c d inputs).2.learn_avg_rt_ (size_to_learn_idx_ c 1000) = 10000) := by
  intro inputs
  induction inputs with
  | nil =>
    intro d hnf _ _ _
    exact ⟨rfl, hnf, fun h => absurd rfl h⟩
  | cons inp rest ih =>
    intro d hnf hold hall htol
    obtain ⟨hP, hrest⟩ := (ticks_satisfy_cons (healthy_tick c) c d inp rest).mp hall
    obtain ⟨hres, hnf2, hlearned⟩ :=
      healthy_step c d inp hnf hP (htol inp (List.mem_cons_self inp rest))
    have hl := hlearned hold
    obtain ⟨r1, r2, r3⟩ := ih (is_clog_disk_hang c d inp).2.2 hnf2 (Or.inr hl) hrest
      (fun x hx => htol x (List.mem_cons_of_mem inp hx))
    rw [feed_cons]
    refine ⟨?_, r2, ?_⟩
    · simp only [hres, r1, List.length_cons, List.replicate_succ]
    · intro _
      by_cases hnil : rest = []
      · subst hnil
        exact hl
      · exact r3 hnil

theorem drop_step (c : PalfConstants) (d : PalfDiskHangDetector) (inp : TickInput)
    (hnf : has_failure c d = false) (h : drop_tick c d inp = true) :
    (is_clog_disk_hang c d inp).1 = false ∧
    has_failure c (is_clog_disk_hang c d inp).2.2 = false := by
  have hs : samples c d inp = true := ((drop_tick_iff c d inp).mp h).1
  have hpc : inp.pending_write_count = 0 := ((drop_tick_iff c d inp).mp h).2.2.2.2.2.2.1
  have hlong : has_long_pending_io c inp = false := ((drop_tick_iff c d inp).mp h).2.2.2.2.2.2.2.2
  obtain ⟨hsize, _, _⟩ := drop_tick_averages c d inp h
  have hslot : (size_to_learn_idx_ c (this_avg_size d inp)).toNat = 0 := by
    rw [hsize]
    exact size_to_learn_idx_1000_toNat c
  obtain ⟨_, _, hres, _⟩ := quiet_tick_flags c d inp hnf hslot hpc hlong
  rw [is_clog_disk_hang_value c d inp hs, is_clog_disk_hang_state c d inp hs]
  exact ⟨hres, has_failure_after_false c d inp hres⟩

/-- A run of calls of the degraded scenario from a state that is not failing:
every call returns false. -/
theorem drop_run (c : PalfConstants) :
    ∀ (inputs : List TickInput) (d : PalfDiskHangDetector),
      has_failure c d = false → ticks_satisfy (drop_tick c) c d inputs = true →
      (feed c d inputs).1 = List.replicate inputs.length false := by
  intro inputs
  induction inputs with
  | nil =>
    intro d _ _
    rfl
  | cons inp rest ih =>
    intro d hnf hall
    obtain ⟨hP, hrest⟩ := (ticks_satisfy_cons (drop_tick c) c d inp rest).mp hall
    obtain ⟨hres, hnf2⟩ := drop_step c d inp hnf hP
    rw [feed_cons]
    simp only [hres, ih _ hnf2 hrest, List.length_cons, List.replicate_succ]

set_option maxRecDepth 100000 in
theorem steady_inputs_healthy :
    ticks_satisfy (healthy_tick sample_constants) sample_constants
      (PalfDiskHangDetector.construct sample_constants) steady_inputs = true := by
  decide

set_option maxRecDepth 100000 in
theorem steady_inputs_tolerance : ∀ inp ∈ steady_inputs, 0 ≤ inp.tolerance_time := by
  decide

set_option maxRecDepth 100000 in
theorem drop_inputs_degraded :
    ticks_satisfy (drop_tick sample_constants) sample_constants
      (feed sample_constants (PalfDiskHangDetector.construct sample_constants)
        steady_inputs).2 drop_inputs = true := by
  decide

/-- Counterexample to C24 as stated.  First, the fifty healthy calls of the
examples (one hundred writes, one hundred thousand bytes and one second per
call, tolerance five seconds) on a fresh detector: the slot of size 1000 ends
with bandwidth 100000, which is `this_size * 1e6 / this_rt`, and that is not
within 0.1% of 1e8.  Second, fifty healthy calls made with tolerance -1: the
first of them returns true, because zero microseconds since the last progress
is more than the tolerance. -/
theorem cold_start_counterexample :
    (steady_inputs.length = 50 ∧
      ticks_satisfy (healthy_tick sample_constants) sample_constants
        (PalfDiskHangDetector.construct sample_constants) steady_inputs = true ∧
      (feed sample_constants (PalfDiskHangDetector.construct sample_constants)
        steady_inputs).2.learn_avg_bw_ (size_to_learn_idx_ sample_constants 1000) = 100000 ∧
      ¬ |(feed sample_constants (PalfDiskHangDetector.construct sample_constants)
          steady_inputs).2.learn_avg_bw_ (size_to_learn_idx_ sample_constants 1000) -
            100000000| ≤ 100000000 / 1000) ∧
    (impatient_inputs.length = 50 ∧
      ticks_satisfy (healthy_tick sample_constants) sample_constants
        (PalfDiskHangDetector.construct sample_constants) impatient_inputs = true ∧
      (feed sample_constants (PalfDiskHangDetector.construct sample_constants)
        impatient_inputs).1.head? = some true) := by
  have hrun := healthy_run sample_constants steady_inputs
    (PalfDiskHangDetector.construct sample_constants) (has_failure_construct sample_constants)
    (Or.inl (Or.inl (construct_no_positive sample_constants _))) steady_inputs_healthy
    steady_inputs_tolerance
  have hbw := (hrun.2.2 (List.ne_nil_of_length_pos (by decide))).1
  refine ⟨⟨by decide, steady_inputs_healthy, hbw, ?_⟩, ⟨by decide, by decide, ?_⟩⟩
  · rw [hbw]
    norm_num [abs_le]
  · unfold impatient_inputs
    rw [feed_cons, is_clog_disk_hang_value _ _ _ (by decide)]
    simp only [List.head?_cons]
    rw [tick_result_of_long sample_constants (PalfDiskHangDetector.construct sample_constants)
      impatient_input (by decide)]

/-- C24 (amended): from a fresh detector, a run of one or more healthy calls
(fifty in the scenario), each sampled, with one hundred writes, one hundred
thousand bytes and one second counted since the call before, nothing pending,
the last progress of the writer at the time of the call and a tolerance that is
not negative: every call returns false, and afterwards the slot
`size_to_learn_idx_(1000)` holds exactly bandwidth 100000 (`1e5`, which is
`this_size * 1e6 / this_rt`) and latency 10000. -/
theorem cold_start_healthy (c : PalfConstants) (inputs : List TickInput)
    (hne : 0 < inputs.length)
    (hall : ticks_satisfy (healthy_tick c) c (PalfDiskHangDetector.construct c) inputs = true)
    (htol : ∀ inp ∈ inputs, 0 ≤ inp.tolerance_time) :
    (feed c (PalfDiskHangDetector.construct c) inputs).1 =
      List.replicate inputs.length false ∧
    (feed c (PalfDiskHangDetector.construct c) inputs).2.learn_avg_bw_
      (size_to_learn_idx_ c 1000) = 100000 ∧
    (feed c (PalfDiskHangDetector.construct c) inputs).2.learn_avg_rt_
      (size_to_learn_idx_ c 1000) = 10000 := by
  have hrun := healthy_run c inputs (PalfDiskHangDetector.construct c)
    (has_failure_construct c) (Or.inl (Or.inl (construct_no_positive c _))) hall htol
  have hne2 := List.ne_nil_of_length_pos hne
  exact ⟨hrun.1, (hrun.2.2 hne2).1, (hrun.2.2 hne2).2⟩

set_option maxRecDepth 100000 in
theorem cold_start_healthy_witness :
    (feed sample_constants (PalfDiskHangDetector.construct sample_constants)
      steady_inputs).1 = List.replicate steady_inputs.length false ∧
    (feed sample_constants (PalfDiskHangDetector.construct sample_constants)
      steady_inputs).2.learn_avg_bw_ (size_to_learn_idx_ sample_constants 1000) = 100000 ∧
    (feed sample_constants (PalfDiskHangDetector.construct sample_constants)
      steady_inputs).2.learn_avg_rt_ (size_to_learn_idx_ sample_constants 1000) = 10000 :=
  cold_start_healthy sample_constants steady_inputs (by decide) (by decide) (by decide)

/-- Counterexample to C25 as stated.  The fifty healthy calls of the examples
on a fresh detector, then fifty calls of the degraded scenario (ten writes, ten
thousand bytes and five seconds per call, sensitivity 20, nothing pending).
The tolerance is five seconds and the interval one second, so the claim
expects true within four calls; all fifty calls return false. -/
theorem bandwidth_drop_counterexample :
    steady_inputs.length = 50 ∧
    ticks_satisfy (healthy_tick sample_constants) sample_constants
      (PalfDiskHangDetector.construct sample_constants) steady_inputs = true ∧
    ticks_satisfy (drop_tick sample_constants) sample_constants
      (feed sample_constants (PalfDiskHangDetector.construct sample_constants)
        steady_inputs).2 drop_inputs = true ∧
    (∀ inp ∈ drop_inputs, inp.tolerance_time = 5000000) ∧
    sample_constants.PALF_DISK_DETECT_INTERVAL_US = 1000000 ∧
    (feed sample_constants
      (feed sample_constants (PalfDiskHangDetector.construct sample_constants)
        steady_inputs).2 drop_inputs).1 = List.replicate 50 false := by
  have hrun := healthy_run sample_constants steady_inputs
    (PalfDiskHangDetector.construct sample_constants) (has_failure_construct sample_constants)
    (Or.inl (Or.inl (construct_no_positive sample_constants _))) steady_inputs_healthy
    steady_inputs_tolerance
  refine ⟨by decide, steady_inputs_healthy, drop_inputs_degraded, by decide, rfl, ?_⟩
  exact drop_run sample_constants drop_inputs _ hrun.2.1 drop_inputs_degraded

/-- C25 (amended): from the state that a run of healthy calls (with a
tolerance that is not negative) leaves on a fresh detector, a run of calls of
the degraded scenario, each sampled at sensitivity 20 with ten writes, ten
thousand bytes and five seconds counted since the call before, nothing pending
and no write stuck for longer than the tolerance: every call returns false.
The average write size is 1000 as before, it maps to the same slot, and the
scan looks only at the slots below the slot of the call. -/
theorem bandwidth_drop_never_raises (c : PalfConstants) (healthy drops : List TickInput)
    (hh : ticks_satisfy (healthy_tick c) c (PalfDiskHangDetector.construct c) healthy = true)
    (htol : ∀ inp ∈ healthy, 0 ≤ inp.tolerance_time)
    (hd : ticks_satisfy (drop_tick c) c
      (feed c (PalfDiskHangDetector.construct c) healthy).2 drops = true) :
    (feed c (feed c (PalfDiskHangDetector.construct c) healthy).2 drops).1 =
      List.replicate drops.length false := by
  have hrun := healthy_run c healthy (PalfDiskHangDetector.construct c)
    (has_failure_construct c) (Or.inl (Or.inl (construct_no_positive c _))) hh htol
  exact drop_run c drops _ hrun.2.1 hd

set_option maxRecDepth 100000 in
theorem bandwidth_drop_never_raises_witness :
    (feed sample_constants
      (feed sample_constants (PalfDiskHangDetector.construct sample_constants)
        steady_inputs).2 drop_inputs).1 = List.replicate drop_inputs.length false :=
  bandwidth_drop_never_raises sample_constants steady_inputs drop_inputs (by decide)
    (by decide) (by decide)

/-! ## The window of anomaly flags -/

theorem error_count_loop_nonneg (c : PalfConstants) (d : PalfDiskHangDetector) (gap : Int) :
    ∀ n : Nat, 0 ≤ error_count_loop c d gap n := by
  intro n
  induction n with
  | zero => exact le_refl _
  | succ n ih =>
    unfold error_count_loop
    split
    · split <;> omega
    · exact le_refl _

theorem error_count_loop_eq_zero_iff (c : PalfConstants) (d : PalfDiskHangDetector)
    (gap : Int) :
    ∀ n : Nat, error_count_loop c d gap n = 0 ↔
      ∀ i : Nat, i < n → (i : Int) > (d.curr_detect_round_ : Int) - gap →
        d.detect_error_flags_ (i % c.MIN_RECOVERY_INTERVAL) = false := by
  intro n
  induction n with
  | zero =>
    constructor
    · intro _ i hi
      omega
    · intro _
      rfl
  | succ n ih =>
    have hnn := error_count_loop_nonneg c d gap n
    unfold error_count_loop
    by_cases hw : (n : Int) > (d.curr_detect_round_ : Int) - gap
    · rw [if_pos hw]
      constructor
      · intro h i hi hgt
        by_cases hflag : d.detect_error_flags_ (n % c.MIN_RECOVERY_INTERVAL) = true
        · rw [if_pos hflag] at h
          omega
        · rw [if_neg hflag] at h
          have hz : error_count_loop c d gap n = 0 := by omega
          by_cases hin : i = n
          · subst hin
            simpa using hflag
          · exact (ih.mp hz) i (by omega) hgt
      · intro h
        have hflag : d.detect_error_flags_ (n % c.MIN_RECOVERY_INTERVAL) = false :=
          h n (by omega) hw
        have hz : error_count_loop c d gap n = 0 :=
          ih.mpr (fun i hi hgt => h i (by omega) hgt)
        rw [hflag, hz]
        rfl
    · rw [if_neg hw]
      constructor
      · intro _ i hi hgt
        omega
      · intro _
        rfl

theorem has_continuous_error_failing (c : PalfConstants) (d : PalfDiskHangDetector)
    (inp : TickInput) (hf : has_failure c d = true) :
    has_continuous_error c d inp = false ↔
      ∀ i : Nat, i ≤ d.curr_detect_round_ →
        d.curr_detect_round_ < i + c.MIN_RECOVERY_INTERVAL →
        recorded_error_flags c d inp (i % c.MIN_RECOVERY_INTERVAL) = false := by
  have hz := error_count_loop_eq_zero_iff c
    { d with detect_error_flags_ := recorded_error_flags c d inp }
    (c.MIN_RECOVERY_INTERVAL : Int) (d.curr_detect_round_ + 1)
  unfold has_continuous_error has_continuous_error_ continuous_error_gap min_recovery_interval_
  simp only [hf, if_true, decide_eq_false_iff_not, not_not]
  rw [hz]
  constructor
  · intro h i hi hlt
    exact h i (by omega) (by simp only; omega)
  · intro h i hi hgt
    simp only at hgt
    exact h i (by omega) (by omega)

theorem mod_ne_of_close (W q r : Nat) (h1 : q < r) (h2 : r < q + W) : q % W ≠ r % W := by
  intro h
  have hd : W ∣ r - q := (Nat.modEq_iff_dvd' (Nat.le_of_lt h1)).mp h
  have hle := Nat.le_of_dvd (by omega) hd
  omega

theorem window_all_false_iff (l : List Bool) (W : Nat) :
    (∀ b ∈ l.drop (l.length - W), b = false) ↔
      ∀ j : Nat, j < l.length → l.length ≤ j + W → l[j]? = some false := by
  constructor
  · intro h j hj hle
    have hmem : l[j] ∈ l.drop (l.length - W) := by
      rw [List.mem_iff_getElem?]
      refine ⟨j - (l.length - W), ?_⟩
      rw [List.getElem?_drop]
      have : l.length - W + (j - (l.length - W)) = j := by omega
      rw [this]
      exact List.getElem?_eq_getElem hj
    rw [List.getElem?_eq_getElem hj, h _ hmem]
  · intro h b hb
    rw [List.mem_iff_getElem?] at hb
    obtain ⟨n, hn⟩ := hb
    rw [List.getElem?_drop] at hn
    have hlt : l.length - W + n < l.length := by
      by_contra hge
      rw [List.getElem?_eq_none (by omega)] at hn
      exact Option.noConfusion hn
    have := h (l.length - W + n) hlt (by omega)
    rw [hn] at this
    exact Option.some.inj this

theorem ring_construct (c : PalfConstants) : RingInv c (PalfDiskHangDetector.construct c) [] :=
  ⟨rfl, fun j hj _ => absurd hj (Nat.not_lt_zero j)⟩

theorem ring_step (c : PalfConstants) (d : PalfDiskHangDetector) (inp : TickInput)
    (bits : List Bool) (hinv : RingInv c d bits) :
    RingInv c (sampled_tick c d inp).2 (bits ++ [tick_error_flag c d inp]) := by
  obtain ⟨hround, hflags⟩ := hinv
  have hlen : (bits ++ [tick_error_flag c d inp]).length = bits.length + 1 := by simp
  have hst : (sampled_tick c d inp).2.detect_error_flags_ = recorded_error_flags c d inp := rfl
  have hrd : (sampled_tick c d inp).2.curr_detect_round_ = d.curr_detect_round_ + 1 := rfl
  refine ⟨by rw [hrd, hround, hlen], ?_⟩
  intro j hj hle
  rw [hlen] at hj hle
  rw [hst]
  unfold recorded_error_flags
  rw [hround]
  by_cases hjl : j = bits.length
  · subst hjl
    rw [Function.update_same, List.getElem?_append_right (le_refl _)]
    simp
  · have hlt : j < bits.length := by omega
    have hne := mod_ne_of_close c.MIN_RECOVERY_INTERVAL j bits.length hlt (by omega)
    rw [Function.update_noteq hne, List.getElem?_append_left hlt]
    exact hflags j hlt (by omega)

theorem anomaly_bits_cons_samples (c : PalfConstants) (d : PalfDiskHangDetector)
    (inp : TickInput) (rest : List TickInput) (hs : samples c d inp = true) :
    anomaly_bits c d (inp :: rest) =
      tick_error_flag c d inp :: anomaly_bits c (sampled_tick c d inp).2 rest := by
  rw [anomaly_bits, if_pos hs, is_clog_disk_hang_state c d inp hs]

theorem anomaly_bits_cons_not_samples (c : PalfConstants) (d : PalfDiskHangDetector)
    (inp : TickInput) (rest : List TickInput) (hs : samples c d inp = false) :
    anomaly_bits c d (inp :: rest) = anomaly_bits c d rest := by
  rw [anomaly_bits, if_neg (by simp [hs]), is_clog_disk_hang_of_not_samples c d inp hs]

theorem ring_feed (c : PalfConstants) :
    ∀ (inputs : List TickInput) (d : PalfDiskHangDetector) (bits : List Bool),
      RingInv c d bits → RingInv c (feed c d inputs).2 (bits ++ anomaly_bits c d inputs) := by
  intro inputs
  induction inputs with
  | nil =>
    intro d bits h
    simpa [feed, anomaly_bits] using h
  | cons inp rest ih =>
    intro d bits h
    rw [feed_cons]
    by_cases hs : samples c d inp = true
    · rw [anomaly_bits_cons_samples c d inp rest hs, is_clog_disk_hang_state c d inp hs]
      have := ih (sampled_tick c d inp).2 _ (ring_step c d inp bits h)
      simpa using this
    · have hs2 : samples c d inp = false := by simpa using hs
      rw [anomaly_bits_cons_not_samples c d inp rest hs2,
        is_clog_disk_hang_of_not_samples c d inp hs2]
      exact ih d bits h

theorem feed_append (c : PalfConstants) :
    ∀ (l1 l2 : List TickInput) (d : PalfDiskHangDetector),
      feed c d (l1 ++ l2) =
        ((feed c d l1).1 ++ (feed c (feed c d l1).2 l2).1, (feed c (feed c d l1).2 l2).2) := by
  intro l1
  induction l1 with
  | nil =>
    intro l2 d
    rfl
  | cons inp rest ih =>
    intro l2 d
    rw [List.cons_append, feed_cons, ih, feed_cons]
    rfl

theorem anomaly_bits_append (c : PalfConstants) :
    ∀ (l1 l2 : List TickInput) (d : PalfDiskHangDetector),
      anomaly_bits c d (l1 ++ l2) =
        anomaly_bits c d l1 ++ anomaly_bits c (feed c d l1).2 l2 := by
  intro l1
  induction l1 with
  | nil =>
    intro l2 d
    rfl
  | cons inp rest ih =>
    intro l2 d
    rw [List.cons_append, feed_cons]
    by_cases hs : samples c d inp = true
    · simp only [anomaly_bits, hs, if_true, ih, List.cons_append]
    · simp only [anomaly_bits, hs, if_false, ih]
      simp

theorem ticks_satisfy_append (P : PalfDiskHangDetector → TickInput → Bool) (c : PalfConstants) :
    ∀ (l1 l2 : List TickInput) (d : PalfDiskHangDetector),
      ticks_satisfy P c d (l1 ++ l2) = true ↔
        ticks_satisfy P c d l1 = true ∧ ticks_satisfy P c (feed c d l1).2 l2 = true := by
  intro l1
  induction l1 with
  | nil =>
    intro l2 d
    simp [ticks_satisfy, feed]
  | cons inp rest ih =>
    intro l2 d
    rw [List.cons_append, ticks_satisfy_cons, ticks_satisfy_cons, ih, feed_cons, and_assoc]

theorem ticks_satisfy_mono (P Q : PalfDiskHangDetector → TickInput → Bool) (c : PalfConstants)
    (hPQ : ∀ d inp, P d inp = true → Q d inp = true) :
    ∀ (l : List TickInput) (d : PalfDiskHangDetector),
      ticks_satisfy P c d l = true → ticks_satisfy Q c d l = true := by
  intro l
  induction l with
  | nil =>
    intro d _
    rfl
  | cons inp rest ih =>
    intro d h
    rw [ticks_satisfy_cons] at h ⊢
    exact ⟨hPQ d inp h.1, ih _ h.2⟩

theorem aged_tick_iff (c : PalfConstants) (d : PalfDiskHangDetector) (inp : TickInput) :
    aged_tick c d inp = true ↔
      samples c d inp = true ∧ inp.sensitivity ≠ 0 ∧
        inp.now - d.last_detect_failure_time_ ≤ c.PALF_DISK_FAILURE_TIME_UPPER_BOUND := by
  simp [aged_tick, and_assoc]

theorem tick_error_flag_eq_false_iff (c : PalfConstants) (d : PalfDiskHangDetector)
    (inp : TickInput) :
    tick_error_flag c d inp = false ↔
      is_perf_decrease_error c d inp = false ∧ has_small_pending_io c d inp = false ∧
        has_long_pending_io c inp = false := by
  simp [tick_error_flag, and_assoc]

/-- From a failing state whose flags are those of the rounds `bits`, a call
with a sensitivity that is not zero on a failure that is not too old returns
false exactly when the last `MIN_RECOVERY_INTERVAL` bits, the bit of the call
included, are all false. -/
theorem failing_tick_false_iff (c : PalfConstants) (d : PalfDiskHangDetector)
    (inp : TickInput) (bits : List Bool) (hinv : RingInv c d bits)
    (hf : has_failure c d = true) (hsens : inp.sensitivity ≠ 0)
    (hage : inp.now - d.last_detect_failure_time_ ≤ c.PALF_DISK_FAILURE_TIME_UPPER_BOUND) :
    tick_result c d inp = false ↔
      ∀ b ∈ (bits ++ [tick_error_flag c d inp]).drop
        ((bits ++ [tick_error_flag c d inp]).length - c.MIN_RECOVERY_INTERVAL), b = false := by
  have hW := c.recovery_interval_pos
  obtain ⟨hround', hflags'⟩ := ring_step c d inp bits hinv
  have hround := hinv.1
  have hlen : (bits ++ [tick_error_flag c d inp]).length = bits.length + 1 := by simp
  have hst : (sampled_tick c d inp).2.detect_error_flags_ = recorded_error_flags c d inp := rfl
  rw [hst] at hflags'
  rw [tick_result_failing_false_iff c d inp hf, window_all_false_iff]
  constructor
  · rintro ⟨_, _, hdisj⟩ j hj hle
    rcases hdisj with h0 | ⟨_, hcont⟩ | hold
    · exact absurd h0 hsens
    · rw [hflags' j hj hle]
      rw [hlen] at hj hle
      rw [(has_continuous_error_failing c d inp hf).mp hcont j (by omega) (by omega)]
    · omega
  · intro h
    have hbit : tick_error_flag c d inp = false := by
      have := h bits.length (by omega) (by omega)
      rw [List.getElem?_append_right (le_refl _)] at this
      simpa using this
    obtain ⟨herr, hsmall, hlong⟩ := (tick_error_flag_eq_false_iff c d inp).mp hbit
    refine ⟨hsmall, hlong, Or.inr (Or.inl ⟨herr, ?_⟩)⟩
    rw [has_continuous_error_failing c d inp hf]
    intro i hi hlt
    have h1 := hflags' i (by omega) (by omega)
    rw [h i (by omega) (by omega)] at h1
    exact (Option.some.inj h1).symm

theorem raise_sets_flag (c : PalfConstants) (d : PalfDiskHangDetector) (inp : TickInput)
    (hnf : has_failure c d = false) (ht : tick_result c d inp = true) :
    tick_error_flag c d inp = true := by
  rw [tick_result_not_failing c d inp hnf] at ht
  unfold tick_error_flag
  cases hs : has_small_pending_io c d inp <;> cases he : is_perf_decrease_error c d inp <;>
    cases hl : has_long_pending_io c inp <;> simp_all

theorem failing_tick_true_of_flag (c : PalfConstants) (d : PalfDiskHangDetector)
    (inp : TickInput) (q : Nat) (hf : has_failure c d = true) (hsens : inp.sensitivity ≠ 0)
    (hage : inp.now - d.last_detect_failure_time_ ≤ c.PALF_DISK_FAILURE_TIME_UPPER_BOUND)
    (hq : q ≤ d.curr_detect_round_) (hq2 : d.curr_detect_round_ < q + c.MIN_RECOVERY_INTERVAL)
    (hflag : recorded_error_flags c d inp (q % c.MIN_RECOVERY_INTERVAL) = true) :
    tick_result c d inp = true := by
  by_contra hne
  have hfalse : tick_result c d inp = false := by simpa using hne
  obtain ⟨_, _, hdisj⟩ := (tick_result_failing_false_iff c d inp hf).mp hfalse
  rcases hdisj with h0 | ⟨_, hcont⟩ | hold
  · exact hsens h0
  · have := (has_continuous_error_failing c d inp hf).mp hcont q hq hq2
    rw [hflag] at this
    exact Bool.noConfusion this
  · omega

theorem has_failure_after_true (c : PalfConstants) (d : PalfDiskHangDetector)
    (inp : TickInput) (hf : has_failure c d = true) (ht : tick_result c d inp = true) :
    (sampled_tick c d inp).2.last_detect_failure_time_ = d.last_detect_failure_time_ ∧
      has_failure c (sampled_tick c d inp).2 = true := by
  have hl : (sampled_tick c d inp).2.last_detect_failure_time_ =
      d.last_detect_failure_time_ := by
    rw [sampled_tick_failure_time]
    simp [ht, hf]
  refine ⟨hl, ?_⟩
  unfold has_failure at hf ⊢
  rw [hl]
  exact hf

/-- While a flag set at round `q` is inside the window, a failing detector
keeps returning true on calls with a sensitivity that is not zero on a failure
that is not too old. -/
theorem stay_failing_run (c : PalfConstants) (q : Nat) :
    ∀ (rest : List TickInput) (d : PalfDiskHangDetector),
      has_failure c d = true → q < d.curr_detect_round_ →
      d.curr_detect_round_ + rest.length ≤ q + c.MIN_RECOVERY_INTERVAL →
      d.detect_error_flags_ (q % c.MIN_RECOVERY_INTERVAL) = true →
      ticks_satisfy (aged_tick c) c d rest = true →
      (feed c d rest).1 = List.replicate rest.length true := by
  intro rest
  induction rest with
  | nil =>
    intro d _ _ _ _ _
    rfl
  | cons inp rest ih =>
    intro d hf hq hlen hflag hall
    obtain ⟨hP, hrest⟩ := (ticks_satisfy_cons (aged_tick c) c d inp rest).mp hall
    obtain ⟨hs, hsens, hage⟩ := (aged_tick_iff c d inp).mp hP
    simp only [List.length_cons] at hlen
    have hne := mod_ne_of_close c.MIN_RECOVERY_INTERVAL q d.curr_detect_round_ hq (by omega)
    have hrec : recorded_error_flags c d inp (q % c.MIN_RECOVERY_INTERVAL) = true := by
      unfold recorded_error_flags
      rw [Function.update_noteq hne]
      exact hflag
    have ht := failing_tick_true_of_flag c d inp q hf hsens hage (by omega) (by omega) hrec
    obtain ⟨_, hf2⟩ := has_failure_after_true c d inp hf ht
    rw [is_clog_disk_hang_state c d inp hs] at hrest
    have hround : (sampled_tick c d inp).2.curr_detect_round_ = d.curr_detect_round_ + 1 := rfl
    have := ih (sampled_tick c d inp).2 hf2 (by omega) (by omega) hrec hrest
    rw [feed_cons, is_clog_disk_hang_value c d inp hs, is_clog_disk_hang_state c d inp hs,
      ht, this]
    rfl

theorem raise_then_failing (c : PalfConstants) (d : PalfDiskHangDetector) (inp : TickInput)
    (hnf : has_failure c d = false) (ht : tick_result c d inp = true)
    (hnow : inp.now ≠ c.OB_INVALID_TIMESTAMP) :
    has_failure c (sampled_tick c d inp).2 = true ∧
      (sampled_tick c d inp).2.detect_error_flags_
        (d.curr_detect_round_ % c.MIN_RECOVERY_INTERVAL) = true := by
  constructor
  · unfold has_failure
    rw [sampled_tick_failure_time]
    simp only [ht, Bool.true_eq_false, if_false, hnf, if_true]
    exact decide_eq_true (Ne.symm hnow)
  · have hst : (sampled_tick c d inp).2.detect_error_flags_ =
        recorded_error_flags c d inp := rfl
    rw [hst]
    unfold recorded_error_flags
    rw [Function.update_same]
    exact raise_sets_flag c d inp hnf ht

/-- C26: a completely clean window is needed to recover.  First part: on the
state that any run of calls leaves on a fresh detector, if that state is
failing, a call that samples with a sensitivity that is not zero and with
`now - last_detect_failure_time_` not above `PALF_DISK_FAILURE_TIME_UPPER_BOUND`
returns false exactly when the anomaly bits of the last
`MIN_RECOVERY_INTERVAL` rounds, the round of the call included (all the rounds
if there are fewer), are all false.  Second part: when a call on a state that
is not failing samples and returns true, at a time that is a valid timestamp,
then every one of the next calls that sample, up to
`MIN_RECOVERY_INTERVAL - 1` of them, made with a sensitivity that is not zero
on a failure that is not older than the bound, returns true. -/
theorem recovery_needs_clean_window (c : PalfConstants) :
    (∀ (hist : List TickInput) (inp : TickInput),
      samples c (feed c (PalfDiskHangDetector.construct c) hist).2 inp = true →
      has_failure c (feed c (PalfDiskHangDetector.construct c) hist).2 = true →
      inp.sensitivity ≠ 0 →
      inp.now - (feed c (PalfDiskHangDetector.construct c) hist).2.last_detect_failure_time_ ≤
        c.PALF_DISK_FAILURE_TIME_UPPER_BOUND →
      ((is_clog_disk_hang c (feed c (PalfDiskHangDetector.construct c) hist).2 inp).1 = false ↔
        ∀ b ∈ (anomaly_bits c (PalfDiskHangDetector.construct c) (hist ++ [inp])).drop
          ((anomaly_bits c (PalfDiskHangDetector.construct c) (hist ++ [inp])).length -
            c.MIN_RECOVERY_INTERVAL), b = false)) ∧
    (∀ (d : PalfDiskHangDetector) (inp : TickInput) (rest : List TickInput),
      samples c d inp = true → has_failure c d = false →
      (is_clog_disk_hang c d inp).1 = true → inp.now ≠ c.OB_INVALID_TIMESTAMP →
      rest.length < c.MIN_RECOVERY_INTERVAL →
      ticks_satisfy (aged_tick c) c (is_clog_disk_hang c d inp).2.2 rest = true →
      (feed c (is_clog_disk_hang c d inp).2.2 rest).1 = List.replicate rest.length true) := by
  constructor
  · intro hist inp hs hf hsens hage
    have hinv := ring_feed c hist (PalfDiskHangDetector.construct c) [] (ring_construct c)
    rw [List.nil_append] at hinv
    have hbits : anomaly_bits c (PalfDiskHangDetector.construct c) (hist ++ [inp]) =
        anomaly_bits c (PalfDiskHangDetector.construct c) hist ++
          [tick_error_flag c (feed c (PalfDiskHangDetector.construct c) hist).2 inp] := by
      rw [anomaly_bits_append, anomaly_bits_cons_samples c _ inp [] hs]
      rfl
    rw [hbits, is_clog_disk_hang_value c _ inp hs]
    exact failing_tick_false_iff c _ inp _ hinv hf hsens hage
  · intro d inp rest hs hnf hres hnow hlen hall
    rw [is_clog_disk_hang_value c d inp hs] at hres
    rw [is_clog_disk_hang_state c d inp hs] at hall ⊢
    obtain ⟨hf2, hflag⟩ := raise_then_failing c d inp hnf hres hnow
    have hround : (sampled_tick c d inp).2.curr_detect_round_ = d.curr_detect_round_ + 1 := rfl
    exact stay_failing_run c d.curr_detect_round_ rest (sampled_tick c d inp).2 hf2
      (by omega) (by omega) hflag hall

set_option maxRecDepth 100000 in
theorem recovery_needs_clean_window_witness :
    ((is_clog_disk_hang sample_constants
        (feed sample_constants (PalfDiskHangDetector.construct sample_constants)
          [long_pending_input]).2 later_idle_input).1 = false ↔
      ∀ b ∈ (anomaly_bits sample_constants (PalfDiskHangDetector.construct sample_constants)
          ([long_pending_input] ++ [later_idle_input])).drop
        ((anomaly_bits sample_constants (PalfDiskHangDetector.construct sample_constants)
          ([long_pending_input] ++ [later_idle_input])).length -
            sample_constants.MIN_RECOVERY_INTERVAL), b = false) ∧
    (feed sample_constants
      (is_clog_disk_hang sample_constants (PalfDiskHangDetector.construct sample_constants)
        long_pending_input).2.2 (clean_inputs.take 9)).1 =
      List.replicate (clean_inputs.take 9).length true :=
  ⟨(recovery_needs_clean_window sample_constants).1 [long_pending_input] later_idle_input
      (by decide) (by decide) (by decide) (by decide),
    (recovery_needs_clean_window sample_constants).2
      (PalfDiskHangDetector.construct sample_constants) long_pending_input
      (clean_inputs.take 9) (by decide) (by decide) (by decide) (by decide) (by decide)
      (by decide)⟩

/-! ## The scenario "recovery" -/

theorem clean_tick_iff (c : PalfConstants) (d : PalfDiskHangDetector) (inp : TickInput) :
    clean_tick c d inp = true ↔
      (samples c d inp = true ∧ inp.sensitivity ≠ 0 ∧
        inp.now - d.last_detect_failure_time_ ≤ c.PALF_DISK_FAILURE_TIME_UPPER_BOUND) ∧
      tick_error_flag c d inp = false := by
  unfold clean_tick
  rw [Bool.and_eq_true, aged_tick_iff]
  simp

/-- After an anomalous round, a failing detector returns true on clean calls
for as long as that round is inside the window. -/
theorem clean_prefix_run (c : PalfConstants) (B0 : List Bool) :
    ∀ (clean : List TickInput) (d : PalfDiskHangDetector) (k : Nat),
      has_failure c d = true → RingInv c d (B0 ++ true :: List.replicate k false) →
      k + clean.length < c.MIN_RECOVERY_INTERVAL →
      ticks_satisfy (clean_tick c) c d clean = true →
      (feed c d clean).1 = List.replicate clean.length true ∧
      has_failure c (feed c d clean).2 = true ∧
      RingInv c (feed c d clean).2 (B0 ++ true :: List.replicate (k + clean.length) false) ∧
      anomaly_bits c d clean = List.replicate clean.length false := by
  intro clean
  induction clean with
  | nil =>
    intro d k hf hinv _ _
    exact ⟨rfl, hf, hinv, rfl⟩
  | cons inp rest ih =>
    intro d k hf hinv hlen hall
    obtain ⟨hP, hrest⟩ := (ticks_satisfy_cons (clean_tick c) c d inp rest).mp hall
    obtain ⟨⟨hs, hsens, hage⟩, hbit⟩ := (clean_tick_iff c d inp).mp hP
    simp only [List.length_cons] at hlen
    have hiff := failing_tick_false_iff c d inp _ hinv hf hsens hage
    have ht : tick_result c d inp = true := by
      by_contra hne
      have hfalse : tick_result c d inp = false := by simpa using hne
      have hwin := hiff.mp hfalse
      have hmem : true ∈ ((B0 ++ true :: List.replicate k false) ++
          [tick_error_flag c d inp]).drop
            (((B0 ++ true :: List.replicate k false) ++ [tick_error_flag c d inp]).length -
              c.MIN_RECOVERY_INTERVAL) := by
        rw [List.append_assoc, List.drop_append_of_le_length
          (by simp only [List.length_append, List.length_cons, List.length_replicate,
            List.length_nil]; omega)]
        exact List.mem_append_right _ (by simp)
      exact Bool.noConfusion (hwin true hmem)
    obtain ⟨_, hf2⟩ := has_failure_after_true c d inp hf ht
    have hinv2 := ring_step c d inp _ hinv
    rw [hbit] at hinv2
    have hl : (B0 ++ true :: List.replicate k false) ++ [false] =
        B0 ++ true :: List.replicate (k + 1) false := by
      rw [List.append_assoc, List.cons_append, ← List.replicate_succ']
    rw [hl] at hinv2
    rw [is_clog_disk_hang_state c d inp hs] at hrest
    obtain ⟨r1, r2, r3, r4⟩ := ih (sampled_tick c d inp).2 (k + 1) hf2 hinv2 (by omega) hrest
    have hk : k + 1 + rest.length = k + (rest.length + 1) := by omega
    rw [hk] at r3
    rw [feed_cons, is_clog_disk_hang_value c d inp hs, is_clog_disk_hang_state c d inp hs,
      anomaly_bits_cons_samples c d inp rest hs, hbit, r4, ht, r1]
    exact ⟨rfl, r2, r3, rfl⟩

/-- From a failing state whose most recent round was anomalous, a run of
`MIN_RECOVERY_INTERVAL` clean calls: all but the last return true, the last
returns false, and the bits of the run are all false. -/
theorem recovery_run (c : PalfConstants) (d : PalfDiskHangDetector) (bits : List Bool)
    (clean : List TickInput) (hinv : RingInv c d bits) (hf : has_failure c d = true)
    (hlast : bits.getLast? = some true) (hlen : clean.length = c.MIN_RECOVERY_INTERVAL)
    (hclean : ticks_satisfy (clean_tick c) c d clean = true) :
    (feed c d clean).1 = List.replicate (c.MIN_RECOVERY_INTERVAL - 1) true ++ [false] ∧
    anomaly_bits c d clean = List.replicate c.MIN_RECOVERY_INTERVAL false := by
  have hW := c.recovery_interval_pos
  obtain ⟨B0, hB0⟩ := List.getLast?_eq_some_iff.mp hlast
  rcases List.eq_nil_or_concat clean with hnil | ⟨init, last, hcl⟩
  · rw [hnil] at hlen
    simp only [List.length_nil] at hlen
    omega
  rw [List.concat_eq_append] at hcl
  subst hcl
  have hilen : init.length = c.MIN_RECOVERY_INTERVAL - 1 := by
    simp only [List.length_append, List.length_cons, List.length_nil] at hlen
    omega
  obtain ⟨hinit, hfin⟩ := (ticks_satisfy_append (clean_tick c) c init [last] d).mp hclean
  have hinv0 : RingInv c d (B0 ++ true :: List.replicate 0 false) := by
    rw [hB0] at hinv
    exact hinv
  obtain ⟨r1, r2, r3, r4⟩ := clean_prefix_run c B0 init d 0 hf hinv0 (by omega) hinit
  obtain ⟨hP, _⟩ := (ticks_satisfy_cons (clean_tick c) c _ last []).mp hfin
  obtain ⟨⟨hs, hsens, hage⟩, hbit⟩ := (clean_tick_iff c _ last).mp hP
  have hres : tick_result c (feed c d init).2 last = false := by
    rw [failing_tick_false_iff c _ last _ r3 r2 hsens hage, hbit]
    have hl : (B0 ++ true :: List.replicate (0 + init.length) false) ++ [false] =
        (B0 ++ [true]) ++ List.replicate c.MIN_RECOVERY_INTERVAL false := by
      have hk : c.MIN_RECOVERY_INTERVAL = 0 + init.length + 1 := by omega
      rw [hk, List.replicate_succ']
      simp
    rw [hl, List.drop_left' (by
      simp only [List.length_append, List.length_cons, List.length_nil,
        List.length_replicate]
      omega)]
    intro b hb
    exact (List.mem_replicate.mp hb).2
  rw [feed_append, anomaly_bits_append, r1, r4, hilen, feed_cons,
    is_clog_disk_hang_value c _ last hs, hres,
    anomaly_bits_cons_samples c _ last [] hs, hbit]
  refine ⟨rfl, ?_⟩
  have hk : c.MIN_RECOVERY_INTERVAL = c.MIN_RECOVERY_INTERVAL - 1 + 1 := by omega
  conv_rhs => rw [hk, List.replicate_succ']
  rfl

set_option maxRecDepth 100000 in
/-- Counterexample to C27 as stated.  A fresh detector raises on a call that
finds the writer stuck, so the state is failing and its most recent round was
anomalous.  Ten clean calls follow, as many as the window of the examples has
rounds, with sensitivity 20 and a failure a few seconds old.  The first nine
return true and the tenth returns false: the tenth clean call is already the
one at which the last ten flags are all false. -/
theorem recovery_counterexample :
    has_failure sample_constants
      (feed sample_constants (PalfDiskHangDetector.construct sample_constants)
        [long_pending_input]).2 = true ∧
    (anomaly_bits sample_constants (PalfDiskHangDetector.construct sample_constants)
      [long_pending_input]).getLast? = some true ∧
    clean_inputs.length = sample_constants.MIN_RECOVERY_INTERVAL ∧
    ticks_satisfy (clean_tick sample_constants) sample_constants
      (feed sample_constants (PalfDiskHangDetector.construct sample_constants)
        [long_pending_input]).2 clean_inputs = true ∧
    (feed sample_constants
      (feed sample_constants (PalfDiskHangDetector.construct sample_constants)
        [long_pending_input]).2 clean_inputs).1 =
      [true, true, true, true, true, true, true, true, true, false] := by
  have hinv := ring_feed sample_constants [long_pending_input]
    (PalfDiskHangDetector.construct sample_constants) [] (ring_construct sample_constants)
  rw [List.nil_append] at hinv
  have hf : has_failure sample_constants
      (feed sample_constants (PalfDiskHangDetector.construct sample_constants)
        [long_pending_input]).2 = true := by decide
  have hlast : (anomaly_bits sample_constants
      (PalfDiskHangDetector.construct sample_constants)
      [long_pending_input]).getLast? = some true := by decide
  have hclean : ticks_satisfy (clean_tick sample_constants) sample_constants
      (feed sample_constants (PalfDiskHangDetector.construct sample_constants)
        [long_pending_input]).2 clean_inputs = true := by decide
  exact ⟨hf, hlast, rfl, hclean,
    (recovery_run sample_constants _ _ clean_inputs hinv hf hlast rfl hclean).1⟩

/-- C27 (amended): on the state that a run of calls leaves on a fresh
detector, if that state is failing and the most recent round was anomalous, a
run of `W = MIN_RECOVERY_INTERVAL` calls that sample with a sensitivity that is
not zero, on a failure that is not older than
`PALF_DISK_FAILURE_TIME_UPPER_BOUND`, and with every anomaly signal false,
returns true on each of the first `W - 1` calls and false on call `W`.  The
anomaly bits of the whole history then end with `W` bits false after a bit
true, so call `W` is the first one at which the last `W` anomaly flags are all
false. -/
theorem recovery_scenario (c : PalfConstants) (hist clean : List TickInput)
    (hf : has_failure c (feed c (PalfDiskHangDetector.construct c) hist).2 = true)
    (hlast : (anomaly_bits c (PalfDiskHangDetector.construct c) hist).getLast? = some true)
    (hlen : clean.length = c.MIN_RECOVERY_INTERVAL)
    (hclean : ticks_satisfy (clean_tick c) c
      (feed c (PalfDiskHangDetector.construct c) hist).2 clean = true) :
    (feed c (feed c (PalfDiskHangDetector.construct c) hist).2 clean).1 =
      List.replicate (c.MIN_RECOVERY_INTERVAL - 1) true ++ [false] ∧
    anomaly_bits c (PalfDiskHangDetector.construct c) (hist ++ clean) =
      anomaly_bits c (PalfDiskHangDetector.construct c) hist ++
        List.replicate c.MIN_RECOVERY_INTERVAL false := by
  have hinv := ring_feed c hist (PalfDiskHangDetector.construct c) [] (ring_construct c)
  rw [List.nil_append] at hinv
  obtain ⟨h1, h2⟩ := recovery_run c _ _ clean hinv hf hlast hlen hclean
  rw [anomaly_bits_append, h2]
  exact ⟨h1, rfl⟩

set_option maxRecDepth 100000 in
theorem recovery_scenario_witness :
    (feed sample_constants
      (feed sample_constants (PalfDiskHangDetector.construct sample_constants)
        [long_pending_input]).2 clean_inputs).1 =
      List.replicate (sample_constants.MIN_RECOVERY_INTERVAL - 1) true ++ [false] ∧
    anomaly_bits sample_constants (PalfDiskHangDetector.construct sample_constants)
        ([long_pending_input] ++ clean_inputs) =
      anomaly_bits sample_constants (PalfDiskHangDetector.construct sample_constants)
          [long_pending_input] ++
        List.replicate sample_constants.MIN_RECOVERY_INTERVAL false :=
  recovery_scenario sample_constants [long_pending_input] clean_inputs (by decide) (by decide)
    (by decide) (by decide)

/-! ## Registry errors in a detection step -/

theorem add_failed_state (d : ObFailureDetector) (E : FailureEvent) (op : ObFunction)
    (h : (add_failure_event_with_op d E op).1 ≠ OB_SUCCESS) :
    (add_failure_event_with_op d E op).2 = d := by
  unfold add_failure_event_with_op at h ⊢
  dsimp only at h ⊢
  split_ifs at h ⊢ with h1 h2
  · rfl
  · rfl
  · exact (h rfl).elim

theorem remove_failed_state (d : ObFailureDetector) (E : FailureEvent)
    (h : (remove_failure_event d E).1 ≠ OB_SUCCESS) : (remove_failure_event d E).2 = d := by
  unfold remove_failure_event at h ⊢
  dsimp only at h ⊢
  split_ifs at h ⊢ with h1 h2
  · rfl
  · exact (h rfl).elim
  · rfl

theorem edge_step_failed_add (F : Family) (ev : FailureEvent) (d : ObFailureDetector)
    (hl : F.latch d = false) (h : (add_failure_event d ev).1 ≠ OB_SUCCESS) :
    edge_step F true ev d = d := by
  unfold edge_step
  rw [if_pos hl, if_neg (by simp), if_pos ((ob_fail_eq_true_iff _).mpr h)]
  exact add_failed_state d ev none h

theorem edge_step_failed_remove (F : Family) (ev : FailureEvent) (d : ObFailureDetector)
    (hl : F.latch d = true) (h : (remove_failure_event d ev).1 ≠ OB_SUCCESS) :
    edge_step F false ev d = d := by
  unfold edge_step
  rw [if_neg (by simp [hl]), if_neg (by simp), if_pos ((ob_fail_eq_true_iff _).mpr h)]
  exact remove_failed_state d ev h

theorem detect_step_not_running (F : Family) (d : ObFailureDetector) (p : Probes)
    (hrun : d.is_running_ = false) : detect_step F d p = d := by
  rw [detect_step_eq]
  split
  · rfl
  · have hadd : (add_failure_event d (F.event p)).1 ≠ OB_SUCCESS := by
      rw [add_failure_event_eq, add_ret, if_neg (by simp [hrun])]
      decide
    have hrem : (remove_failure_event d (F.event p)).1 ≠ OB_SUCCESS := by
      rw [remove_ret, if_neg (by simp [hrun])]
      decide
    cases hl : F.latch d <;> cases hf : F.fault p
    · exact edge_step_no_edge F false _ d hl
    · exact edge_step_failed_add F _ d hl hadd
    · exact edge_step_failed_remove F _ d hl hrem
    · exact edge_step_no_edge F true _ d hl

/-- C31: in the detection step of any family whose probe has answered.  On a
rising edge (latch false, fault reported), when `add_failure_event` fails with
a code other than `OB_ENTRY_EXIST`, and on a falling edge (latch true, no fault
reported), when `remove_failure_event` fails with a code other than
`OB_ENTRY_NOT_EXIST`, the code is `OB_NOT_RUNNING` and the step hands back the
detector exactly as it was: the latch is not flipped and the active list is
unchanged, so the same edge is there for the next run of the loop.  In
particular every step is the identity while the registry is not running. -/
theorem registry_error_keeps_latch (F : Family) (d : ObFailureDetector) (p : Probes) :
    (F.probe_failed p = false → F.latch d = false → F.fault p = true →
      (add_failure_event d (F.event p)).1 ≠ OB_SUCCESS →
      (add_failure_event d (F.event p)).1 ≠ OB_ENTRY_EXIST →
      (add_failure_event d (F.event p)).1 = OB_NOT_RUNNING ∧ detect_step F d p = d ∧
        F.latch (detect_step F d p) = false ∧
        (detect_step F d p).events_with_ops_ = d.events_with_ops_) ∧
    (F.probe_failed p = false → F.latch d = true → F.fault p = false →
      (remove_failure_event d (F.event p)).1 ≠ OB_SUCCESS →
      (remove_failure_event d (F.event p)).1 ≠ OB_ENTRY_NOT_EXIST →
      (remove_failure_event d (F.event p)).1 = OB_NOT_RUNNING ∧ detect_step F d p = d ∧
        F.latch (detect_step F d p) = true ∧
        (detect_step F d p).events_with_ops_ = d.events_with_ops_) ∧
    (d.is_running_ = false → detect_step F d p = d) := by
  refine ⟨?_, ?_, detect_step_not_running F d p⟩
  · intro hprobe hl hf h1 h2
    have hstep : detect_step F d p = d := by
      rw [detect_step_eq, if_neg (by simp [hprobe]), hf]
      exact edge_step_failed_add F _ d hl h1
    refine ⟨?_, hstep, by rw [hstep]; exact hl, by rw [hstep]⟩
    rw [add_failure_event_eq, add_ret] at h1 h2 ⊢
    split_ifs at h1 h2 ⊢ with hr hk
    · exact (h2 rfl).elim
    · exact (h1 rfl).elim
    · rfl
  · intro hprobe hl hf h1 h2
    have hstep : detect_step F d p = d := by
      rw [detect_step_eq, if_neg (by simp [hprobe]), hf]
      exact edge_step_failed_remove F _ d hl h1
    refine ⟨?_, hstep, by rw [hstep]; exact hl, by rw [hstep]⟩
    rw [remove_ret] at h1 h2 ⊢
    split_ifs at h1 h2 ⊢ with hr hk
    · exact (h1 rfl).elim
    · exact (h2 rfl).elim
    · rfl

theorem registry_error_keeps_latch_witness :
    ((add_failure_event half_started_detector (Family.event full_disk_probes
        Family.clog_full)).1 = OB_NOT_RUNNING ∧
      detect_step Family.clog_full half_started_detector full_disk_probes =
        half_started_detector ∧
      Family.latch (detect_step Family.clog_full half_started_detector full_disk_probes)
        Family.clog_full = false ∧
      (detect_step Family.clog_full half_started_detector full_disk_probes).events_with_ops_ =
        half_started_detector.events_with_ops_) ∧
    ((remove_failure_event clog_full_not_running (Family.event healthy_probes
        Family.clog_full)).1 = OB_NOT_RUNNING ∧
      detect_step Family.clog_full clog_full_not_running healthy_probes =
        clog_full_not_running ∧
      Family.latch (detect_step Family.clog_full clog_full_not_running healthy_probes)
        Family.clog_full = true ∧
      (detect_step Family.clog_full clog_full_not_running healthy_probes).events_with_ops_ =
        clog_full_not_running.events_with_ops_) ∧
    detect_step Family.clog_full clog_full_not_running full_disk_probes =
      clog_full_not_running :=
  ⟨(registry_error_keeps_latch Family.clog_full half_started_detector full_disk_probes).1
      (by decide) (by decide) (by decide) (by decide) (by decide),
    (registry_error_keeps_latch Family.clog_full clog_full_not_running healthy_probes).2.1
      (by decide) (by decide) (by decide) (by decide) (by decide),
    (registry_error_keeps_latch Family.clog_full clog_full_not_running full_disk_probes).2.2
      (by decide)⟩

/-! ## The value returned and the stored failure time -/

/-- C35: after every call of `is_clog_disk_hang` made at a time that is a
valid timestamp, whether it samples, is rate limited or fails to read the
statistics, the value returned is true exactly when `last_detect_failure_time_`
is not `OB_INVALID_TIMESTAMP` afterwards; so the `has_failure` that the next
call reads is the value that this call returned. -/
theorem return_value_is_latch (c : PalfConstants) (d : PalfDiskHangDetector) (inp : TickInput)
    (hnow : inp.now ≠ c.OB_INVALID_TIMESTAMP) :
    ((is_clog_disk_hang c d inp).1 = true ↔
      (is_clog_disk_hang c d inp).2.2.last_detect_failure_time_ ≠ c.OB_INVALID_TIMESTAMP) ∧
    has_failure c (is_clog_disk_hang c d inp).2.2 = (is_clog_disk_hang c d inp).1 := by
  have key : has_failure c (is_clog_disk_hang c d inp).2.2 = (is_clog_disk_hang c d inp).1 := by
    by_cases hs : samples c d inp = true
    · rw [is_clog_disk_hang_state c d inp hs, is_clog_disk_hang_value c d inp hs]
      cases ht : tick_result c d inp
      · exact has_failure_after_false c d inp ht
      · cases hf : has_failure c d
        · exact (raise_then_failing c d inp hf ht hnow).1
        · exact (has_failure_after_true c d inp hf ht).2
    · have hs2 : samples c d inp = false := by simpa using hs
      rw [is_clog_disk_hang_of_not_samples c d inp hs2]
  refine ⟨?_, key⟩
  rw [← key]
  unfold has_failure
  rw [decide_eq_true_iff]
  exact ⟨fun h => Ne.symm h, fun h => Ne.symm h⟩

theorem return_value_is_latch_witness :
    ((is_clog_disk_hang sample_constants (PalfDiskHangDetector.construct sample_constants)
        long_pending_input).1 = true ↔
      (is_clog_disk_hang sample_constants (PalfDiskHangDetector.construct sample_constants)
        long_pending_input).2.2.last_detect_failure_time_ ≠
          sample_constants.OB_INVALID_TIMESTAMP) ∧
    has_failure sample_constants
      (is_clog_disk_hang sample_constants (PalfDiskHangDetector.construct sample_constants)
        long_pending_input).2.2 =
      (is_clog_disk_hang sample_constants (PalfDiskHangDetector.construct sample_constants)
        long_pending_input).1 :=
  return_value_is_latch sample_constants (PalfDiskHangDetector.construct sample_constants)
    long_pending_input (by decide)

/-! ## Recovery at sensitivity zero -/

/-- C34: on a call that samples from a failing state at sensitivity zero, with
a write size of the tick and a pending write size that are not negative,
`is_perf_decrease_error` and `has_small_pending_io` are false, and the call
returns false, clearing the failure, exactly when `has_long_pending_io` is
false. -/
theorem sensitivity_zero_recovers (c : PalfConstants) (d : PalfDiskHangDetector)
    (inp : TickInput) (hs : samples c d inp = true) (hf : has_failure c d = true)
    (hsens : inp.sensitivity = 0) (hsize : 0 ≤ this_write_size d inp)
    (hpend : 0 ≤ inp.pending_write_size) :
    is_perf_decrease_error c d inp = false ∧ has_small_pending_io c d inp = false ∧
    ((is_clog_disk_hang c d inp).1 = false ↔ has_long_pending_io c inp = false) ∧
    ((is_clog_disk_hang c d inp).1 = false →
      (is_clog_disk_hang c d inp).2.2.last_detect_failure_time_ = c.OB_INVALID_TIMESTAMP) := by
  have herr := is_perf_decrease_error_sensitivity_zero c d inp hsens hsize
  have hsmall := has_small_pending_io_sensitivity_zero c d inp hsens hsize hpend
  refine ⟨herr, hsmall, ?_, ?_⟩
  · rw [is_clog_disk_hang_value c d inp hs, tick_result_failing_false_iff c d inp hf]
    constructor
    · intro h
      exact h.2.1
    · intro h
      exact ⟨hsmall, h, Or.inl hsens⟩
  · intro h
    rw [is_clog_disk_hang_value c d inp hs] at h
    rw [is_clog_disk_hang_state c d inp hs, sampled_tick_failure_time, if_pos h]

theorem sensitivity_zero_recovers_witness :
    is_perf_decrease_error sample_constants raised_by_long_pending
      later_idle_insensitive_input = false ∧
    has_small_pending_io sample_constants raised_by_long_pending
      later_idle_insensitive_input = false ∧
    ((is_clog_disk_hang sample_constants raised_by_long_pending
        later_idle_insensitive_input).1 = false ↔
      has_long_pending_io sample_constants later_idle_insensitive_input = false) ∧
    ((is_clog_disk_hang sample_constants raised_by_long_pending
        later_idle_insensitive_input).1 = false →
      (is_clog_disk_hang sample_constants raised_by_long_pending
        later_idle_insensitive_input).2.2.last_detect_failure_time_ =
          sample_constants.OB_INVALID_TIMESTAMP) :=
  sensitivity_zero_recovers sample_constants raised_by_long_pending
    later_idle_insensitive_input (by decide) raised_by_long_pending_failing (by decide)
    (by decide) (by decide)

/-! ## The two flags of the first scan -/

theorem bw_error_ratio_le_warn (inp : TickInput) : bw_error_ratio inp ≤ bw_warn_ratio := by
  unfold bw_error_ratio bw_warn_ratio
  exact min_le_left _ _

theorem perf_decrease_scan_error_warn (d : PalfDiskHangDetector)
    (warn_ratio error_ratio avg_rt avg_bw : ℚ) (hr : error_ratio ≤ warn_ratio) :
    ∀ (n : Nat) (flags : Bool × Bool), (flags.2 = true → flags.1 = true) →
      (perf_decrease_scan d warn_ratio error_ratio avg_rt avg_bw n flags).2 = true →
      (perf_decrease_scan d warn_ratio error_ratio avg_rt avg_bw n flags).1 = true := by
  intro n
  induction n with
  | zero =>
    intro flags h
    exact h
  | succ n ih =>
    intro flags h
    unfold perf_decrease_scan
    have hstep :
        (if flags.2 = false ∧ d.learn_avg_rt_ n > 0 ∧ d.learn_avg_rt_ n < avg_rt ∧
            d.learn_avg_bw_ n > 0 ∧ d.learn_avg_bw_ n * error_ratio > avg_bw then true
          else flags.2) = true →
        (if flags.1 = false ∧ d.learn_avg_rt_ n > 0 ∧ d.learn_avg_rt_ n < avg_rt ∧
            d.learn_avg_bw_ n > 0 ∧ d.learn_avg_bw_ n * warn_ratio > avg_bw then true
          else flags.1) = true := by
      intro he
      by_cases h1 : flags.1 = true
      · split
        · rfl
        · exact h1
      · have h1f : flags.1 = false := by simpa using h1
        have h2f : flags.2 = false := by
          cases h2 : flags.2
          · rfl
          · exact absurd (h h2) h1
        split at he
        · rename_i hc
          obtain ⟨_, hrt, hrt2, hbw, hgt⟩ := hc
          have hle : d.learn_avg_bw_ n * error_ratio ≤ d.learn_avg_bw_ n * warn_ratio :=
            mul_le_mul_of_nonneg_left hr (le_of_lt hbw)
          rw [if_pos ⟨h1f, hrt, hrt2, hbw, lt_of_lt_of_le hgt hle⟩]
        · rw [h2f] at he
          exact Bool.noConfusion he
    dsimp only
    by_cases he : (if flags.2 = false ∧ d.learn_avg_rt_ n > 0 ∧ d.learn_avg_rt_ n < avg_rt ∧
        d.learn_avg_bw_ n > 0 ∧ d.learn_avg_bw_ n * error_ratio > avg_bw then true
      else flags.2) = true
    · rw [if_pos he]
      intro _
      exact hstep he
    · rw [if_neg he]
      exact ih _ hstep

/-- C36: on every call, for every learned table and every sensitivity, when
`is_perf_decrease_error` is set by the first scan, `is_perf_decrease_warn` is
set as well, because `bw_error_ratio` is at most `bw_warn_ratio` and the
bandwidth of the slot tested is positive; the call then does not learn. -/
theorem error_flag_implies_warn_flag (c : PalfConstants) (d : PalfDiskHangDetector)
    (inp : TickInput) (h : is_perf_decrease_error c d inp = true) :
    is_perf_decrease_warn c d inp = true ∧ learns c d inp = false ∧
      bw_error_ratio inp ≤ bw_warn_ratio := by
  have hw : is_perf_decrease_warn c d inp = true := by
    unfold is_perf_decrease_error at h
    unfold is_perf_decrease_warn
    unfold perf_decrease at h ⊢
    split at h
    · rename_i hc
      rw [if_pos hc]
      exact perf_decrease_scan_error_warn d _ _ _ _ (bw_error_ratio_le_warn inp) _ _
        (fun hx => Bool.noConfusion hx) h
    · exact Bool.noConfusion h
  refine ⟨hw, ?_, bw_error_ratio_le_warn inp⟩
  simp [learns, hw]

set_option maxRecDepth 100000 in
theorem slow_write_is_error :
    is_perf_decrease_error sample_constants learned_slot_zero slow_write_input = true := by
  decide!

theorem error_flag_implies_warn_flag_witness :
    is_perf_decrease_warn sample_constants learned_slot_zero slow_write_input = true ∧
    learns sample_constants learned_slot_zero slow_write_input = false ∧
    bw_error_ratio slow_write_input ≤ bw_warn_ratio :=
  error_flag_implies_warn_flag sample_constants learned_slot_zero slow_write_input
    slow_write_is_error

/-! ## The smallest bucket -/

theorem size_to_learn_idx_small (c : PalfConstants) (x : ℚ) (h : x ≤ c.MIN_WRITE_SIZE) :
    size_to_learn_idx_ c x = 0 := by
  unfold size_to_learn_idx_
  rw [if_pos h]

/-- C37: a size that is not above `MIN_WRITE_SIZE` maps to slot 0.  On every
call whose `this_avg_size` maps to slot 0, and on every call with
`this_write_count <= 0`, `is_perf_decrease_warn` and `is_perf_decrease_error`
are both false, whatever the learned table holds and however low
`this_avg_bw` is.  On every call whose `pending_avg_size` maps to slot 0,
`has_small_pending_io` is false. -/
theorem smallest_bucket_never_collapses (c : PalfConstants) (d : PalfDiskHangDetector)
    (inp : TickInput) :
    (∀ x : ℚ, x ≤ c.MIN_WRITE_SIZE → size_to_learn_idx_ c x = 0) ∧
    (size_to_learn_idx_ c (this_avg_size d inp) = 0 ∨ this_write_count d inp ≤ 0 →
      is_perf_decrease_warn c d inp = false ∧ is_perf_decrease_error c d inp = false) ∧
    (size_to_learn_idx_ c (pending_avg_size inp) = 0 → has_small_pending_io c d inp = false) := by
  refine ⟨size_to_learn_idx_small c, ?_, ?_⟩
  · intro h
    have hp : perf_decrease c d inp = (false, false) := by
      unfold perf_decrease
      rcases h with h | h
      · rw [h]
        split <;> rfl
      · rw [if_neg (by omega)]
    unfold is_perf_decrease_warn is_perf_decrease_error
    rw [hp]
    exact ⟨rfl, rfl⟩
  · intro h
    unfold has_small_pending_io
    rw [h]
    split <;> rfl

theorem smallest_bucket_never_collapses_witness :
    (is_perf_decrease_warn sample_constants learned_slot_zero small_slow_input = false ∧
      is_perf_decrease_error sample_constants learned_slot_zero small_slow_input = false) ∧
    has_small_pending_io sample_constants learned_slot_zero small_slow_input = false :=
  ⟨(smallest_bucket_never_collapses sample_constants learned_slot_zero small_slow_input).2.1
      (Or.inl (size_to_learn_idx_small sample_constants _
        (by norm_num [this_avg_size, this_write_size, this_write_count, small_slow_input,
          idle_input, learned_slot_zero, PalfDiskHangDetector.construct, sample_constants]))),
    (smallest_bucket_never_collapses sample_constants learned_slot_zero small_slow_input).2.2
      (size_to_learn_idx_small sample_constants _
        (by norm_num [pending_avg_size, small_slow_input, idle_input, sample_constants]))⟩

/-! ## The update of the learned table -/

theorem cube_le_one : ((1 : ℚ) - 1 / 2 ^ 53) ^ 3 ≤ 1 := by norm_num

theorem one_le_cube : (1 : ℚ) ≤ (1 + 1 / 2 ^ 53) ^ 3 := by norm_num

theorem cube_nonneg : (0 : ℚ) ≤ (1 - 1 / 2 ^ 53) ^ 3 := by norm_num

theorem cube_nonneg_up : (0 : ℚ) ≤ (1 + 1 / 2 ^ 53) ^ 3 := by norm_num

/-- The rounded update lies between the old value and the sample up to three
roundings. -/
theorem learn_update_between (sample old : ℚ) (hs : 0 ≤ sample) (ho : 0 ≤ old) :
    (1 - 1 / 2 ^ 53) ^ 3 * min old sample ≤ learn_update sample old ∧
    learn_update sample old ≤ (1 + 1 / 2 ^ 53) ^ 3 * max old sample := by
  obtain ⟨h1, h2⟩ := learn_update_bounds sample old hs ho
  have hmin : min old sample ≤ (1 / 10) * sample + (9 / 10) * old := by
    have a := min_le_left old sample
    have b := min_le_right old sample
    linarith
  have hmax : (1 / 10) * sample + (9 / 10) * old ≤ max old sample := by
    have a := le_max_left old sample
    have b := le_max_right old sample
    linarith
  exact ⟨le_trans (mul_le_mul_of_nonneg_left hmin cube_nonneg) h1,
    le_trans h2 (mul_le_mul_of_nonneg_left hmax cube_nonneg_up)⟩

theorem sampled_learn_arrays (c : PalfConstants) (d : PalfDiskHangDetector) (inp : TickInput)
    (hs : samples c d inp = true) :
    (is_clog_disk_hang c d inp).2.2.learn_avg_bw_ = learned_bw c d inp ∧
    (is_clog_disk_hang c d inp).2.2.learn_avg_rt_ = learned_rt c d inp := by
  rw [is_clog_disk_hang_state c d inp hs]
  exact ⟨rfl, rfl⟩

theorem learned_slot_uninit (c : PalfConstants) (d : PalfDiskHangDetector) (inp : TickInput)
    (hl : learns c d inp = true)
    (h : d.learn_avg_bw_ (size_to_learn_idx_ c (this_avg_size d inp)) ≤ 0 ∨
      d.learn_avg_rt_ (size_to_learn_idx_ c (this_avg_size d inp)) ≤ 0) :
    learned_bw c d inp (size_to_learn_idx_ c (this_avg_size d inp)) = this_avg_bw d inp ∧
    learned_rt c d inp (size_to_learn_idx_ c (this_avg_size d inp)) = this_avg_rt d inp := by
  unfold learned_bw learned_rt
  simp only [hl, if_true]
  rw [if_pos h, if_pos h, Function.update_same, Function.update_same]
  exact ⟨rfl, rfl⟩

theorem learned_slot_init (c : PalfConstants) (d : PalfDiskHangDetector) (inp : TickInput)
    (hl : learns c d inp = true)
    (h : ¬ (d.learn_avg_bw_ (size_to_learn_idx_ c (this_avg_size d inp)) ≤ 0 ∨
      d.learn_avg_rt_ (size_to_learn_idx_ c (this_avg_size d inp)) ≤ 0)) :
    learned_bw c d inp (size_to_learn_idx_ c (this_avg_size d inp)) =
      learn_update (this_avg_bw d inp)
        (d.learn_avg_bw_ (size_to_learn_idx_ c (this_avg_size d inp))) ∧
    learned_rt c d inp (size_to_learn_idx_ c (this_avg_size d inp)) =
      learn_update (this_avg_rt d inp)
        (d.learn_avg_rt_ (size_to_learn_idx_ c (this_avg_size d inp))) := by
  unfold learned_bw learned_rt
  simp only [hl, if_true]
  rw [if_neg h, if_neg h, Function.update_same, Function.update_same]
  exact ⟨rfl, rfl⟩

set_option maxRecDepth 1000000 in
/-- Counterexample to C33 as stated.  With the constants of the examples, a
fresh detector is given two healthy calls one second apart, each with
100000000003 bytes, 33554432 writes and 64 microseconds of latency counted
since the sample before.  Both calls sample and learn, and both have the same
sample: bandwidth 1562500000046875 (the products and the quotient of
`this_size * 1000 * 1000 / this_rt` are exact in `double`) and latency
`1 / 524288`.  The first call stores the sample in the slot, so the slot is
initialized and holds the sample.  In the second call `9 * old` is rounded to
14062500000421876 and the sum to 15625000000468752, so the slot gets bandwidth
`6250000000187501 / 4`, a quarter more than the sample: the value is not the
sample, and it does not lie between the old value and the sample. -/
theorem learned_table_counterexample :
    (samples sample_constants (PalfDiskHangDetector.construct sample_constants)
        drift_first_input = true ∧
      learns sample_constants (PalfDiskHangDetector.construct sample_constants)
        drift_first_input = true ∧
      samples sample_constants drift_once drift_second_input = true ∧
      learns sample_constants drift_once drift_second_input = true) ∧
    (this_avg_bw (PalfDiskHangDetector.construct sample_constants) drift_first_input =
        1562500000046875 ∧
      this_avg_rt (PalfDiskHangDetector.construct sample_constants) drift_first_input =
        1 / 524288 ∧
      this_avg_bw drift_once drift_second_input = 1562500000046875 ∧
      this_avg_rt drift_once drift_second_input = 1 / 524288) ∧
    (drift_once.learn_avg_bw_
        (size_to_learn_idx_ sample_constants (this_avg_size drift_once drift_second_input)) =
        1562500000046875 ∧
      drift_once.learn_avg_rt_
        (size_to_learn_idx_ sample_constants (this_avg_size drift_once drift_second_input)) =
        1 / 524288) ∧
    (round_to_double (9 * 1562500000046875) = 14062500000421876 ∧
      round_to_double (1562500000046875 + 14062500000421876) = 15625000000468752 ∧
      round_to_double (15625000000468752 / 10) = 6250000000187501 / 4) ∧
    ((is_clog_disk_hang sample_constants drift_once drift_second_input).2.2.learn_avg_bw_
        (size_to_learn_idx_ sample_constants (this_avg_size drift_once drift_second_input)) =
        6250000000187501 / 4 ∧
      (is_clog_disk_hang sample_constants drift_once drift_second_input).2.2.learn_avg_bw_
        (size_to_learn_idx_ sample_constants (this_avg_size drift_once drift_second_input)) ≠
        this_avg_bw drift_once drift_second_input ∧
      max (drift_once.learn_avg_bw_
          (size_to_learn_idx_ sample_constants (this_avg_size drift_once drift_second_input)))
          (this_avg_bw drift_once drift_second_input) <
        (is_clog_disk_hang sample_constants drift_once drift_second_input).2.2.learn_avg_bw_
          (size_to_learn_idx_ sample_constants
            (this_avg_size drift_once drift_second_input))) := by
  refine ⟨⟨?_, ?_, ?_, ?_⟩, ⟨?_, ?_, ?_, ?_⟩, ⟨?_, ?_⟩, ⟨?_, ?_, ?_⟩, ⟨?_, ?_, ?_⟩⟩ <;> decide!

/-- C33 (amended): on a call that samples and learns (the four anomaly flags
and `has_failure` are false), with `s = size_to_learn_idx_(this_avg_size)`.
When `learn_avg_bw_[s] <= 0` or `learn_avg_rt_[s] <= 0`, the slot becomes
exactly `(this_avg_bw, this_avg_rt)`.  Otherwise each component becomes
`(sample + 9 * old) / 10` as `double` arithmetic evaluates it, the product,
the sum and the quotient each rounded to nearest; for a sample that is not
negative that value is `0.1 * sample + 0.9 * old` up to a factor between
`(1 - 2^-53)^3` and `(1 + 2^-53)^3`, and it lies between the old value and the
sample up to the same factors.  Hence a slot that holds the sample, when it is
given that sample again, holds the sample up to these factors afterwards. -/
theorem learned_table_update (c : PalfConstants) (d : PalfDiskHangDetector) (inp : TickInput)
    (hs : samples c d inp = true) (hl : learns c d inp = true) :
    ((d.learn_avg_bw_ (size_to_learn_idx_ c (this_avg_size d inp)) ≤ 0 ∨
        d.learn_avg_rt_ (size_to_learn_idx_ c (this_avg_size d inp)) ≤ 0) →
      (is_clog_disk_hang c d inp).2.2.learn_avg_bw_
          (size_to_learn_idx_ c (this_avg_size d inp)) = this_avg_bw d inp ∧
      (is_clog_disk_hang c d inp).2.2.learn_avg_rt_
          (size_to_learn_idx_ c (this_avg_size d inp)) = this_avg_rt d inp) ∧
    (¬ (d.learn_avg_bw_ (size_to_learn_idx_ c (this_avg_size d inp)) ≤ 0 ∨
        d.learn_avg_rt_ (size_to_learn_idx_ c (this_avg_size d inp)) ≤ 0) →
      (is_clog_disk_hang c d inp).2.2.learn_avg_bw_
          (size_to_learn_idx_ c (this_avg_size d inp)) =
        round_to_double (round_to_double (this_avg_bw d inp +
          round_to_double (9 * d.learn_avg_bw_
            (size_to_learn_idx_ c (this_avg_size d inp)))) / 10) ∧
      (is_clog_disk_hang c d inp).2.2.learn_avg_rt_
          (size_to_learn_idx_ c (this_avg_size d inp)) =
        round_to_double (round_to_double (this_avg_rt d inp +
          round_to_double (9 * d.learn_avg_rt_
            (size_to_learn_idx_ c (this_avg_size d inp)))) / 10) ∧
      (0 ≤ this_avg_bw d inp →
        (1 - 1 / 2 ^ 53) ^ 3 * ((1 / 10) * this_avg_bw d inp +
            (9 / 10) * d.learn_avg_bw_ (size_to_learn_idx_ c (this_avg_size d inp))) ≤
          (is_clog_disk_hang c d inp).2.2.learn_avg_bw_
            (size_to_learn_idx_ c (this_avg_size d inp)) ∧
        (is_clog_disk_hang c d inp).2.2.learn_avg_bw_
            (size_to_learn_idx_ c (this_avg_size d inp)) ≤
          (1 + 1 / 2 ^ 53) ^ 3 * ((1 / 10) * this_avg_bw d inp +
            (9 / 10) * d.learn_avg_bw_ (size_to_learn_idx_ c (this_avg_size d inp))) ∧
        (1 - 1 / 2 ^ 53) ^ 3 *
            min (d.learn_avg_bw_ (size_to_learn_idx_ c (this_avg_size d inp)))
              (this_avg_bw d inp) ≤
          (is_clog_disk_hang c d inp).2.2.learn_avg_bw_
            (size_to_learn_idx_ c (this_avg_size d inp)) ∧
        (is_clog_disk_hang c d inp).2.2.learn_avg_bw_
            (size_to_learn_idx_ c (this_avg_size d inp)) ≤
          (1 + 1 / 2 ^ 53) ^ 3 *
            max (d.learn_avg_bw_ (size_to_learn_idx_ c (this_avg_size d inp)))
              (this_avg_bw d inp)) ∧
      (0 ≤ this_avg_rt d inp →
        (1 - 1 / 2 ^ 53) ^ 3 * ((1 / 10) * this_avg_rt d inp +
            (9 / 10) * d.learn_avg_rt_ (size_to_learn_idx_ c (this_avg_size d inp))) ≤
          (is_clog_disk_hang c d inp).2.2.learn_avg_rt_
            (size_to_learn_idx_ c (this_avg_size d inp)) ∧
        (is_clog_disk_hang c d inp).2.2.learn_avg_rt_
            (size_to_learn_idx_ c (this_avg_size d inp)) ≤
          (1 + 1 / 2 ^ 53) ^ 3 * ((1 / 10) * this_avg_rt d inp +
            (9 / 10) * d.learn_avg_rt_ (size_to_learn_idx_ c (this_avg_size d inp))) ∧
        (1 - 1 / 2 ^ 53) ^ 3 *
            min (d.learn_avg_rt_ (size_to_learn_idx_ c (this_avg_size d inp)))
              (this_avg_rt d inp) ≤
          (is_clog_disk_hang c d inp).2.2.learn_avg_rt_
            (size_to_learn_idx_ c (this_avg_size d inp)) ∧
        (is_clog_disk_hang c d inp).2.2.learn_avg_rt_
            (size_to_learn_idx_ c (this_avg_size d inp)) ≤
          (1 + 1 / 2 ^ 53) ^ 3 *
            max (d.learn_avg_rt_ (size_to_learn_idx_ c (this_avg_size d inp)))
              (this_avg_rt d inp))) ∧
    (0 ≤ this_avg_bw d inp → 0 ≤ this_avg_rt d inp →
      d.learn_avg_bw_ (size_to_learn_idx_ c (this_avg_size d inp)) = this_avg_bw d inp →
      d.learn_avg_rt_ (size_to_learn_idx_ c (this_avg_size d inp)) = this_avg_rt d inp →
      (1 - 1 / 2 ^ 53) ^ 3 * this_avg_bw d inp ≤
        (is_clog_disk_hang c d inp).2.2.learn_avg_bw_
          (size_to_learn_idx_ c (this_avg_size d inp)) ∧
      (is_clog_disk_hang c d inp).2.2.learn_avg_bw_
          (size_to_learn_idx_ c (this_avg_size d inp)) ≤
        (1 + 1 / 2 ^ 53) ^ 3 * this_avg_bw d inp ∧
      (1 - 1 / 2 ^ 53) ^ 3 * this_avg_rt d inp ≤
        (is_clog_disk_hang c d inp).2.2.learn_avg_rt_
          (size_to_learn_idx_ c (this_avg_size d inp)) ∧
      (is_clog_disk_hang c d inp).2.2.learn_avg_rt_
          (size_to_learn_idx_ c (this_avg_size d inp)) ≤
        (1 + 1 / 2 ^ 53) ^ 3 * this_avg_rt d inp) := by
  obtain ⟨hb, hr⟩ := sampled_learn_arrays c d inp hs
  rw [hb, hr]
  refine ⟨learned_slot_uninit c d inp hl, ?_, ?_⟩
  · intro h
    obtain ⟨e1, e2⟩ := learned_slot_init c d inp hl h
    have hob : 0 ≤ d.learn_avg_bw_ (size_to_learn_idx_ c (this_avg_size d inp)) := by
      by_contra hn
      exact h (Or.inl (le_of_lt (not_le.mp hn)))
    have hor : 0 ≤ d.learn_avg_rt_ (size_to_learn_idx_ c (this_avg_size d inp)) := by
      by_contra hn
      exact h (Or.inr (le_of_lt (not_le.mp hn)))
    rw [e1, e2]
    refine ⟨rfl, rfl, ?_, ?_⟩
    · intro hsb
      obtain ⟨a1, a2⟩ := learn_update_bounds _ _ hsb hob
      obtain ⟨a3, a4⟩ := learn_update_between _ _ hsb hob
      exact ⟨a1, a2, a3, a4⟩
    · intro hsr
      obtain ⟨a1, a2⟩ := learn_update_bounds _ _ hsr hor
      obtain ⟨a3, a4⟩ := learn_update_between _ _ hsr hor
      exact ⟨a1, a2, a3, a4⟩
  · intro hsb hsr hb1 hr1
    by_cases h : d.learn_avg_bw_ (size_to_learn_idx_ c (this_avg_size d inp)) ≤ 0 ∨
        d.learn_avg_rt_ (size_to_learn_idx_ c (this_avg_size d inp)) ≤ 0
    · obtain ⟨e1, e2⟩ := learned_slot_uninit c d inp hl h
      rw [e1, e2]
      refine ⟨?_, ?_, ?_, ?_⟩
      · exact mul_le_of_le_one_left hsb cube_le_one
      · exact le_mul_of_one_le_left hsb one_le_cube
      · exact mul_le_of_le_one_left hsr cube_le_one
      · exact le_mul_of_one_le_left hsr one_le_cube
    · obtain ⟨e1, e2⟩ := learned_slot_init c d inp hl h
      rw [e1, e2, hb1, hr1]
      obtain ⟨a1, a2⟩ := learn_update_bounds _ _ hsb hsb
      obtain ⟨a3, a4⟩ := learn_update_bounds _ _ hsr hsr
      have eb : (1 / 10) * this_avg_bw d inp + (9 / 10) * this_avg_bw d inp =
          this_avg_bw d inp := by ring
      have er : (1 / 10) * this_avg_rt d inp + (9 / 10) * this_avg_rt d inp =
          this_avg_rt d inp := by ring
      rw [eb] at a1 a2
      rw [er] at a3 a4
      exact ⟨a1, a2, a3, a4⟩

set_option maxRecDepth 1000000 in
theorem learned_table_update_witness :
    ((is_clog_disk_hang sample_constants (PalfDiskHangDetector.construct sample_constants)
        healthy_input).2.2.learn_avg_bw_
        (size_to_learn_idx_ sample_constants
          (this_avg_size (PalfDiskHangDetector.construct sample_constants) healthy_input)) =
        this_avg_bw (PalfDiskHangDetector.construct sample_constants) healthy_input ∧
      (is_clog_disk_hang sample_constants (PalfDiskHangDetector.construct sample_constants)
        healthy_input).2.2.learn_avg_rt_
        (size_to_learn_idx_ sample_constants
          (this_avg_size (PalfDiskHangDetector.construct sample_constants) healthy_input)) =
        this_avg_rt (PalfDiskHangDetector.construct sample_constants) healthy_input) ∧
    ((is_clog_disk_hang sample_constants healthy_once faster_input).2.2.learn_avg_bw_
        (size_to_learn_idx_ sample_constants (this_avg_size healthy_once faster_input)) =
      round_to_double (round_to_double (this_avg_bw healthy_once faster_input +
        round_to_double (9 * healthy_once.learn_avg_bw_
          (size_to_learn_idx_ sample_constants
            (this_avg_size healthy_once faster_input)))) / 10)) ∧
    ((1 - 1 / 2 ^ 53) ^ 3 * this_avg_bw drift_once drift_second_input ≤
        (is_clog_disk_hang sample_constants drift_once drift_second_input).2.2.learn_avg_bw_
          (size_to_learn_idx_ sample_constants
            (this_avg_size drift_once drift_second_input)) ∧
      (is_clog_disk_hang sample_constants drift_once drift_second_input).2.2.learn_avg_bw_
          (size_to_learn_idx_ sample_constants
            (this_avg_size drift_once drift_second_input)) ≤
        (1 + 1 / 2 ^ 53) ^ 3 * this_avg_bw drift_once drift_second_input) :=
  ⟨(learned_table_update sample_constants (PalfDiskHangDetector.construct sample_constants)
      healthy_input (by decide) (by decide!)).1 (Or.inl (by decide!)),
    ((learned_table_update sample_constants healthy_once faster_input (by decide)
      (by decide!)).2.1 (by decide!)).1,
    ⟨((learned_table_update sample_constants drift_once drift_second_input (by decide)
      (by decide!)).2.2 (by decide!) (by decide!) (by decide!) (by decide!)).1,
    ((learned_table_update sample_constants drift_once drift_second_input (by decide)
      (by decide!)).2.2 (by decide!) (by decide!) (by decide!) (by decide!)).2.1⟩⟩

/-! ## A latch that disagrees with the registry -/

theorem edge_step_cases (G : Family) (fault : Bool) (ev : FailureEvent)
    (d : ObFailureDetector) :
    edge_step G fault ev d = d ∨ edge_step G fault ev d = (add_failure_event d ev).2 ∨
      edge_step G fault ev d = G.set_latch true (add_failure_event d ev).2 ∨
      edge_step G fault ev d = (remove_failure_event d ev).2 ∨
      edge_step G fault ev d = G.set_latch false (remove_failure_event d ev).2 := by
  unfold edge_step
  dsimp only
  split_ifs <;> simp

theorem edge_step_other_latch (F G : Family) (fault : Bool) (ev : FailureEvent)
    (d : ObFailureDetector) (h : F ≠ G) : F.latch (edge_step G fault ev d) = F.latch d := by
  rcases edge_step_cases G fault ev d with e | e | e | e | e <;> rw [e]
  · rw [add_failure_event_eq, add_latch]
  · rw [set_latch_other G F _ _ h, add_failure_event_eq, add_latch]
  · rw [remove_latch]
  · rw [set_latch_other G F _ _ h, remove_latch]

theorem edge_step_other_keys (F G : Family) (fault : Bool) (ev : FailureEvent)
    (d : ObFailureDetector) (h : F ≠ G) (hk : ev.key = G.key) :
    F.key ∈ keys (edge_step G fault ev d).events_with_ops_ ↔ F.key ∈ keys d.events_with_ops_ := by
  have hne : F.key ≠ ev.key := by
    rw [hk]
    exact fun e => h (Family.key_injective F G e)
  have hadd : F.key ∈ keys (add_failure_event d ev).2.events_with_ops_ ↔
      F.key ∈ keys d.events_with_ops_ := by
    rw [add_failure_event_eq, add_events]
    split
    · rw [keys_append_singleton, List.mem_append, List.mem_singleton]
      exact ⟨fun hx => hx.resolve_right hne, Or.inl⟩
    · exact Iff.rfl
  have hrem : F.key ∈ keys (remove_failure_event d ev).2.events_with_ops_ ↔
      F.key ∈ keys d.events_with_ops_ := by
    rw [remove_events]
    split
    · rw [keys_eraseIdx_find_idx]
      exact List.mem_erase_of_ne hne
    · exact Iff.rfl
  rcases edge_step_cases G fault ev d with e | e | e | e | e <;> rw [e]
  · exact hadd
  · rw [set_latch_events]
    exact hadd
  · exact hrem
  · rw [set_latch_events]
    exact hrem

theorem detect_step_other (F G : Family) (d : ObFailureDetector) (p : Probes) (h : F ≠ G) :
    F.latch (detect_step G d p) = F.latch d ∧
    (F.key ∈ keys (detect_step G d p).events_with_ops_ ↔ F.key ∈ keys d.events_with_ops_) := by
  rw [detect_step_eq]
  split
  · exact ⟨rfl, Iff.rfl⟩
  · exact ⟨edge_step_other_latch F G _ _ d h,
      edge_step_other_keys F G _ _ d h (Family.event_key G p)⟩

theorem detect_step_stuck_set (F : Family) (d : ObFailureDetector) (p : Probes)
    (hl : F.latch d = true) (hk : F.key ∉ keys d.events_with_ops_) : detect_step F d p = d := by
  by_cases hrun : d.is_running_ = true
  · rw [detect_step_eq]
    split
    · rfl
    · cases hf : F.fault p
      · have hmiss : (F.event p).key ∉ keys d.events_with_ops_ := by
          rw [Family.event_key]
          exact hk
        apply edge_step_failed_remove F _ d hl
        rw [remove_miss d _ hrun hmiss]
        exact fun e => ObRet.noConfusion e
      · exact edge_step_no_edge F true _ d hl
  · exact detect_step_not_running F d p (by simpa using hrun)

theorem detect_step_stuck_clear (F : Family) (d : ObFailureDetector) (p : Probes)
    (hl : F.latch d = false) (hk : F.key ∈ keys d.events_with_ops_) : detect_step F d p = d := by
  by_cases hrun : d.is_running_ = true
  · rw [detect_step_eq]
    split
    · rfl
    · cases hf : F.fault p
      · exact edge_step_no_edge F false _ d hl
      · apply edge_step_failed_add F _ d hl
        rw [add_failure_event_eq, add_ret, if_pos hrun, Family.event_key,
          if_neg (by simpa using hk)]
        exact fun e => ObRet.noConfusion e
  · exact detect_step_not_running F d p (by simpa using hrun)

/-- A latch that disagrees with the registry stays as it is, and the registry
keeps disagreeing, through the step of any family. -/
theorem detect_step_keeps_disagreement (F G : Family) (b : Bool) (d : ObFailureDetector)
    (p : Probes) (hl : F.latch d = b) (hk : F.key ∈ keys d.events_with_ops_ ↔ b = false) :
    F.latch (detect_step G d p) = b ∧
    (F.key ∈ keys (detect_step G d p).events_with_ops_ ↔ b = false) := by
  by_cases h : F = G
  · subst h
    have hsame : detect_step F d p = d := by
      cases b
      · exact detect_step_stuck_clear F d p hl (hk.mpr rfl)
      · exact detect_step_stuck_set F d p hl (fun hx => Bool.noConfusion (hk.mp hx))
    rw [hsame]
    exact ⟨hl, hk⟩
  · obtain ⟨h1, h2⟩ := detect_step_other F G d p h
    exact ⟨h1.trans hl, h2.trans hk⟩

theorem detect_failure_steps (arb : Bool) (d : ObFailureDetector) (p : Probes) :
    detect_failure arb d p =
      if arb = true then
        detect_step Family.election_silent
          (detect_step Family.schema_error
            (detect_step Family.clog_full
              (detect_step Family.data_disk_hang (detect_step Family.clog_hang d p) p) p) p) p
      else
        detect_step Family.schema_error
          (detect_step Family.clog_full
            (detect_step Family.data_disk_hang (detect_step Family.clog_hang d p) p) p) p := rfl

theorem detect_failure_keeps_disagreement (arb : Bool) (F : Family) (b : Bool)
    (d : ObFailureDetector) (p : Probes) (hl : F.latch d = b)
    (hk : F.key ∈ keys d.events_with_ops_ ↔ b = false) :
    F.latch (detect_failure arb d p) = b ∧
    (F.key ∈ keys (detect_failure arb d p).events_with_ops_ ↔ b = false) := by
  obtain ⟨a1, a2⟩ := detect_step_keeps_disagreement F Family.clog_hang b d p hl hk
  obtain ⟨b1, b2⟩ := detect_step_keeps_disagreement F Family.data_disk_hang b _ p a1 a2
  obtain ⟨c1, c2⟩ := detect_step_keeps_disagreement F Family.clog_full b _ p b1 b2
  obtain ⟨d1, d2⟩ := detect_step_keeps_disagreement F Family.schema_error b _ p c1 c2
  rw [detect_failure_steps]
  split
  · exact detect_step_keeps_disagreement F Family.election_silent b _ p d1 d2
  · exact ⟨d1, d2⟩

theorem detect_failure_run_keeps_disagreement (arb : Bool) (F : Family) (b : Bool) :
    ∀ (ps : List Probes) (d : ObFailureDetector), F.latch d = b →
      (F.key ∈ keys d.events_with_ops_ ↔ b = false) →
      F.latch (run arb d (ps.map Call.detect_failure)) = b ∧
      (F.key ∈ keys (run arb d (ps.map Call.detect_failure)).events_with_ops_ ↔ b = false) := by
  intro ps
  induction ps with
  | nil =>
    intro d hl hk
    exact ⟨hl, hk⟩
  | cons p rest ih =>
    intro d hl hk
    obtain ⟨h1, h2⟩ := detect_failure_keeps_disagreement arb F b d p hl hk
    exact ih (detect_failure arb d p) h1 h2

/-- C38: a latch that disagrees with the registry is stuck.  If the latch of a
family is set while no entry of the active list is equal to the event of the
family, then after any sequence of runs of `detect_failure` the latch is still
set and there is still no such entry; the step of the family is the identity,
and when it finds the fault gone on a running registry its
`remove_failure_event` returns `OB_ENTRY_NOT_EXIST`.  If the latch is not set
while an entry equal to the event is in the list, then after any sequence of
runs of `detect_failure` the latch is still not set and the entry is still
there; the step of the family is the identity, and when it finds the fault on
a running registry its `add_failure_event` returns `OB_ENTRY_EXIST`. -/
theorem stuck_latch (arb : Bool) (F : Family) (d : ObFailureDetector) :
    (F.latch d = true → contains_event d.events_with_ops_ F.canonical_event = false →
      (∀ ps : List Probes,
        F.latch (run arb d (ps.map Call.detect_failure)) = true ∧
        contains_event (run arb d (ps.map Call.detect_failure)).events_with_ops_
          F.canonical_event = false) ∧
      (∀ p : Probes, detect_step F d p = d) ∧
      (∀ p : Probes, d.is_running_ = true →
        (remove_failure_event d (F.event p)).1 = OB_ENTRY_NOT_EXIST)) ∧
    (F.latch d = false → contains_event d.events_with_ops_ F.canonical_event = true →
      (∀ ps : List Probes,
        F.latch (run arb d (ps.map Call.detect_failure)) = false ∧
        contains_event (run arb d (ps.map Call.detect_failure)).events_with_ops_
          F.canonical_event = true) ∧
      (∀ p : Probes, detect_step F d p = d) ∧
      (∀ p : Probes, d.is_running_ = true →
        (add_failure_event d (F.event p)).1 = OB_ENTRY_EXIST)) := by
  constructor
  · intro hl hc
    have hk : F.key ∉ keys d.events_with_ops_ := by
      intro hx
      rw [(contains_event_iff_key _ _).mpr hx] at hc
      exact Bool.noConfusion hc
    refine ⟨?_, fun p => detect_step_stuck_set F d p hl hk, ?_⟩
    · intro ps
      obtain ⟨h1, h2⟩ := detect_failure_run_keeps_disagreement arb F true ps d hl
        ⟨fun hx => absurd hx hk, fun hx => Bool.noConfusion hx⟩
      refine ⟨h1, ?_⟩
      cases hcc : contains_event (run arb d (ps.map Call.detect_failure)).events_with_ops_
        F.canonical_event
      · rfl
      · exact Bool.noConfusion (h2.mp ((contains_event_iff_key _ _).mp hcc))
    · intro p hrun
      have hmiss : (F.event p).key ∉ keys d.events_with_ops_ := by
        rw [Family.event_key]
        exact hk
      rw [remove_miss d _ hrun hmiss]
  · intro hl hc
    have hk : F.key ∈ keys d.events_with_ops_ := (contains_event_iff_key _ _).mp hc
    refine ⟨?_, fun p => detect_step_stuck_clear F d p hl hk, ?_⟩
    · intro ps
      obtain ⟨h1, h2⟩ := detect_failure_run_keeps_disagreement arb F false ps d hl
        ⟨fun _ => rfl, fun _ => hk⟩
      exact ⟨h1, (contains_event_iff_key _ _).mpr (h2.mpr rfl)⟩
    · intro p hrun
      rw [add_failure_event_eq, add_ret, if_pos hrun, Family.event_key,
        if_neg (by simpa using hk)]

theorem stuck_latch_witness :
    ((Family.latch (run false clog_full_removed
          ([healthy_probes, full_disk_probes].map Call.detect_failure))
        Family.clog_full = true ∧
      contains_event (run false clog_full_removed
          ([healthy_probes, full_disk_probes].map Call.detect_failure)).events_with_ops_
        (Family.canonical_event Family.clog_full) = false) ∧
      detect_step Family.clog_full clog_full_removed healthy_probes = clog_full_removed ∧
      (remove_failure_event clog_full_removed
        (Family.event healthy_probes Family.clog_full)).1 = OB_ENTRY_NOT_EXIST) ∧
    ((Family.latch (run false clog_full_added
          ([full_disk_probes, healthy_probes].map Call.detect_failure))
        Family.clog_full = false ∧
      contains_event (run false clog_full_added
          ([full_disk_probes, healthy_probes].map Call.detect_failure)).events_with_ops_
        (Family.canonical_event Family.clog_full) = true) ∧
      detect_step Family.clog_full clog_full_added full_disk_probes = clog_full_added ∧
      (add_failure_event clog_full_added
        (Family.event full_disk_probes Family.clog_full)).1 = OB_ENTRY_EXIST) :=
  have h1 := (stuck_latch false Family.clog_full clog_full_removed).1 (by decide) (by decide)
  have h2 := (stuck_latch false Family.clog_full clog_full_added).2 (by decide) (by decide)
  ⟨⟨h1.1 [healthy_probes, full_disk_probes], h1.2.1 healthy_probes,
      h1.2.2 healthy_probes (by decide)⟩,
    ⟨h2.1 [full_disk_probes, healthy_probes], h2.2.1 full_disk_probes,
      h2.2.2 full_disk_probes (by decide)⟩⟩

/-! ## The audit call of `detect_recover` -/

theorem getElem_append_cons_length (pre post : List FailureEventWithRecoverOp)
    (x : FailureEventWithRecoverOp) (h : pre.length < (pre ++ x :: post).length) :
    (pre ++ x :: post)[pre.length] = x := by
  simpa using get_of_split (pre ++ x :: post) pre post x pre.length h rfl rfl

theorem getElem_of_split (l pre post : List FailureEventWithRecoverOp)
    (x : FailureEventWithRecoverOp) (h : pre.length < l.length) (hl : l = pre ++ x :: post) :
    l[pre.length] = x := by
  simpa using get_of_split l pre post x pre.length h hl rfl

theorem detect_recover_loop_advance (recover_flag : Nat → Bool) (fuel idx : Nat)
    (d : ObFailureDetector) (hlt : idx < d.events_with_ops_.length)
    (hs : survives recover_flag d.events_with_ops_[idx] = true) :
    detect_recover_loop recover_flag (fuel + 1) idx d =
      detect_recover_loop recover_flag fuel (idx + 1) d := by
  rw [detect_recover_loop]
  simp only [hlt, dite_true, List.get_eq_getElem]
  cases hop : (d.events_with_ops_[idx]).recover_detect_operation_ with
  | none => rfl
  | some k =>
    have hk : recover_flag k = false := by
      simpa [survives, hop] using hs
    simp only [hk, Bool.false_eq_true, if_false]

theorem detect_recover_loop_remove (recover_flag : Nat → Bool) (fuel idx : Nat)
    (d : ObFailureDetector) (hlt : idx < d.events_with_ops_.length) (k : Nat)
    (hop : (d.events_with_ops_[idx]).recover_detect_operation_ = some k)
    (hk : recover_flag k = true) :
    detect_recover_loop recover_flag (fuel + 1) idx d =
      detect_recover_loop recover_flag fuel idx
        (insert_recovered_to_table_
          { d with events_with_ops_ := d.events_with_ops_.eraseIdx idx } idx) := by
  rw [detect_recover_loop]
  simp only [hlt, dite_true, List.get_eq_getElem]
  rw [hop]
  simp only [hk, if_true]

theorem detect_recover_loop_skip (recover_flag : Nat → Bool) (fuel : Nat)
    (d : ObFailureDetector) :
    ∀ (pre done rest : List FailureEventWithRecoverOp),
      d.events_with_ops_ = done ++ pre ++ rest →
      (∀ e ∈ pre, survives recover_flag e = true) →
      detect_recover_loop recover_flag (fuel + pre.length) done.length d =
        detect_recover_loop recover_flag fuel (done.length + pre.length) d := by
  intro pre
  induction pre with
  | nil =>
    intro done rest _ _
    rfl
  | cons x pre ih =>
    intro done rest hl hpre
    have hlt : done.length < d.events_with_ops_.length := by
      rw [hl]
      simp
    have hx : d.events_with_ops_[done.length] = x :=
      getElem_of_split d.events_with_ops_ done (pre ++ rest) x hlt (by rw [hl]; simp)
    have hs : survives recover_flag d.events_with_ops_[done.length] = true := by
      rw [hx]
      exact hpre x (List.mem_cons_self x pre)
    have hstep := detect_recover_loop_advance recover_flag (fuel + pre.length) done.length d
      hlt hs
    have hih := ih (done ++ [x]) rest (by rw [hl]; simp)
      (fun e he => hpre e (List.mem_cons_of_mem x he))
    simp only [List.length_append, List.length_cons, List.length_nil] at hih
    simp only [List.length_cons]
    rw [show fuel + (pre.length + 1) = fuel + pre.length + 1 by omega, hstep, hih]
    congr 1
    omega

theorem insert_recovered_history (d : ObFailureDetector)
    (pre post : List FailureEventWithRecoverOp) :
    (post = [] →
      insert_recovered_to_table_ { d with events_with_ops_ := pre ++ post } pre.length =
        { d with
          events_with_ops_ := pre
          server_event_history_ := d.server_event_history_ ++
            [ServerEvent.row_out_of_range "DETECT REVOCER"] }) ∧
    (∀ (y : FailureEventWithRecoverOp) (rest : List FailureEventWithRecoverOp),
      post = y :: rest →
      insert_recovered_to_table_ { d with events_with_ops_ := pre ++ post } pre.length =
        { d with
          events_with_ops_ := pre ++ post
          server_event_history_ := d.server_event_history_ ++
            [ServerEvent.row "DETECT REVOCER" y.event_.module_ y.event_.type_
              y.recover_detect_operation_.is_valid] }) := by
  constructor
  · intro h
    subst h
    simp [insert_recovered_to_table_]
  · intro y rest h
    subst h
    simp [insert_recovered_to_table_, insert_event_to_table_, getElem_append_cons_length]

/-- C39: in `detect_recover`, when the entries before position `i` survive and
the entry at position `i` recovers, the run removes that entry and makes its
audit call with `events_with_ops_[i]` read from the array as it is after the
removal, then goes on from the same position.  When the removed entry was the
last one, `i` is the new count of the array, so the access is out of range
and the run ends there.  When it was not the last one, the row carries the
module, the type and the callable of the entry that followed it. -/
theorem detect_recover_audit_index (recover_flag : Nat → Bool) (d : ObFailureDetector)
    (pre post : List FailureEventWithRecoverOp) (x : FailureEventWithRecoverOp) (k : Nat)
    (hl : d.events_with_ops_ = pre ++ x :: post)
    (hpre : ∀ e ∈ pre, survives recover_flag e = true)
    (hx : x.recover_detect_operation_ = some k) (hk : recover_flag k = true) :
    d.events_with_ops_.get? pre.length = some x ∧
    d.events_with_ops_.eraseIdx pre.length = pre ++ post ∧
    detect_recover d recover_flag =
      detect_recover_loop recover_flag post.length pre.length
        (insert_recovered_to_table_ { d with events_with_ops_ := pre ++ post } pre.length) ∧
    (post = [] →
      pre.length = (pre ++ post).length ∧
      (pre ++ post).get? pre.length = none ∧
      detect_recover d recover_flag =
        { d with
          events_with_ops_ := pre
          server_event_history_ := d.server_event_history_ ++
            [ServerEvent.row_out_of_range "DETECT REVOCER"] }) ∧
    (∀ (y : FailureEventWithRecoverOp) (rest : List FailureEventWithRecoverOp),
      post = y :: rest →
      (pre ++ post).get? pre.length = some y ∧
      insert_recovered_to_table_ { d with events_with_ops_ := pre ++ post } pre.length =
        { d with
          events_with_ops_ := pre ++ post
          server_event_history_ := d.server_event_history_ ++
            [ServerEvent.row "DETECT REVOCER" y.event_.module_ y.event_.type_
              y.recover_detect_operation_.is_valid] }) := by
  have hget : d.events_with_ops_.get? pre.length = some x := by
    rw [hl]
    simp [getElem_append_cons_length]
  have herase : d.events_with_ops_.eraseIdx pre.length = pre ++ post := by
    rw [hl, eraseIdx_append_cons]
  have hlt : pre.length < d.events_with_ops_.length := by
    rw [hl]
    simp
  have hxi : d.events_with_ops_[pre.length] = x :=
    getElem_of_split d.events_with_ops_ pre post x hlt hl
  have hrun : detect_recover d recover_flag =
      detect_recover_loop recover_flag post.length pre.length
        (insert_recovered_to_table_ { d with events_with_ops_ := pre ++ post } pre.length) := by
    unfold detect_recover
    have hlen : d.events_with_ops_.length = post.length + 1 + pre.length := by
      rw [hl]
      simp
      omega
    have hskip := detect_recover_loop_skip recover_flag (post.length + 1) d pre []
      (x :: post) (by rw [hl]; simp) hpre
    simp only [List.length_nil, Nat.zero_add] at hskip
    rw [hlen, hskip,
      detect_recover_loop_remove recover_flag post.length pre.length d hlt k
        (by rw [hxi]; exact hx) hk, herase]
  obtain ⟨hlast, hnext⟩ := insert_recovered_history d pre post
  refine ⟨hget, herase, hrun, ?_, ?_⟩
  · intro hp
    refine ⟨by rw [hp]; simp, by rw [hp]; simp, ?_⟩
    rw [hrun, hlast hp, hp]
    rfl
  · intro y rest hp
    exact ⟨by rw [hp]; simp [getElem_append_cons_length], hnext y rest hp⟩

theorem detect_recover_audit_index_witness :
    (detect_recover single_recovering (fun _ => true) =
      { single_recovering with
        events_with_ops_ := []
        server_event_history_ := single_recovering.server_event_history_ ++
          [ServerEvent.row_out_of_range "DETECT REVOCER"] }) ∧
    (insert_recovered_to_table_
        { three_entries with
          events_with_ops_ :=
            [{ event_ := clog_disk_full_event, recover_detect_operation_ := none }] ++
              [{ event_ := data_disk_io_hang_event, recover_detect_operation_ := none }] }
        ([{ event_ := clog_disk_full_event, recover_detect_operation_ := none }] :
          List FailureEventWithRecoverOp).length =
      { three_entries with
        events_with_ops_ :=
          [{ event_ := clog_disk_full_event, recover_detect_operation_ := none }] ++
            [{ event_ := data_disk_io_hang_event, recover_detect_operation_ := none }]
        server_event_history_ := three_entries.server_event_history_ ++
          [ServerEvent.row "DETECT REVOCER" FailureModule.STORAGE FailureType.PROCESS_HANG
            false] }) :=
  ⟨((detect_recover_audit_index (fun _ => true) single_recovering [] []
      { event_ := schema_resource_event, recover_detect_operation_ := some 7 } 7 rfl
      (fun e he => absurd he (List.not_mem_nil e)) rfl rfl).2.2.2.1 rfl).2.2,
    ((detect_recover_audit_index (fun _ => true) three_entries
      [{ event_ := clog_disk_full_event, recover_detect_operation_ := none }]
      [{ event_ := data_disk_io_hang_event, recover_detect_operation_ := none }]
      { event_ := schema_resource_event, recover_detect_operation_ := some 7 } 7 rfl
      (by decide) rfl rfl).2.2.2.2
      { event_ := data_disk_io_hang_event, recover_detect_operation_ := none } [] rfl).2⟩

/-! ## What `has_continuous_error_` counts -/

theorem has_continuous_error_mid_tick (c : PalfConstants) (d : PalfDiskHangDetector)
    (inp : TickInput) :
    has_continuous_error c d inp =
      has_continuous_error_ c (mid_tick c d inp) (has_failure c d)
        (continuous_error_gap c d inp) := rfl

theorem error_count_loop_count (c : PalfConstants) (d : PalfDiskHangDetector) (gap : Nat)
    (bits : List Bool) (hround : d.curr_detect_round_ + 1 = bits.length)
    (hflags : ∀ j : Nat, j < bits.length → bits.length ≤ j + c.MIN_RECOVERY_INTERVAL →
      bits[j]? = some (d.detect_error_flags_ (j % c.MIN_RECOVERY_INTERVAL)))
    (hgap : gap ≤ c.MIN_RECOVERY_INTERVAL) :
    ∀ n : Nat, n ≤ bits.length →
      error_count_loop c d (gap : Int) n =
        ((((bits.take n).drop (bits.length - gap)).count true : Nat) : Int) := by
  intro n
  induction n with
  | zero =>
    intro _
    simp [error_count_loop]
  | succ n ih =>
    intro hn
    rw [error_count_loop]
    by_cases hw : (n : Int) > (d.curr_detect_round_ : Int) - (gap : Int)
    · have hk : bits.length - gap ≤ n := by omega
      have hbit := hflags n (by omega) (by omega)
      rw [if_pos hw, ih (by omega), List.take_succ, hbit]
      have hlen : bits.length - gap ≤ (bits.take n).length := by
        rw [List.length_take]
        omega
      rw [Option.toList_some, List.drop_append_of_le_length hlen, List.count_append,
        List.count_singleton]
      cases d.detect_error_flags_ (n % c.MIN_RECOVERY_INTERVAL)
      · simp
      · simp
        omega
    · have hlen : (bits.take (n + 1)).length ≤ bits.length - gap := by
        rw [List.length_take]
        omega
      rw [if_neg hw, List.drop_eq_nil_of_le hlen]
      rfl

/-- C32: during a call that samples on the state that any run of calls has
left on a fresh detector, for every `gap` up to `MIN_RECOVERY_INTERVAL`, the
count of `has_continuous_error_` is the number of true anomaly bits among the
most recent `min(gap, curr_detect_round_ + 1)` rounds, the round of the call
included; the bit of each of these rounds is the flag at
`detect_error_flags_[round % MIN_RECOVERY_INTERVAL]`; and the value is
`count != 0` when failing and `count > gap / 2` (integer division) when not. -/
theorem continuous_error_window (c : PalfConstants) (hist : List TickInput) (inp : TickInput)
    (gap : Nat) (failing : Bool)
    (hs : samples c (feed c (PalfDiskHangDetector.construct c) hist).2 inp = true)
    (hgap : gap ≤ c.MIN_RECOVERY_INTERVAL) :
    error_count_loop c (mid_tick c (feed c (PalfDiskHangDetector.construct c) hist).2 inp)
        (gap : Int) ((feed c (PalfDiskHangDetector.construct c) hist).2.curr_detect_round_ + 1) =
      ((((anomaly_bits c (PalfDiskHangDetector.construct c) (hist ++ [inp])).drop
        ((anomaly_bits c (PalfDiskHangDetector.construct c) (hist ++ [inp])).length -
          gap)).count true : Nat) : Int) ∧
    has_continuous_error_ c (mid_tick c (feed c (PalfDiskHangDetector.construct c) hist).2 inp)
        failing (gap : Int) =
      (if failing = true then
        decide (((anomaly_bits c (PalfDiskHangDetector.construct c) (hist ++ [inp])).drop
          ((anomaly_bits c (PalfDiskHangDetector.construct c) (hist ++ [inp])).length -
            gap)).count true ≠ 0)
      else
        decide (((anomaly_bits c (PalfDiskHangDetector.construct c) (hist ++ [inp])).drop
          ((anomaly_bits c (PalfDiskHangDetector.construct c) (hist ++ [inp])).length -
            gap)).count true > gap / 2)) ∧
    ((anomaly_bits c (PalfDiskHangDetector.construct c) (hist ++ [inp])).drop
        ((anomaly_bits c (PalfDiskHangDetector.construct c) (hist ++ [inp])).length -
          gap)).length =
      min gap ((feed c (PalfDiskHangDetector.construct c) hist).2.curr_detect_round_ + 1) ∧
    (∀ j : Nat, j < (anomaly_bits c (PalfDiskHangDetector.construct c) (hist ++ [inp])).length →
      (anomaly_bits c (PalfDiskHangDetector.construct c) (hist ++ [inp])).length ≤ j + gap →
      (anomaly_bits c (PalfDiskHangDetector.construct c) (hist ++ [inp]))[j]? =
        some ((mid_tick c (feed c (PalfDiskHangDetector.construct c) hist).2
          inp).detect_error_flags_ (j % c.MIN_RECOVERY_INTERVAL))) := by
  have hinv := ring_feed c hist (PalfDiskHangDetector.construct c) [] (ring_construct c)
  rw [List.nil_append] at hinv
  have hbits : anomaly_bits c (PalfDiskHangDetector.construct c) (hist ++ [inp]) =
      anomaly_bits c (PalfDiskHangDetector.construct c) hist ++
        [tick_error_flag c (feed c (PalfDiskHangDetector.construct c) hist).2 inp] := by
    rw [anomaly_bits_append, anomaly_bits_cons_samples c _ inp [] hs]
    rfl
  obtain ⟨hround2, hflags2⟩ := ring_step c _ inp _ hinv
  rw [← hbits] at hround2 hflags2
  have hround : (mid_tick c (feed c (PalfDiskHangDetector.construct c) hist).2
      inp).curr_detect_round_ + 1 =
      (anomaly_bits c (PalfDiskHangDetector.construct c) (hist ++ [inp])).length :=
    hround2
  have hflags : ∀ j : Nat,
      j < (anomaly_bits c (PalfDiskHangDetector.construct c) (hist ++ [inp])).length →
      (anomaly_bits c (PalfDiskHangDetector.construct c) (hist ++ [inp])).length ≤
        j + c.MIN_RECOVERY_INTERVAL →
      (anomaly_bits c (PalfDiskHangDetector.construct c) (hist ++ [inp]))[j]? =
        some ((mid_tick c (feed c (PalfDiskHangDetector.construct c) hist).2
          inp).detect_error_flags_ (j % c.MIN_RECOVERY_INTERVAL)) := hflags2
  have hcount := error_count_loop_count c _ gap _ hround hflags hgap _ (le_refl _)
  rw [List.take_length] at hcount
  have hcount2 : error_count_loop c
      (mid_tick c (feed c (PalfDiskHangDetector.construct c) hist).2 inp) (gap : Int)
      ((feed c (PalfDiskHangDetector.construct c) hist).2.curr_detect_round_ + 1) =
      ((((anomaly_bits c (PalfDiskHangDetector.construct c) (hist ++ [inp])).drop
        ((anomaly_bits c (PalfDiskHangDetector.construct c) (hist ++ [inp])).length -
          gap)).count true : Nat) : Int) := by
    rw [← hcount, ← hround]
    rfl
  refine ⟨hcount2, ?_, ?_, ?_⟩
  · unfold has_continuous_error_
    have hr : (mid_tick c (feed c (PalfDiskHangDetector.construct c) hist).2
        inp).curr_detect_round_ =
        (feed c (PalfDiskHangDetector.construct c) hist).2.curr_detect_round_ := rfl
    have ht : Int.tdiv (gap : Int) 2 = ((gap / 2 : Nat) : Int) := (Int.ofNat_tdiv gap 2).symm
    simp only [hr, hcount2, ht]
    cases failing
    · simp
      omega
    · simp
  · rw [List.length_drop, ← hround]
    have hr : (mid_tick c (feed c (PalfDiskHangDetector.construct c) hist).2
        inp).curr_detect_round_ =
        (feed c (PalfDiskHangDetector.construct c) hist).2.curr_detect_round_ := rfl
    rw [hr]
    omega
  · intro j hj hle
    exact hflags j hj (by omega)

theorem continuous_error_window_witness :
    error_count_loop sample_constants
        (mid_tick sample_constants
          (feed sample_constants (PalfDiskHangDetector.construct sample_constants)
            [long_pending_input]).2 later_idle_input)
        ((5 : Nat) : Int)
        ((feed sample_constants (PalfDiskHangDetector.construct sample_constants)
          [long_pending_input]).2.curr_detect_round_ + 1) =
      ((((anomaly_bits sample_constants (PalfDiskHangDetector.construct sample_constants)
          ([long_pending_input] ++ [later_idle_input])).drop
        ((anomaly_bits sample_constants (PalfDiskHangDetector.construct sample_constants)
          ([long_pending_input] ++ [later_idle_input])).length - 5)).count true : Nat) : Int) :=
  (continuous_error_window sample_constants [long_pending_input] later_idle_input 5 true
    (by decide) (by decide)).1

/-! ## A window longer than the ring of flags, and an empty window -/

set_option maxRecDepth 1000000 in
theorem wrap_state :
    has_failure sample_constants
      (feed sample_constants (PalfDiskHangDetector.construct sample_constants)
        wrap_history).2 = false ∧
    samples sample_constants
      (feed sample_constants (PalfDiskHangDetector.construct sample_constants)
        wrap_history).2 wrap_input = true ∧
    continuous_error_gap sample_constants
      (feed sample_constants (PalfDiskHangDetector.construct sample_constants)
        wrap_history).2 wrap_input = 40 := by
  refine ⟨?_, ?_, ?_⟩ <;> decide!

set_option maxRecDepth 1000000 in
theorem wrap_bits :
    anomaly_bits sample_constants (PalfDiskHangDetector.construct sample_constants)
      (wrap_history ++ [wrap_input]) =
      List.replicate 11 false ++ List.replicate 10 true := by
  decide!

set_option maxRecDepth 1000000 in
theorem wrap_count :
    error_count_loop sample_constants
      (mid_tick sample_constants
        (feed sample_constants (PalfDiskHangDetector.construct sample_constants)
          wrap_history).2 wrap_input) 40
      ((feed sample_constants (PalfDiskHangDetector.construct sample_constants)
        wrap_history).2.curr_detect_round_ + 1) = 21 := by
  decide!

set_option maxRecDepth 1000000 in
theorem wrap_result :
    has_continuous_error sample_constants
      (feed sample_constants (PalfDiskHangDetector.construct sample_constants)
        wrap_history).2 wrap_input = true ∧
    (is_clog_disk_hang sample_constants
      (feed sample_constants (PalfDiskHangDetector.construct sample_constants)
        wrap_history).2 wrap_input).1 = true := by
  refine ⟨?_, ?_⟩ <;> decide!

theorem has_continuous_error_gap_zero (c : PalfConstants) (d : PalfDiskHangDetector)
    (inp : TickInput) (hf : has_failure c d = false)
    (hgap : continuous_error_gap c d inp = 0) : has_continuous_error c d inp = false := by
  have hz := (error_count_loop_eq_zero_iff c (mid_tick c d inp) 0
    (d.curr_detect_round_ + 1)).mpr (by
      intro i hi hgt
      have hr : (mid_tick c d inp).curr_detect_round_ = d.curr_detect_round_ := rfl
      rw [hr] at hgt
      omega)
  rw [has_continuous_error_mid_tick, hf, hgap]
  unfold has_continuous_error_
  have hr : (mid_tick c d inp).curr_detect_round_ = d.curr_detect_round_ := rfl
  simp only [hr, hz]
  simp

theorem continuous_error_gap_short_tolerance (c : PalfConstants) (d : PalfDiskHangDetector)
    (inp : TickInput) (hf : has_failure c d = false) (h0 : 0 ≤ inp.tolerance_time)
    (h1 : inp.tolerance_time < c.PALF_DISK_DETECT_INTERVAL_US) :
    continuous_error_gap c d inp = 0 := by
  unfold continuous_error_gap
  rw [hf]
  exact Int.tdiv_eq_zero_of_lt h0 h1

/-- C40: on calls from a state that is not failing the window is
`gap = tolerance_time / PALF_DISK_DETECT_INTERVAL_US` rounds.  First part, a
window longer than the ring: with the constants of the examples
(`MIN_RECOVERY_INTERVAL` ten, one second between samples) and a tolerance of
forty seconds, after ten quiet calls, one healthy call and nine degraded
calls on a fresh detector, the state is not failing and the tenth degraded
call samples with `gap` forty; the anomaly bits are eleven false followed by
ten true, so ten of the rounds in the window are anomalous, which is not more
than `gap / 2`; yet the loop of `has_continuous_error_` counts twenty-one, the
same flags being read for several rounds, `has_continuous_error_` returns
true, and the call raises.  Second part, an empty window: on a call from a
state that is not failing with `gap` zero, as it is for a tolerance from zero
up to one interval, `has_continuous_error_` returns false, and the call, when
it samples, returns `has_long_pending_io`. -/
theorem window_longer_than_ring (c : PalfConstants) (d : PalfDiskHangDetector)
    (inp : TickInput) :
    (has_failure sample_constants
        (feed sample_constants (PalfDiskHangDetector.construct sample_constants)
          wrap_history).2 = false ∧
      samples sample_constants
        (feed sample_constants (PalfDiskHangDetector.construct sample_constants)
          wrap_history).2 wrap_input = true ∧
      continuous_error_gap sample_constants
        (feed sample_constants (PalfDiskHangDetector.construct sample_constants)
          wrap_history).2 wrap_input = 40 ∧
      (sample_constants.MIN_RECOVERY_INTERVAL : Int) ≤ Int.tdiv 40 2 ∧
      anomaly_bits sample_constants (PalfDiskHangDetector.construct sample_constants)
        (wrap_history ++ [wrap_input]) =
        List.replicate 11 false ++ List.replicate 10 true ∧
      (((anomaly_bits sample_constants (PalfDiskHangDetector.construct sample_constants)
        (wrap_history ++ [wrap_input])).drop
          ((anomaly_bits sample_constants (PalfDiskHangDetector.construct sample_constants)
            (wrap_history ++ [wrap_input])).length - 40)).count true : Int) ≤ Int.tdiv 40 2 ∧
      error_count_loop sample_constants
        (mid_tick sample_constants
          (feed sample_constants (PalfDiskHangDetector.construct sample_constants)
            wrap_history).2 wrap_input) 40
        ((feed sample_constants (PalfDiskHangDetector.construct sample_constants)
          wrap_history).2.curr_detect_round_ + 1) = 21 ∧
      has_continuous_error sample_constants
        (feed sample_constants (PalfDiskHangDetector.construct sample_constants)
          wrap_history).2 wrap_input = true ∧
      (is_clog_disk_hang sample_constants
        (feed sample_constants (PalfDiskHangDetector.construct sample_constants)
          wrap_history).2 wrap_input).1 = true) ∧
    (has_failure c d = false → continuous_error_gap c d inp = 0 →
      has_continuous_error c d inp = false ∧
      (samples c d inp = true → (is_clog_disk_hang c d inp).1 = has_long_pending_io c inp)) ∧
    (has_failure c d = false → 0 ≤ inp.tolerance_time →
      inp.tolerance_time < c.PALF_DISK_DETECT_INTERVAL_US →
      continuous_error_gap c d inp = 0) := by
  refine ⟨⟨wrap_state.1, wrap_state.2.1, wrap_state.2.2, by decide, wrap_bits, ?_, wrap_count,
    wrap_result.1, wrap_result.2⟩, ?_,
    fun hf h0 h1 => continuous_error_gap_short_tolerance c d inp hf h0 h1⟩
  · rw [wrap_bits]
    decide
  · intro hf hgap
    have hc := has_continuous_error_gap_zero c d inp hf hgap
    refine ⟨hc, ?_⟩
    intro hs
    rw [is_clog_disk_hang_value c d inp hs, tick_result_not_failing c d inp hf, hc]
    simp

theorem window_longer_than_ring_witness :
    (has_continuous_error sample_constants (PalfDiskHangDetector.construct sample_constants)
        short_tolerance_input = false ∧
      (samples sample_constants (PalfDiskHangDetector.construct sample_constants)
          short_tolerance_input = true →
        (is_clog_disk_hang sample_constants (PalfDiskHangDetector.construct sample_constants)
          short_tolerance_input).1 =
          has_long_pending_io sample_constants short_tolerance_input)) ∧
    continuous_error_gap sample_constants (PalfDiskHangDetector.construct sample_constants)
      short_tolerance_input = 0 :=
  ⟨(window_longer_than_ring sample_constants (PalfDiskHangDetector.construct sample_constants)
      short_tolerance_input).2.1 (by decide) (by decide),
    (window_longer_than_ring sample_constants (PalfDiskHangDetector.construct sample_constants)
      short_tolerance_input).2.2 (by decide) (by decide) (by decide)⟩

end coordinator
